import Mathlib

/-!
CILPE metadata decoder: a shallow embedding.

Lean model of `src/MdDecoder` (PeLoader, MethodCode, ILMethodDecoder).

Conventions of the embedding.
* `long`, `int`, `Int32` are 32-bit two's-complement integers: values are `Int`, and every
  arithmetic result is reduced with `wrap32`.
* Unmanaged memory reached through a pointer (`code`, `sig`) is a function from offsets to
  bytes; the source never checks a bound, so a read returns whatever the memory holds.
* A managed reference that may be `NULL` is an `ObjRef` (with `ObjRef.null`) or an `Option`.
* Recursion and `do ... while` loops over signature memory take a fuel argument; `none`
  means the fuel ran out.
-/

namespace CILPE.MdDecoder

/-! ## Machine integers -/

/-- Two's-complement reduction to the range of a 32-bit signed integer. -/
def wrap32 (x : Int) : Int := (x + 2147483648) % 4294967296 - 2147483648

/-- The integer is representable as a 32-bit signed integer. -/
def inInt32 (x : Int) : Prop := -2147483648 ≤ x ∧ x ≤ 2147483647

instance (x : Int) : Decidable (inInt32 x) :=
  inferInstanceAs (Decidable (-2147483648 ≤ x ∧ x ≤ 2147483647))

/-! ## PeLoader.cpp: section headers and code sections -/

/-- The `SectionHeader` struct of PeLoader.cpp (the 8-byte `Name` is a list of bytes). -/
structure SectionHeader where
  Name : List Nat
  VirtualSize : Int
  VirtualAddress : Int
  SizeOfRawData : Int
  PointerToRawData : Int
  PointerToRelocations : Int
  PointerToLinenumbers : Int
  NumberOfRelocations : Int
  NumberOfLinenumbers : Int
  Characteristics : Int
deriving DecidableEq, Repr

/-- Section contains executable code. -/
def CNT_CODE : Int := 0x00000020

/-- Section can be executed as code. -/
def MEM_EXECUTE : Int := 0x20000000

/-- Section can be read. -/
def MEM_READ : Int := 0x40000000

/-- The `CodeSection` class: `long filePos, RVA, length`. -/
structure CodeSection where
  filePos : Int
  RVA : Int
  length : Int
deriving DecidableEq, Repr

/-- `CodeSection::RvaToFilePos`:
`(rva >= RVA && rva < RVA+length) ? filePos+rva-RVA : -1`, in 32-bit arithmetic. -/
def CodeSection.RvaToFilePos (s : CodeSection) (rva : Int) : Int :=
  if rva ≥ s.RVA ∧ rva < wrap32 (s.RVA + s.length) then
    wrap32 (wrap32 (s.filePos + rva) - s.RVA)
  else
    -1

/-- The test of both section loops of the `PeLoader` constructor:
`sections[i].Characteristics == (MEM_READ | CNT_CODE | MEM_EXECUTE)`. -/
def isCodeSection (h : SectionHeader) : Bool :=
  decide (h.Characteristics = Int.lor (Int.lor MEM_READ CNT_CODE) MEM_EXECUTE)

/-- First loop of the `PeLoader` constructor: counts the matching sections
(`for (i = 0; i < sectionsNumber; i++) if (...) codeSectionsNum++`). `sections` is the section
table in the image, `sectionsNumber` the `short` read from the file header. -/
def PeLoader.countCodeSections (sections : Nat → SectionHeader) (sectionsNumber : Int) : Nat :=
  (List.range sectionsNumber.toNat).foldl
    (fun codeSectionsNum i =>
      if isCodeSection (sections i) then codeSectionsNum + 1 else codeSectionsNum) 0

/-- A store into a managed array; `none` is the index-out-of-range exception. -/
def arrayStore {α : Type} (arr : List α) (i : Nat) (v : α) : Option (List α) :=
  if i < arr.length then some (arr.set i v) else none

/-- One iteration of the second loop of the `PeLoader` constructor: for a matching section,
`codeSections[codeSectionsNum++] = new CodeSection(PointerToRawData, VirtualAddress,
VirtualSize)`. The state is the array and `codeSectionsNum`. -/
def PeLoader.fillStep (sections : Nat → SectionHeader)
    (st : Option (List (Option CodeSection) × Nat)) (i : Nat) :
    Option (List (Option CodeSection) × Nat) :=
  match st with
  | none => none
  | some (codeSections, codeSectionsNum) =>
    if isCodeSection (sections i) then
      match arrayStore codeSections codeSectionsNum
          (some ⟨(sections i).PointerToRawData, (sections i).VirtualAddress,
            (sections i).VirtualSize⟩) with
      | none => none
      | some arr => some (arr, codeSectionsNum + 1)
    else
      some (codeSections, codeSectionsNum)

/-- The section scan of the `PeLoader` constructor: count, allocate
`new CodeSection * [codeSectionsNum]` (all `NULL`), then fill. The result is the
`codeSections` array; `none` would be an exception from an array store. -/
def PeLoader.scanCodeSections (sections : Nat → SectionHeader) (sectionsNumber : Int) :
    Option (List (Option CodeSection)) :=
  let codeSectionsNum := PeLoader.countCodeSections sections sectionsNumber
  ((List.range sectionsNumber.toNat).foldl (PeLoader.fillStep sections)
    (some (List.replicate codeSectionsNum none, 0))).map Prod.fst

/-- The section table as a list: entries `0 .. sectionsNumber-1`. -/
def sectionTable (sections : Nat → SectionHeader) (sectionsNumber : Int) : List SectionHeader :=
  (List.range sectionsNumber.toNat).map sections

/-! ## Managed objects -/

/-- The `System.Type` objects: the ones the decoder names with `__typeof`, and the types a
caller supplies (`resolved id`). -/
inductive SysType where
  | Boolean | Char | SByte | Byte | Int16 | UInt16 | Int32 | UInt32 | Int64 | UInt64
  | Single | Double | IntPtr | UIntPtr | String | Object | TypedReference
  | resolved (id : Nat)
deriving DecidableEq, Repr

/-- A managed `Object *`: `NULL`, a `Type`, a boxed `Int32`, a `String`, or any other object
of the caller. -/
inductive ObjRef where
  | null
  | type (t : SysType)
  | boxInt32 (v : Int)
  | str (s : String)
  | other (id : Nat)
deriving DecidableEq, Repr

/-- The test `if (obj)` on a managed reference. -/
def ObjRef.isNull : ObjRef → Bool
  | .null => true
  | _ => false

/-- The `dynamic_cast <Type*>` of a managed reference: `NULL` unless the object is a `Type`. -/
def ObjRef.castType : ObjRef → ObjRef
  | .type t => .type t
  | _ => .null

/-- What the managed runtime raises: the dereference of a `NULL` reference or pointer, the
allocation of an array of negative length, and an array index out of range. -/
inductive Fault where
  | nullReference
  | overflow
  | indexOutOfRange
deriving DecidableEq, Repr

/-! ## Constants of `corhdr.h` -/

/-- Modelled from the spec: `ELEMENT_TYPE_VOID` of `corhdr.h` (not in the sources), with the
value of ECMA-335 §II.23.1.16 that the spec refers to. -/
abbrev ELEMENT_TYPE_VOID : Nat := 0x01

/-- Modelled from the spec: `ELEMENT_TYPE_BOOLEAN` of `corhdr.h` (ECMA-335 value). -/
abbrev ELEMENT_TYPE_BOOLEAN : Nat := 0x02

/-- Modelled from the spec: `ELEMENT_TYPE_CHAR` of `corhdr.h` (ECMA-335 value). -/
abbrev ELEMENT_TYPE_CHAR : Nat := 0x03

/-- Modelled from the spec: `ELEMENT_TYPE_I1` of `corhdr.h` (ECMA-335 value). -/
abbrev ELEMENT_TYPE_I1 : Nat := 0x04

/-- Modelled from the spec: `ELEMENT_TYPE_U1` of `corhdr.h` (ECMA-335 value). -/
abbrev ELEMENT_TYPE_U1 : Nat := 0x05

/-- Modelled from the spec: `ELEMENT_TYPE_I2` of `corhdr.h` (ECMA-335 value). -/
abbrev ELEMENT_TYPE_I2 : Nat := 0x06

/-- Modelled from the spec: `ELEMENT_TYPE_U2` of `corhdr.h` (ECMA-335 value). -/
abbrev ELEMENT_TYPE_U2 : Nat := 0x07

/-- Modelled from the spec: `ELEMENT_TYPE_I4` of `corhdr.h` (ECMA-335 value). -/
abbrev ELEMENT_TYPE_I4 : Nat := 0x08

/-- Modelled from the spec: `ELEMENT_TYPE_U4` of `corhdr.h` (ECMA-335 value). -/
abbrev ELEMENT_TYPE_U4 : Nat := 0x09

/-- Modelled from the spec: `ELEMENT_TYPE_I8` of `corhdr.h` (ECMA-335 value). -/
abbrev ELEMENT_TYPE_I8 : Nat := 0x0A

/-- Modelled from the spec: `ELEMENT_TYPE_U8` of `corhdr.h` (ECMA-335 value). -/
abbrev ELEMENT_TYPE_U8 : Nat := 0x0B

/-- Modelled from the spec: `ELEMENT_TYPE_R4` of `corhdr.h` (ECMA-335 value). -/
abbrev ELEMENT_TYPE_R4 : Nat := 0x0C

/-- Modelled from the spec: `ELEMENT_TYPE_R8` of `corhdr.h` (ECMA-335 value). -/
abbrev ELEMENT_TYPE_R8 : Nat := 0x0D

/-- Modelled from the spec: `ELEMENT_TYPE_STRING` of `corhdr.h` (ECMA-335 value). -/
abbrev ELEMENT_TYPE_STRING : Nat := 0x0E

/-- Modelled from the spec: `ELEMENT_TYPE_PTR` of `corhdr.h` (ECMA-335 value). -/
abbrev ELEMENT_TYPE_PTR : Nat := 0x0F

/-- Modelled from the spec: `ELEMENT_TYPE_BYREF` of `corhdr.h` (ECMA-335 value). -/
abbrev ELEMENT_TYPE_BYREF : Nat := 0x10

/-- Modelled from the spec: `ELEMENT_TYPE_VALUETYPE` of `corhdr.h` (ECMA-335 value). -/
abbrev ELEMENT_TYPE_VALUETYPE : Nat := 0x11

/-- Modelled from the spec: `ELEMENT_TYPE_CLASS` of `corhdr.h` (ECMA-335 value). -/
abbrev ELEMENT_TYPE_CLASS : Nat := 0x12

/-- Modelled from the spec: `ELEMENT_TYPE_ARRAY` of `corhdr.h` (ECMA-335 value). -/
abbrev ELEMENT_TYPE_ARRAY : Nat := 0x14

/-- Modelled from the spec: `ELEMENT_TYPE_TYPEDBYREF` of `corhdr.h` (ECMA-335 value). -/
abbrev ELEMENT_TYPE_TYPEDBYREF : Nat := 0x16

/-- Modelled from the spec: `ELEMENT_TYPE_I` of `corhdr.h` (ECMA-335 value). -/
abbrev ELEMENT_TYPE_I : Nat := 0x18

/-- Modelled from the spec: `ELEMENT_TYPE_U` of `corhdr.h` (ECMA-335 value). -/
abbrev ELEMENT_TYPE_U : Nat := 0x19

/-- Modelled from the spec: `ELEMENT_TYPE_FNPTR` of `corhdr.h` (ECMA-335 value). -/
abbrev ELEMENT_TYPE_FNPTR : Nat := 0x1B

/-- Modelled from the spec: `ELEMENT_TYPE_OBJECT` of `corhdr.h` (ECMA-335 value). -/
abbrev ELEMENT_TYPE_OBJECT : Nat := 0x1C

/-- Modelled from the spec: `ELEMENT_TYPE_SZARRAY` of `corhdr.h` (ECMA-335 value). -/
abbrev ELEMENT_TYPE_SZARRAY : Nat := 0x1D

/-- Modelled from the spec: `ELEMENT_TYPE_CMOD_REQD` of `corhdr.h` (ECMA-335 value). -/
abbrev ELEMENT_TYPE_CMOD_REQD : Nat := 0x1F

/-- Modelled from the spec: `ELEMENT_TYPE_CMOD_OPT` of `corhdr.h` (ECMA-335 value). -/
abbrev ELEMENT_TYPE_CMOD_OPT : Nat := 0x20

/-- Modelled from the spec: `ELEMENT_TYPE_SENTINEL` of `corhdr.h` (ECMA-335 value). -/
abbrev ELEMENT_TYPE_SENTINEL : Nat := 0x41

/-- Modelled from the spec: `ELEMENT_TYPE_PINNED` of `corhdr.h` (ECMA-335 value). -/
abbrev ELEMENT_TYPE_PINNED : Nat := 0x45

/-- Modelled from the spec: `IMAGE_CEE_CS_CALLCONV_VARARG` of `corhdr.h`, the low nibble
`0x05` of the spec. -/
abbrev IMAGE_CEE_CS_CALLCONV_VARARG : Nat := 0x05

/-- Modelled from the spec: `IMAGE_CEE_CS_CALLCONV_FIELD` of `corhdr.h` (ECMA-335 value). -/
abbrev IMAGE_CEE_CS_CALLCONV_FIELD : Nat := 0x06

/-- Modelled from the spec: `IMAGE_CEE_CS_CALLCONV_LOCAL_SIG` of `corhdr.h`, `0x07`. -/
abbrev IMAGE_CEE_CS_CALLCONV_LOCAL_SIG : Nat := 0x07

/-- Modelled from the spec: `IMAGE_CEE_CS_CALLCONV_HASTHIS` of `corhdr.h`, bit `0x20`. -/
abbrev IMAGE_CEE_CS_CALLCONV_HASTHIS : Nat := 0x20

/-- Modelled from the spec: `IMAGE_CEE_CS_CALLCONV_EXPLICITTHIS` of `corhdr.h`, bit `0x40`. -/
abbrev IMAGE_CEE_CS_CALLCONV_EXPLICITTHIS : Nat := 0x40

/-- Modelled from the spec: `COR_ILEXCEPTION_CLAUSE_FILTER` of `corhdr.h`, flag value 1. -/
abbrev COR_ILEXCEPTION_CLAUSE_FILTER : Int := 1

/-- Modelled from the spec: `COR_ILEXCEPTION_CLAUSE_FINALLY` of `corhdr.h`, flag value 2. -/
abbrev COR_ILEXCEPTION_CLAUSE_FINALLY : Int := 2

/-- Modelled from the spec: `COR_ILEXCEPTION_CLAUSE_FAULT` of `corhdr.h`, flag value 4. -/
abbrev COR_ILEXCEPTION_CLAUSE_FAULT : Int := 4

/-- The values of `System.Reflection.CallingConventions` used by the constructor of
`MethodSignature`: `Standard`. -/
abbrev CallingConventions.Standard : Nat := 1

/-- The enum value `CallingConventions::VarArgs`. -/
abbrev CallingConventions.VarArgs : Nat := 2

/-- The enum value `CallingConventions::HasThis`. -/
abbrev CallingConventions.HasThis : Nat := 0x20

/-- The enum value `CallingConventions::ExplicitThis`. -/
abbrev CallingConventions.ExplicitThis : Nat := 0x40

/-! ## Compressed integers (`cor.h`) -/

/-- Modelled from the spec: `CorSigUncompressData` of `cor.h` (not in the sources), after
§4.C: if the top bit of the first byte is 0 the value is `byte & 0x7F`; else if the top two
bits are `10` the value is the two bytes, big-endian, `& 0x3FFF`; else the value is the four
bytes, big-endian, `& 0x1FFFFFFF`. The result is the value and the number of bytes consumed. -/
def CorSigUncompressData (mem : Nat → Nat) (p : Nat) : Nat × Nat :=
  let b0 := mem p % 256
  if b0 &&& 0x80 = 0 then
    (b0 &&& 0x7F, 1)
  else if b0 &&& 0xC0 = 0x80 then
    ((b0 * 256 + mem (p + 1) % 256) &&& 0x3FFF, 2)
  else
    ((b0 * 16777216 + (mem (p + 1) % 256) * 65536 + (mem (p + 2) % 256) * 256
        + mem (p + 3) % 256) &&& 0x1FFFFFFF, 4)

/-- Modelled from the spec: `CorSigUncompressSignedInt` of `cor.h`, after §4.C: decode as
unsigned, then rotate the sign bit from the low bit to the high bit of the used width (7, 14
or 29 bits), read as a two's-complement number of that width. -/
def CorSigUncompressSignedInt (mem : Nat → Nat) (p : Nat) : Int × Nat :=
  let (u, cb) := CorSigUncompressData mem p
  let magnitude : Int := ((u / 2 : Nat) : Int)
  let bias : Int := if cb = 1 then 64 else if cb = 2 then 8192 else 268435456
  (if u % 2 = 1 then magnitude - bias else magnitude, cb)

/-- Modelled from the spec: the table `{TypeDef, TypeRef, TypeSpec, BaseType}` of
`CorSigUncompressToken`, with the table tags of ECMA-335 in the high byte. -/
def g_tkCorEncodeToken (i : Nat) : Nat :=
  if i = 0 then 0x02000000 else if i = 1 then 0x01000000
  else if i = 2 then 0x1b000000 else 0x72000000

/-- Modelled from the spec: `CorSigUncompressToken` of `cor.h`, after §4.C: decode unsigned;
the low two bits index the table, the other bits are the row. -/
def CorSigUncompressToken (mem : Nat → Nat) (p : Nat) : Nat × Nat :=
  let (u, cb) := CorSigUncompressData mem p
  (g_tkCorEncodeToken (u % 4) ||| (u / 4), cb)

/-! ## PeLoader.cpp: `SignatureReader` -/

/-- The class `SignatureReader`: the cursor `sig`, an offset into the unmanaged memory `mem`
that holds the signature. -/
structure SignatureReader where
  mem : Nat → Nat
  sig : Nat

/-- `SignatureReader::ReadUlong`: `sig += CorSigUncompressData(sig,&result)`. -/
def SignatureReader.ReadUlong (r : SignatureReader) : Nat × SignatureReader :=
  ((CorSigUncompressData r.mem r.sig).1,
    { r with sig := r.sig + (CorSigUncompressData r.mem r.sig).2 })

/-- `SignatureReader::ReadInt`: `sig += CorSigUncompressSignedInt(sig,&result)`. -/
def SignatureReader.ReadInt (r : SignatureReader) : Int × SignatureReader :=
  ((CorSigUncompressSignedInt r.mem r.sig).1,
    { r with sig := r.sig + (CorSigUncompressSignedInt r.mem r.sig).2 })

/-- `SignatureReader::ReadToken`: `sig += CorSigUncompressToken(sig,(mdToken*)&result)`; the
token is returned as an `int`. -/
def SignatureReader.ReadToken (r : SignatureReader) : Int × SignatureReader :=
  (wrap32 ((CorSigUncompressToken r.mem r.sig).1 : Nat),
    { r with sig := r.sig + (CorSigUncompressToken r.mem r.sig).2 })

/-- `SignatureReader::MatchUlong`: remember the cursor, read one compressed unsigned, and
put the cursor back when the value read differs from `value`. -/
def SignatureReader.MatchUlong (r : SignatureReader) (value : Nat) :
    Bool × SignatureReader :=
  let marker := r.sig
  let (n, r1) := r.ReadUlong
  let result := decide (n = value)
  if ! result then (result, { r1 with sig := marker }) else (result, r1)

/-- The text of `for (int i = 0; i < rank-1; i++) decls->Append(",")`. -/
def rankCommas (rank : Int) : String :=
  String.mk (List.replicate (wrap32 (rank - 1)).toNat ',')

/-- `SignatureReader::parseType`. The result is the returned `Object *`, the reader after
the call and the contents of `decls` after the call. `fuel` bounds the recursion depth. -/
def SignatureReader.parseType :
    Nat → SignatureReader → String → Option (ObjRef × SignatureReader × String)
  | 0, _, _ => none
  | fuel + 1, sigReader, decls =>
    let (data, r1) := sigReader.ReadUlong
    if data = ELEMENT_TYPE_BOOLEAN then some (.type .Boolean, r1, decls)
    else if data = ELEMENT_TYPE_CHAR then some (.type .Char, r1, decls)
    else if data = ELEMENT_TYPE_I1 then some (.type .SByte, r1, decls)
    else if data = ELEMENT_TYPE_U1 then some (.type .Byte, r1, decls)
    else if data = ELEMENT_TYPE_I2 then some (.type .Int16, r1, decls)
    else if data = ELEMENT_TYPE_U2 then some (.type .UInt16, r1, decls)
    else if data = ELEMENT_TYPE_I4 then some (.type .Int32, r1, decls)
    else if data = ELEMENT_TYPE_U4 then some (.type .UInt32, r1, decls)
    else if data = ELEMENT_TYPE_I8 then some (.type .Int64, r1, decls)
    else if data = ELEMENT_TYPE_U8 then some (.type .UInt64, r1, decls)
    else if data = ELEMENT_TYPE_R4 then some (.type .Single, r1, decls)
    else if data = ELEMENT_TYPE_R8 then some (.type .Double, r1, decls)
    else if data = ELEMENT_TYPE_I then some (.type .IntPtr, r1, decls)
    else if data = ELEMENT_TYPE_U then some (.type .UIntPtr, r1, decls)
    else if data = ELEMENT_TYPE_VALUETYPE ∨ data = ELEMENT_TYPE_CLASS then
      let (tk, r2) := r1.ReadToken
      some (.boxInt32 tk, r2, decls)
    else if data = ELEMENT_TYPE_STRING then some (.type .String, r1, decls)
    else if data = ELEMENT_TYPE_OBJECT then some (.type .Object, r1, decls)
    else if data = ELEMENT_TYPE_PTR then some (.null, r1, decls)
    else if data = ELEMENT_TYPE_FNPTR then some (.null, r1, decls)
    else if data = ELEMENT_TYPE_ARRAY then
      match SignatureReader.parseType fuel r1 decls with
      | none => none
      | some (result, r2, decls2) =>
        let (n, r3) := r2.ReadInt
        let rank := wrap32 (n + 1)
        some (result, r3, decls2 ++ "[" ++ rankCommas rank ++ "]")
    else if data = ELEMENT_TYPE_SZARRAY then
      SignatureReader.parseType fuel r1 (decls ++ "[]")
    else some (.null, r1, decls)

/-- `SignatureReader::missCustomMod`: the `do ... while (flag)` loop; `fuel` bounds the number
of iterations. -/
def SignatureReader.missCustomMod : Nat → SignatureReader → Option SignatureReader
  | 0, _ => none
  | fuel + 1, sigReader =>
    let (flag, r1) := sigReader.MatchUlong ELEMENT_TYPE_CMOD_OPT
    let (flag, r2) := if ! flag then r1.MatchUlong ELEMENT_TYPE_CMOD_REQD else (flag, r1)
    if flag then SignatureReader.missCustomMod fuel (r2.ReadToken).2 else some r2

/-! ## PeLoader.cpp: `MethodSignature` -/

/-- The class `MethodSignature`. `paramBaseTypes` and `paramDeclarators` are managed arrays
(an entry never assigned is `NULL`); `paramTypes` is declared and never assigned. -/
structure MethodSignature where
  sigReader : SignatureReader
  isMethodRef : Bool
  callingConv : Nat
  paramBaseTypes : List ObjRef
  paramDeclarators : List (Option String)
  paramCount : Nat
  paramTypes : Option (List ObjRef)

/-- The calling-convention value computed from the first value of the signature. -/
def MethodSignature.decodeCallingConv (firstByte : Nat) : Nat :=
  let hasThis := decide ((firstByte &&& IMAGE_CEE_CS_CALLCONV_HASTHIS) > 0)
  let explicitThis := decide ((firstByte &&& IMAGE_CEE_CS_CALLCONV_EXPLICITTHIS) > 0)
  let varArg := decide ((firstByte &&& 0x0F) = IMAGE_CEE_CS_CALLCONV_VARARG)
  (if hasThis then CallingConventions.HasThis else 0) |||
    (if explicitThis then CallingConventions.ExplicitThis else 0) |||
    (if varArg then CallingConventions.VarArgs else CallingConventions.Standard)

/-- The "Missing RetType signature" part of the constructor: skip the custom modifiers, match
`VOID` or `TYPEDBYREF`, otherwise match an optional `BYREF` and parse (and drop) a type. -/
def MethodSignature.skipRetType (fuel : Nat) (sigReader : SignatureReader) :
    Option SignatureReader :=
  match SignatureReader.missCustomMod fuel sigReader with
  | none => none
  | some r1 =>
    let (flag, r2) := r1.MatchUlong ELEMENT_TYPE_VOID
    let (flag, r3) := if ! flag then r2.MatchUlong ELEMENT_TYPE_TYPEDBYREF else (flag, r2)
    if ! flag then
      let r4 := (r3.MatchUlong ELEMENT_TYPE_BYREF).2
      match SignatureReader.parseType fuel r4 "" with
      | none => none
      | some (_, r5, _) => some r5
    else some r3

/-- The state of the parameter loop of the constructor. -/
structure ParamState where
  sigReader : SignatureReader
  paramBaseTypes : List ObjRef
  paramDeclarators : List (Option String)
  paramCount : Nat

/-- One iteration of the parameter loop, for index `i`; the Boolean is `flag` after the
iteration. The index is below the length of both arrays, so the stores are in range. -/
def MethodSignature.readParam (fuel : Nat) (explicitThis : Bool) (i : Nat) (st : ParamState) :
    Option (Bool × ParamState) :=
  let (isSentinel, r1) := st.sigReader.MatchUlong ELEMENT_TYPE_SENTINEL
  if isSentinel then some (false, { st with sigReader := r1 })
  else
    match SignatureReader.missCustomMod fuel r1 with
    | none => none
    | some r2 =>
      let (isTypedByRef, r3) := r2.MatchUlong ELEMENT_TYPE_TYPEDBYREF
      let count := if i > 0 ∨ explicitThis = false then st.paramCount + 1 else st.paramCount
      if isTypedByRef then
        some (true,
          { sigReader := r3
            paramBaseTypes := st.paramBaseTypes.set i (.type .TypedReference)
            paramDeclarators := st.paramDeclarators.set i (some "")
            paramCount := count })
      else
        let (isByRef, r4) := r3.MatchUlong ELEMENT_TYPE_BYREF
        match SignatureReader.parseType fuel r4 "" with
        | none => none
        | some (baseType, r5, decls) =>
          some (true,
            { sigReader := r5
              paramBaseTypes := st.paramBaseTypes.set i baseType
              paramDeclarators :=
                st.paramDeclarators.set i (some (if isByRef then decls ++ "&" else decls))
              paramCount := count })

/-- The parameter loop `for (i = 0; i < sigParamCount && flag; i++)`: `remaining` is
`sigParamCount - i`. -/
def MethodSignature.paramLoop (fuel : Nat) (explicitThis : Bool) :
    Nat → Nat → ParamState → Option ParamState
  | 0, _, st => some st
  | remaining + 1, i, st =>
    match MethodSignature.readParam fuel explicitThis i st with
    | none => none
    | some (false, st1) => some st1
    | some (true, st1) => MethodSignature.paramLoop fuel explicitThis remaining (i + 1) st1

/-- The constructor `MethodSignature::MethodSignature(sigReader, isMethodRef)`. -/
def MethodSignature.new (fuel : Nat) (sigReader : SignatureReader) (isMethodRef : Bool) :
    Option MethodSignature :=
  let (firstByte, r1) := sigReader.ReadUlong
  let explicitThis := decide ((firstByte &&& IMAGE_CEE_CS_CALLCONV_EXPLICITTHIS) > 0)
  let (sigParamCount, r2) := r1.ReadUlong
  match MethodSignature.skipRetType fuel r2 with
  | none => none
  | some r3 =>
    match MethodSignature.paramLoop fuel explicitThis sigParamCount 0
        { sigReader := r3
          paramBaseTypes := List.replicate sigParamCount .null
          paramDeclarators := List.replicate sigParamCount none
          paramCount := 0 } with
    | none => none
    | some st =>
      some
        { sigReader := st.sigReader
          isMethodRef := isMethodRef
          callingConv := MethodSignature.decodeCallingConv firstByte
          paramBaseTypes := st.paramBaseTypes
          paramDeclarators := st.paramDeclarators
          paramCount := st.paramCount
          paramTypes := none }

/-- What `Matches` reads of a `System.Reflection.MethodBase`: `CallingConvention` and the
`ParameterType` of each entry of `GetParameters()`. -/
structure MethodBase where
  CallingConvention : Nat
  ParameterTypes : List SysType
deriving DecidableEq, Repr

/-- The loop of `MethodSignature::Matches`, entered with `result = true`:
`for (i = 0; i < paramCount && result; i++)
result = paramTypes[i]->Equals(params[i]->ParameterType)`; `remaining` is `paramCount - i`. -/
def MethodSignature.matchLoop (paramTypes : Option (List ObjRef)) (params : List SysType) :
    Nat → Nat → Except Fault Bool
  | 0, _ => .ok true
  | remaining + 1, i =>
    match paramTypes with
    | none => .error .nullReference
    | some types =>
      match types[i]?, params[i]? with
      | none, _ => .error .indexOutOfRange
      | some _, none => .error .indexOutOfRange
      | some (.type t), some p =>
        if t = p then MethodSignature.matchLoop paramTypes params remaining (i + 1)
        else .ok false
      | some _, some _ => .error .nullReference

/-- `MethodSignature::Matches`. -/
def MethodSignature.Matches (s : MethodSignature) (method : MethodBase) : Except Fault Bool :=
  if method.CallingConvention = s.callingConv then
    if method.ParameterTypes.length = s.paramCount then
      MethodSignature.matchLoop s.paramTypes method.ParameterTypes s.paramCount 0
    else .ok false
  else .ok false

/-! ## MethodCode.h, MethodCode.cpp -/

/-- The value `FINALLY_HANDLER` of `enum EHKind`. -/
abbrev FINALLY_HANDLER : Int := 0

/-- The value `FAULT_HANDLER` of `enum EHKind`. -/
abbrev FAULT_HANDLER : Int := 1

/-- The value `TYPE_FILTERED_HANDLER` of `enum EHKind`. -/
abbrev TYPE_FILTERED_HANDLER : Int := 2

/-- The value `USER_FILTERED_HANDLER` of `enum EHKind`. -/
abbrev USER_FILTERED_HANDLER : Int := 3

/-- Modelled from the spec: a clause `IMAGE_COR_ILMETHOD_SECT_EH_CLAUSE_FAT` of `corhdr.h`
(not in the sources); the fields are unsigned 32-bit values, and `ClassToken` and
`FilterOffset` share their storage. -/
structure EHClauseFat where
  Flags : Nat
  TryOffset : Nat
  TryLength : Nat
  HandlerOffset : Nat
  HandlerLength : Nat
  ClassTokenOrFilterOffset : Nat
deriving DecidableEq, Repr

/-- Modelled from the spec: what the constructor and `GetMethodProps` read from a
`COR_ILMETHOD_DECODER` of `corhlpr.h` (not in the sources): `IsFat()`, `GetLocalVarSigTok()`,
`GetMaxStack()`, `GetCodeSize()`, the memory at `Code`, `EHCount()` and `EH->EHClause(i)`. -/
structure COR_ILMETHOD_DECODER where
  IsFat : Bool
  LocalVarSigTok : Nat
  MaxStack : Nat
  CodeSize : Nat
  Code : Int → Nat
  EHCount : Nat
  EHClause : Nat → EHClauseFat

/-- The class `EHDecoder`. -/
structure EHDecoder where
  count : Int
  kinds : List Int
  tryOfs : List Int
  tryLens : List Int
  hOfs : List Int
  hLens : List Int
  params : List ObjRef
deriving DecidableEq, Repr

/-- The kind the constructor of `EHDecoder` stores for a clause with the given `Flags`. -/
def EHDecoder.kindOfFlags (flags : Int) : Int :=
  if flags = COR_ILEXCEPTION_CLAUSE_FILTER then USER_FILTERED_HANDLER
  else if flags = COR_ILEXCEPTION_CLAUSE_FINALLY then FINALLY_HANDLER
  else if flags = COR_ILEXCEPTION_CLAUSE_FAULT then FAULT_HANDLER
  else TYPE_FILTERED_HANDLER

/-- The parameter the constructor of `EHDecoder` stores for a clause: `NULL`, then the boxed
`ClassToken` for a type-filtered clause and the boxed `FilterOffset` for a user-filtered one. -/
def EHDecoder.paramOfClause (clause : EHClauseFat) : ObjRef :=
  let kind := EHDecoder.kindOfFlags (wrap32 (clause.Flags : Nat))
  if kind = TYPE_FILTERED_HANDLER then .boxInt32 (wrap32 (clause.ClassTokenOrFilterOffset : Nat))
  else if kind = USER_FILTERED_HANDLER then
    .boxInt32 (wrap32 (clause.ClassTokenOrFilterOffset : Nat))
  else .null

/-- One iteration of the loop of the constructor of `EHDecoder`, for index `i`: the entries
`i` of the six arrays are assigned from clause `i` (`i` is below `count`, the length of each
array, so the stores are in range). -/
def EHDecoder.storeClause (decoder : COR_ILMETHOD_DECODER) (e : EHDecoder) (i : Nat) :
    EHDecoder :=
  let clause := decoder.EHClause i
  let flags := wrap32 (clause.Flags : Nat)
  { e with
    kinds := e.kinds.set i (EHDecoder.kindOfFlags flags)
    tryOfs := e.tryOfs.set i (wrap32 (clause.TryOffset : Nat))
    tryLens := e.tryLens.set i (wrap32 (clause.TryLength : Nat))
    hOfs := e.hOfs.set i (wrap32 (clause.HandlerOffset : Nat))
    hLens := e.hLens.set i (wrap32 (clause.HandlerLength : Nat))
    params := e.params.set i (EHDecoder.paramOfClause clause) }

/-- The constructor `EHDecoder::EHDecoder`: `count = decoder->EHCount()`, six arrays of `count`
entries (zero and `NULL`), and the loop `for (i = 0; i < count; i++)` that assigns entry `i` of
each from clause `i`. (`EHCount()` is a section size divided by a clause size, so it is
representable as the `int count`.) -/
def EHDecoder.new (decoder : COR_ILMETHOD_DECODER) : EHDecoder :=
  (List.range decoder.EHCount).foldl (EHDecoder.storeClause decoder)
    { count := wrap32 (decoder.EHCount : Nat)
      kinds := List.replicate decoder.EHCount 0
      tryOfs := List.replicate decoder.EHCount 0
      tryLens := List.replicate decoder.EHCount 0
      hOfs := List.replicate decoder.EHCount 0
      hLens := List.replicate decoder.EHCount 0
      params := List.replicate decoder.EHCount ObjRef.null }

/-- The loop of `EHDecoder::FixParams` from index `i` on, over the array `params`; `remaining`
is `count - i`. For a type-filtered clause the parameter is unboxed
(`dynamic_cast <__box Int32*>`, `NULL` for anything but a boxed `Int32`) and replaced by
`dynamic_cast <Type*> (hash->get_Item(__box(token)))`. -/
def EHDecoder.fixParamsLoop (hash : Int → ObjRef) (kinds : List Int) :
    Nat → Nat → List ObjRef → Except Fault (List ObjRef)
  | 0, _, params => .ok params
  | remaining + 1, i, params =>
    match kinds[i]? with
    | none => .error .indexOutOfRange
    | some kind =>
      if kind = TYPE_FILTERED_HANDLER then
        match params[i]? with
        | none => .error .indexOutOfRange
        | some (.boxInt32 token) =>
          EHDecoder.fixParamsLoop hash kinds remaining (i + 1)
            (params.set i (hash token).castType)
        | some _ => .error .nullReference
      else EHDecoder.fixParamsLoop hash kinds remaining (i + 1) params

/-- `EHDecoder::FixParams`. -/
def EHDecoder.FixParams (e : EHDecoder) (hash : Int → ObjRef) : Except Fault EHDecoder :=
  match EHDecoder.fixParamsLoop hash e.kinds e.count.toNat 0 e.params with
  | .error f => .error f
  | .ok params => .ok { e with params := params }

/-- `EHDecoder::GetCount`. -/
def EHDecoder.GetCount (e : EHDecoder) : Int := e.count

/-- The value struct `MethodCode`. `code` is the unmanaged memory at the pointer `code`
(`none` for `NULL`), indexed by the offset from the pointer. -/
structure MethodCode where
  maxStack : Int
  codeSize : Int
  code : Option (Int → Nat)
  ehDecoder : Option EHDecoder
  locVarBaseTypes : Option (List ObjRef)
  locVarDeclarators : Option (List (Option String))
  pos : Int

/-- The default constructor `MethodCode()`: `maxStack(0), codeSize(0), code(NULL), pos(0)`,
both local-variable arrays `NULL`. -/
def MethodCode.empty : MethodCode :=
  { maxStack := 0, codeSize := 0, code := none, ehDecoder := none,
    locVarBaseTypes := none, locVarDeclarators := none, pos := 0 }

/-- The constructor `MethodCode(maxStack, codeSize, code, ehDecoder, locVarCount)`: a new
block receives `codeSize` bytes of `code` (`memcpy`); `heap` is what the memory holds outside
the block. Both local-variable arrays are allocated with `locVarCount` `NULL` entries. -/
def MethodCode.new (maxStack codeSize : Int) (code : Int → Nat) (ehDecoder : EHDecoder)
    (locVarCount : Nat) (heap : Int → Nat) : MethodCode :=
  { maxStack := maxStack
    codeSize := codeSize
    code := some (fun i => if 0 ≤ i ∧ i < codeSize then code i else heap i)
    ehDecoder := some ehDecoder
    locVarBaseTypes := some (List.replicate locVarCount .null)
    locVarDeclarators := some (List.replicate locVarCount none)
    pos := 0 }

/-- `MethodCode::AddLocalVar`: `locVarBaseTypes[pos] = baseType;
locVarDeclarators[pos++] = declarators`. -/
def MethodCode.AddLocalVar (m : MethodCode) (baseType : ObjRef) (declarators : String) :
    MethodCode :=
  { m with
    locVarBaseTypes := m.locVarBaseTypes.map (fun a => a.set m.pos.toNat baseType)
    locVarDeclarators := m.locVarDeclarators.map (fun a => a.set m.pos.toNat (some declarators))
    pos := wrap32 (m.pos + 1) }

/-! ## PeLoader.cpp: `GetMethodProps` -/

/-- The value struct `MethodProps`. -/
structure MethodProps where
  name : String
  methodCode : MethodCode
  sig : MethodSignature

/-- The section loop of `GetMethodProps`:
`for (i = 0; i < codeSections->Length && ilHeader == NULL; i++)` with
`filePos = codeSections[i]->RvaToFilePos(RVA); if (filePos != -1) ilHeader = peImage+filePos`.
The result is the file position of `ilHeader`, `none` for `NULL`: a pointer `peImage+filePos`
into the loaded image is not the null pointer. -/
def PeLoader.findILHeader : List CodeSection → Int → Option Int
  | [], _ => none
  | codeSection :: rest, RVA =>
    let filePos := codeSection.RvaToFilePos RVA
    if filePos ≠ -1 then some filePos else PeLoader.findILHeader rest RVA

/-- The local-variable loop of `GetMethodProps`: `remaining` iterations of an optional
`PINNED`, an optional `BYREF`, `parseType` and `AddLocalVar`. -/
def PeLoader.localVarLoop (fuel : Nat) :
    Nat → SignatureReader → MethodCode → Option (SignatureReader × MethodCode)
  | 0, sigReader, methodCode => some (sigReader, methodCode)
  | remaining + 1, sigReader, methodCode =>
    let r1 := (sigReader.MatchUlong ELEMENT_TYPE_PINNED).2
    let (isByRef, r2) := r1.MatchUlong ELEMENT_TYPE_BYREF
    match SignatureReader.parseType fuel r2 "" with
    | none => none
    | some (baseType, r3, decls) =>
      PeLoader.localVarLoop fuel remaining r3
        (methodCode.AddLocalVar baseType (if isByRef then decls ++ "&" else decls))

/-- The reader and the count `localVarCount` that `GetMethodProps` obtains from the header:
for a fat header with a non-zero signature token, the signature is fetched and its first
value compared with `LOCAL_SIG`; the count is read only when they are equal. -/
def PeLoader.localVarSig (decoder : COR_ILMETHOD_DECODER) (getSigFromToken : Int → Nat → Nat) :
    Option SignatureReader × Nat :=
  if decoder.IsFat then
    let sigToken := wrap32 (decoder.LocalVarSigTok : Nat)
    if sigToken ≠ 0 then
      let sigReader : SignatureReader := { mem := getSigFromToken sigToken, sig := 0 }
      let (first, r1) := sigReader.ReadUlong
      if first ≠ IMAGE_CEE_CS_CALLCONV_LOCAL_SIG then (some r1, 0)
      else (some (r1.ReadUlong).2, (r1.ReadUlong).1)
    else (none, 0)
  else (none, 0)

/-- The body of `GetMethodProps` once the IL header is located: the method code built from
the header at `ilHeader`. -/
def PeLoader.decodeBody (fuel : Nat) (decoder : COR_ILMETHOD_DECODER)
    (getSigFromToken : Int → Nat → Nat) (heap : Int → Nat) : Option MethodCode :=
  let (sigReader, localVarCount) := PeLoader.localVarSig decoder getSigFromToken
  let methodCode := MethodCode.new (wrap32 (decoder.MaxStack : Nat))
    (wrap32 (decoder.CodeSize : Nat)) decoder.Code (EHDecoder.new decoder) localVarCount heap
  match sigReader with
  | none => some methodCode
  | some r =>
    if localVarCount > 0 then
      (PeLoader.localVarLoop fuel localVarCount r methodCode).map Prod.snd
    else some methodCode

/-- `PeLoader::GetMethodProps`, from the properties the metadata import returned (`name`,
`RVA`, the signature memory `sig`). `decoderAt filePos` is the `COR_ILMETHOD_DECODER` built on
the header at `peImage+filePos`, `getSigFromToken` is `unmGetSigFromToken`. -/
def PeLoader.GetMethodProps (fuel : Nat) (codeSections : List CodeSection)
    (name : String) (RVA : Int) (sig : Nat → Nat)
    (decoderAt : Int → COR_ILMETHOD_DECODER) (getSigFromToken : Int → Nat → Nat)
    (heap : Int → Nat) : Option MethodProps :=
  match MethodSignature.new fuel { mem := sig, sig := 0 } false with
  | none => none
  | some signature =>
    match PeLoader.findILHeader codeSections RVA with
    | some filePos =>
      match PeLoader.decodeBody fuel (decoderAt filePos) getSigFromToken heap with
      | none => none
      | some methodCode => some { name := name, methodCode := methodCode, sig := signature }
    | none => some { name := name, methodCode := MethodCode.empty, sig := signature }

/-! ## ILMethodDecoder.h, ILMethodDecoder.cpp -/

/-- The constant `doubleByteCodesOrigin = 0xE1`. -/
abbrev doubleByteCodesOrigin : Nat := 0xE1

/-- The class `ILMethodDecoder`. `mdHash` is the `Hashtable`, seen through
`get_Item(__box(tk))` on a boxed `Int32` key: `ObjRef.null` when the key has no entry. -/
structure ILMethodDecoder where
  pos : Int
  methodCode : MethodCode
  mdHash : Int → ObjRef

/-- The constructor `ILMethodDecoder(methodCode, mdHash)`, which calls `Reset()`. -/
def ILMethodDecoder.new (methodCode : MethodCode) (mdHash : Int → ObjRef) : ILMethodDecoder :=
  { pos := 0, methodCode := methodCode, mdHash := mdHash }

/-- `get_IsIL`: `methodCode.code != NULL`. -/
def ILMethodDecoder.IsIL (d : ILMethodDecoder) : Bool := d.methodCode.code.isSome

/-- `get_CodeSize`. -/
def ILMethodDecoder.CodeSize (d : ILMethodDecoder) : Int := d.methodCode.codeSize

/-- `get_MaxStack`. -/
def ILMethodDecoder.MaxStack (d : ILMethodDecoder) : Int := d.methodCode.maxStack

/-- `Reset`: `pos = 0`. -/
def ILMethodDecoder.Reset (d : ILMethodDecoder) : ILMethodDecoder := { d with pos := 0 }

/-- `GetOffset`. -/
def ILMethodDecoder.GetOffset (d : ILMethodDecoder) : Int := d.pos

/-- `EndOfCode`: `pos == methodCode.codeSize`. -/
def ILMethodDecoder.EndOfCode (d : ILMethodDecoder) : Bool := decide (d.pos = d.methodCode.codeSize)

/-- The reader with its cursor moved by `n` bytes (`pos++`, `pos += sizeof(...)`). -/
def ILMethodDecoder.advance (d : ILMethodDecoder) (n : Int) : ILMethodDecoder :=
  { d with pos := wrap32 (d.pos + n) }

/-- The byte at offset `i` of the memory `code`. -/
def byteAt (code : Int → Nat) (i : Int) : Nat := code i % 256

/-- The unsigned little-endian value of the `n` bytes of `code` from offset `i`. -/
def leBytes (code : Int → Nat) (i : Int) : Nat → Nat
  | 0 => 0
  | n + 1 => byteAt code i + 256 * leBytes code (i + 1) n

/-- The signed reading of an unsigned value of `bits` bits (two's complement). -/
def toSigned (bits : Nat) (u : Nat) : Int :=
  if u < 2 ^ (bits - 1) then (u : Int) else (u : Int) - (2 ^ bits : Nat)

/-- `ILMethodDecoder::ReadCode`: the result is held in a `Byte`. -/
def ILMethodDecoder.ReadCode (d : ILMethodDecoder) : Except Fault (Int × ILMethodDecoder) :=
  match d.methodCode.code with
  | none => .error .nullReference
  | some code =>
    let result := byteAt code d.pos
    let d1 := d.advance 1
    if result = 0xFE then
      .ok ((((doubleByteCodesOrigin + byteAt code d1.pos) % 256 : Nat) : Int), d1.advance 1)
    else .ok ((result : Int), d1)

/-- `ILMethodDecoder::ReadInt8`: the byte read as an `SByte`, widened to `Int16`. -/
def ILMethodDecoder.ReadInt8 (d : ILMethodDecoder) : Except Fault (Int × ILMethodDecoder) :=
  match d.methodCode.code with
  | none => .error .nullReference
  | some code => .ok (toSigned 8 (byteAt code d.pos), d.advance 1)

/-- `ILMethodDecoder::ReadInt32`: the four bytes at the cursor as a little-endian `Int32`. -/
def ILMethodDecoder.ReadInt32 (d : ILMethodDecoder) : Except Fault (Int × ILMethodDecoder) :=
  match d.methodCode.code with
  | none => .error .nullReference
  | some code => .ok (toSigned 32 (leBytes code d.pos 4), d.advance 4)

/-- `ILMethodDecoder::ReadInt64`: the eight bytes at the cursor as a little-endian `Int64`. -/
def ILMethodDecoder.ReadInt64 (d : ILMethodDecoder) : Except Fault (Int × ILMethodDecoder) :=
  match d.methodCode.code with
  | none => .error .nullReference
  | some code => .ok (toSigned 64 (leBytes code d.pos 8), d.advance 8)

/-- `ILMethodDecoder::ReadUint8`. -/
def ILMethodDecoder.ReadUint8 (d : ILMethodDecoder) : Except Fault (Nat × ILMethodDecoder) :=
  match d.methodCode.code with
  | none => .error .nullReference
  | some code => .ok (byteAt code d.pos, d.advance 1)

/-- `ILMethodDecoder::ReadUint16`: the two bytes at the cursor as a `UInt16`, widened. -/
def ILMethodDecoder.ReadUint16 (d : ILMethodDecoder) : Except Fault (Int × ILMethodDecoder) :=
  match d.methodCode.code with
  | none => .error .nullReference
  | some code => .ok (((leBytes code d.pos 2 : Nat) : Int), d.advance 2)

/-- `ILMethodDecoder::ReadFloat32`: the `Single` at the cursor, given by its four bytes (the
IEEE-754 bit pattern, little-endian). -/
def ILMethodDecoder.ReadFloat32 (d : ILMethodDecoder) : Except Fault (Nat × ILMethodDecoder) :=
  match d.methodCode.code with
  | none => .error .nullReference
  | some code => .ok (leBytes code d.pos 4, d.advance 4)

/-- `ILMethodDecoder::ReadFloat64`: the `Double` at the cursor, given by its eight bytes. -/
def ILMethodDecoder.ReadFloat64 (d : ILMethodDecoder) : Except Fault (Nat × ILMethodDecoder) :=
  match d.methodCode.code with
  | none => .error .nullReference
  | some code => .ok (leBytes code d.pos 8, d.advance 8)

/-- The loop of `ReadSwitch`: `for (i = 0; i < count; i++) result[i] = ReadInt32()`, for the
`remaining` entries still to read; `acc` holds the entries read so far. -/
def ILMethodDecoder.readSwitchLoop :
    Nat → List Int → ILMethodDecoder → Except Fault (List Int × ILMethodDecoder)
  | 0, acc, d => .ok (acc, d)
  | remaining + 1, acc, d =>
    match d.ReadInt32 with
    | .error e => .error e
    | .ok (v, d1) => ILMethodDecoder.readSwitchLoop remaining (acc ++ [v]) d1

/-- `ILMethodDecoder::ReadSwitch`: `count = ReadInt32()`, `new Int32[count]` (which raises for
a negative count), then `count` calls of `ReadInt32`. -/
def ILMethodDecoder.ReadSwitch (d : ILMethodDecoder) :
    Except Fault (List Int × ILMethodDecoder) :=
  match d.ReadInt32 with
  | .error e => .error e
  | .ok (count, d1) =>
    if count < 0 then .error .overflow
    else ILMethodDecoder.readSwitchLoop count.toNat [] d1

/-- The text of `String::Format("{0}", __box(tk))` for an `Int32`: its decimal digits, with a
leading minus sign when negative. -/
def formatInt32 (tk : Int) : String := toString tk

/-- `ILMethodDecoder::ReadToken`: `tk = ReadInt32()`, `obj = mdHash->get_Item(__box(tk))`, and
`obj` when it is not `NULL`, else the formatted token. -/
def ILMethodDecoder.ReadToken (d : ILMethodDecoder) : Except Fault (ObjRef × ILMethodDecoder) :=
  match d.ReadInt32 with
  | .error e => .error e
  | .ok (tk, d1) =>
    let obj := d1.mdHash tk
    if obj.isNull then .ok (.str (formatInt32 tk), d1) else .ok (obj, d1)

/-- The memory that holds the bytes `bs` from offset 0 on, and zero elsewhere. -/
def memOfBytes (bs : List Nat) : Int → Nat :=
  fun i => if 0 ≤ i then bs.getD i.toNat 0 else 0

/-- The signature memory that holds the bytes `bs` from offset 0 on, and zero elsewhere. -/
def sigOfBytes (bs : List Nat) : Nat → Nat :=
  fun i => bs.getD i 0

/-- A method body that holds exactly the bytes `bs`, as the constructor of `MethodCode`
builds it: max stack 8, no exception clause, no local variable, zero bytes outside the block. -/
def bodyOfBytes (bs : List Nat) : MethodCode :=
  MethodCode.new 8 bs.length (memOfBytes bs) (EHDecoder.mk 0 [] [] [] [] [] []) 0 (memOfBytes [])

/-- The table of the specification for `parse_type`: the tags `BOOLEAN, CHAR, I1, U1, I2, U2,
I4, U4, I8, U8, R4, R8, I, U, STRING, OBJECT`, each with its primitive type. -/
def specPrimitiveTypes : List (Nat × SysType) :=
  [(ELEMENT_TYPE_BOOLEAN, .Boolean), (ELEMENT_TYPE_CHAR, .Char), (ELEMENT_TYPE_I1, .SByte),
   (ELEMENT_TYPE_U1, .Byte), (ELEMENT_TYPE_I2, .Int16), (ELEMENT_TYPE_U2, .UInt16),
   (ELEMENT_TYPE_I4, .Int32), (ELEMENT_TYPE_U4, .UInt32), (ELEMENT_TYPE_I8, .Int64),
   (ELEMENT_TYPE_U8, .UInt64), (ELEMENT_TYPE_R4, .Single), (ELEMENT_TYPE_R8, .Double),
   (ELEMENT_TYPE_I, .IntPtr), (ELEMENT_TYPE_U, .UIntPtr), (ELEMENT_TYPE_STRING, .String),
   (ELEMENT_TYPE_OBJECT, .Object)]

/-! ## Specification-side definitions for the signature decoder -/

/-- The reader after `k` pairs of a tag and a compressed token at the cursor, each pair read
with `ReadUlong` and `ReadToken`. -/
def skipCustomModPairs : Nat → SignatureReader → SignatureReader
  | 0, r => r
  | k + 1, r => skipCustomModPairs k r.ReadUlong.2.ReadToken.2

/-- The signature at the cursor starts with `k` custom-modifier pairs (a `CMOD_OPT` or
`CMOD_REQD` tag followed by a compressed token) and then a tag that is neither. -/
def startsWithCustomMods : Nat → SignatureReader → Bool
  | 0, r =>
    decide (r.ReadUlong.1 ≠ ELEMENT_TYPE_CMOD_OPT ∧ r.ReadUlong.1 ≠ ELEMENT_TYPE_CMOD_REQD)
  | k + 1, r =>
    decide (r.ReadUlong.1 = ELEMENT_TYPE_CMOD_OPT ∨ r.ReadUlong.1 = ELEMENT_TYPE_CMOD_REQD)
      && startsWithCustomMods k r.ReadUlong.2.ReadToken.2

/-- The decoding of one parameter entry as the specification words it, from the reader at
the entry: skip the custom modifiers; a `TYPEDBYREF` tag gives the base type
`TypedReference` and the empty declarator; otherwise an optional `BYREF` tag is consumed, the
type is parsed into an empty declarator text, and `"&"` is appended when `BYREF` was there.
The result is the base type, the declarator and the reader after the entry. -/
def specParamEntry (fuel : Nat) (r : SignatureReader) :
    Option (ObjRef × String × SignatureReader) :=
  match SignatureReader.missCustomMod fuel r with
  | none => none
  | some r2 =>
    if r2.ReadUlong.1 = ELEMENT_TYPE_TYPEDBYREF then
      some (ObjRef.type SysType.TypedReference, "", r2.ReadUlong.2)
    else
      let isByRef := decide (r2.ReadUlong.1 = ELEMENT_TYPE_BYREF)
      match SignatureReader.parseType fuel (if isByRef then r2.ReadUlong.2 else r2) "" with
      | none => none
      | some (baseType, r3, text) => some (baseType, if isByRef then text ++ "&" else text, r3)

/-- The reader after an optional tag: past the compressed value at the cursor when that value
is `tag`, unmoved otherwise. -/
def specSkipTag (tag : Nat) (r : SignatureReader) : SignatureReader :=
  if r.ReadUlong.1 = tag then r.ReadUlong.2 else r

/-- The reader after the return type as the specification words it: skip the custom
modifiers; a `VOID` or `TYPEDBYREF` tag is consumed; otherwise an optional `BYREF` tag is
consumed and a type is parsed. -/
def specRetType (fuel : Nat) (r : SignatureReader) : Option SignatureReader :=
  match SignatureReader.missCustomMod fuel r with
  | none => none
  | some q =>
    if q.ReadUlong.1 = ELEMENT_TYPE_VOID ∨ q.ReadUlong.1 = ELEMENT_TYPE_TYPEDBYREF then
      some q.ReadUlong.2
    else (SignatureReader.parseType fuel (specSkipTag ELEMENT_TYPE_BYREF q) "").map
      (fun x => x.2.1)

/-- The parameter entries as the specification words them, for at most `n` positions from
the reader on: a `SENTINEL` tag at a position is consumed and stops the iteration; otherwise
the entry at the position is decoded. The result is the list `(base_type, declarator)` of the
decoded entries, in order, and the reader where the iteration stops. -/
def specParams (fuel : Nat) :
    Nat → SignatureReader → Option (List (ObjRef × String) × SignatureReader)
  | 0, r => some ([], r)
  | n + 1, r =>
    if r.ReadUlong.1 = ELEMENT_TYPE_SENTINEL then some ([], r.ReadUlong.2)
    else
      match specParamEntry fuel r with
      | none => none
      | some (baseType, text, r2) =>
        (specParams fuel n r2).map (fun x => ((baseType, text) :: x.1, x.2))

/-! ## Specification-side definitions for the local-variable signature -/

theorem wrap32_of_inInt32 {x : Int} (h : inInt32 x) : wrap32 x = x := by
  unfold inInt32 at h
  unfold wrap32
  omega

theorem wrap32_sub_wrap32 (a b : Int) : wrap32 (wrap32 a - b) = wrap32 (a - b) := by
  unfold wrap32
  omega

/-- Without overflow the 32-bit evaluation of `RvaToFilePos` is the exact one. -/
theorem RvaToFilePos_exact (s : CodeSection) (rva : Int)
    (h1 : inInt32 (s.RVA + s.length)) (h2 : inInt32 (s.filePos + rva - s.RVA)) :
    s.RvaToFilePos rva =
      if s.RVA ≤ rva ∧ rva < s.RVA + s.length then s.filePos + (rva - s.RVA) else -1 := by
  unfold CodeSection.RvaToFilePos
  rw [wrap32_of_inInt32 h1, wrap32_sub_wrap32, wrap32_of_inInt32 h2]
  by_cases h : s.RVA ≤ rva ∧ rva < s.RVA + s.length
  · rw [if_pos h, if_pos h]; omega
  · rw [if_neg h, if_neg h]

/-- C1: for a code section and an rva with no 32-bit overflow in `RVA+length` and in
`filePos+rva-RVA`, `RvaToFilePos rva` is `filePos + (rva - RVA)` when
`RVA <= rva < RVA + length`, and the miss value `-1` otherwise. -/
theorem RvaToFilePos_spec (s : CodeSection) (rva : Int)
    (h1 : inInt32 (s.RVA + s.length)) (h2 : inInt32 (s.filePos + rva - s.RVA)) :
    s.RvaToFilePos rva =
      if s.RVA ≤ rva ∧ rva < s.RVA + s.length then s.filePos + (rva - s.RVA) else -1 :=
  RvaToFilePos_exact s rva h1 h2

/-- Witness for C1: the section (0x400, 0x2000, 0x100) maps rva 0x2010 to 0x410. -/
theorem RvaToFilePos_spec_witness :
    inInt32 ((0x2000 : Int) + 0x100) ∧ inInt32 ((0x400 : Int) + 0x2010 - 0x2000) ∧
      (CodeSection.mk 0x400 0x2000 0x100).RvaToFilePos 0x2010 =
        if (0x2000 : Int) ≤ 0x2010 ∧ (0x2010 : Int) < 0x2000 + 0x100
          then 0x400 + (0x2010 - 0x2000) else -1 :=
  ⟨by decide, by decide,
    RvaToFilePos_spec (CodeSection.mk 0x400 0x2000 0x100) 0x2010 (by decide) (by decide)⟩

/-- C2: for a code section with non-negative `filePos`, `RVA`, `length` and no 32-bit
overflow, `RvaToFilePos` is a bijection from `[RVA, RVA+length)` onto
`[filePos, filePos+length)`: it maps into the range, is injective, and is onto. -/
theorem RvaToFilePos_bijOn (s : CodeSection)
    (_hf : 0 ≤ s.filePos) (_hr : 0 ≤ s.RVA) (_hl : 0 ≤ s.length)
    (h1 : inInt32 (s.RVA + s.length))
    (h2 : ∀ rva, s.RVA ≤ rva → rva < s.RVA + s.length → inInt32 (s.filePos + rva - s.RVA)) :
    Set.BijOn s.RvaToFilePos (Set.Ico s.RVA (s.RVA + s.length))
      (Set.Ico s.filePos (s.filePos + s.length)) := by
  have key : ∀ rva, s.RVA ≤ rva → rva < s.RVA + s.length →
      s.RvaToFilePos rva = s.filePos + (rva - s.RVA) := by
    intro rva ha hb
    rw [RvaToFilePos_exact s rva h1 (h2 rva ha hb), if_pos ⟨ha, hb⟩]
  refine ⟨?_, ?_, ?_⟩
  · intro rva hrva
    rw [Set.mem_Ico] at hrva ⊢
    rw [key rva hrva.1 hrva.2]
    omega
  · intro a ha b hb hab
    rw [Set.mem_Ico] at ha hb
    rw [key a ha.1 ha.2, key b hb.1 hb.2] at hab
    omega
  · intro p hp
    rw [Set.mem_Ico] at hp
    refine ⟨s.RVA + (p - s.filePos), ?_, ?_⟩
    · rw [Set.mem_Ico]; omega
    · rw [key _ (by omega) (by omega)]
      omega

/-- Witness for C2: the section (0x400, 0x2000, 0x100) maps `[0x2000, 0x2100)` one-to-one
onto `[0x400, 0x500)`. -/
theorem RvaToFilePos_bijOn_witness :
    Set.BijOn (CodeSection.mk 0x400 0x2000 0x100).RvaToFilePos
      (Set.Ico 0x2000 (0x2000 + 0x100)) (Set.Ico 0x400 (0x400 + 0x100)) :=
  RvaToFilePos_bijOn (CodeSection.mk 0x400 0x2000 0x100) (by decide) (by decide) (by decide)
    (by decide) (fun rva ha hb => ⟨by simp only at ha hb ⊢; omega, by simp only at ha hb ⊢; omega⟩)

/-- The `CodeSection` the constructor builds from a section header. -/
theorem isCodeSection_iff (h : SectionHeader) :
    isCodeSection h = true ↔ h.Characteristics = 0x60000020 := by
  unfold isCodeSection
  rw [decide_eq_true_iff]
  have : Int.lor (Int.lor MEM_READ CNT_CODE) MEM_EXECUTE = 0x60000020 := by decide
  rw [this]

theorem set_length_append {α : Type} (A B : List α) (x v : α) :
    (A ++ x :: B).set A.length v = A ++ v :: B := by
  rw [List.set_append_right _ _ (Nat.le_refl _)]
  simp

theorem set_take_succ {α : Type} : ∀ (l : List α) (p : Nat) (b : α), p < l.length →
    (l.set p b).take (p + 1) = l.take p ++ [b]
  | [], _, _, h => absurd h (Nat.not_lt_zero _)
  | _ :: _, 0, _, _ => rfl
  | a :: l, p + 1, b, h => by
    have := set_take_succ l p b (Nat.lt_of_succ_lt_succ h)
    simp only [List.set_cons_succ, List.take_succ_cons, List.cons_append, this]

theorem set_drop_succ {α : Type} : ∀ (l : List α) (p j : Nat) (b : α), p < j →
    (l.set p b).drop j = l.drop j
  | [], _, _, _, _ => by simp
  | _ :: _, 0, j + 1, _, _ => rfl
  | a :: l, p + 1, j + 1, b, h => by
    have := set_drop_succ l p j b (Nat.lt_of_succ_lt_succ h)
    simp only [List.set_cons_succ, List.drop_succ_cons, this]

theorem countCodeSections_eq (sections : Nat → SectionHeader) (k : Nat) :
    (List.range k).foldl
      (fun codeSectionsNum i =>
        if isCodeSection (sections i) then codeSectionsNum + 1 else codeSectionsNum) 0
      = (((List.range k).map sections).filter isCodeSection).length := by
  induction k with
  | zero => rfl
  | succ k ih =>
    rw [List.range_succ, List.foldl_append, ih, List.map_append, List.filter_append,
      List.length_append]
    by_cases hc : isCodeSection (sections k) = true
    · simp [hc]
    · simp [hc]

theorem fillLoop_eq (sections : Nat → SectionHeader) (total : Nat) :
    ∀ k : Nat, (((List.range k).map sections).filter isCodeSection).length ≤ total →
      (List.range k).foldl (PeLoader.fillStep sections)
          (some (List.replicate total none, 0))
        = some
            ((((List.range k).map sections).filter isCodeSection).map
                (fun h : SectionHeader => some (CodeSection.mk h.PointerToRawData h.VirtualAddress h.VirtualSize))
              ++ List.replicate
                  (total - (((List.range k).map sections).filter isCodeSection).length) none,
             (((List.range k).map sections).filter isCodeSection).length) := by
  intro k
  induction k with
  | zero => intro _; simp
  | succ k ih =>
    intro hle
    rw [List.range_succ, List.map_append, List.filter_append, List.length_append] at hle
    rw [List.range_succ, List.foldl_append, ih (by omega)]
    rw [List.map_append, List.filter_append, List.map_append, List.length_append]
    by_cases hc : isCodeSection (sections k) = true
    · have hlen : (List.filter isCodeSection (List.map sections [k])).length = 1 := by
        simp [hc]
      rw [hlen] at hle
      obtain ⟨m, hm⟩ : ∃ m, total -
          (((List.range k).map sections).filter isCodeSection).length = m + 1 :=
        ⟨total - (((List.range k).map sections).filter isCodeSection).length - 1, by omega⟩
      have hm2 : total - ((((List.range k).map sections).filter isCodeSection).length
          + (List.filter isCodeSection (List.map sections [k])).length) = m := by
        rw [hlen]; omega
      rw [hm2, hm, List.replicate_succ]
      simp only [List.foldl_cons, List.foldl_nil, PeLoader.fillStep, hc, if_true, arrayStore]
      have hidx : (((List.range k).map sections).filter isCodeSection).length
          < ((((List.range k).map sections).filter isCodeSection).map
                (fun h : SectionHeader => some (CodeSection.mk h.PointerToRawData h.VirtualAddress h.VirtualSize))
              ++ none :: List.replicate m none).length := by
        simp
      rw [if_pos hidx]
      have hset := set_length_append
        ((((List.range k).map sections).filter isCodeSection).map
          (fun h : SectionHeader => some (CodeSection.mk h.PointerToRawData h.VirtualAddress h.VirtualSize)))
        (List.replicate m none) none
        (some (CodeSection.mk (sections k).PointerToRawData (sections k).VirtualAddress
          (sections k).VirtualSize))
      rw [List.length_map] at hset
      simp [hset, hc]
    · have hlen : List.filter isCodeSection (List.map sections [k]) = [] := by
        simp [hc]
      simp [hlen, PeLoader.fillStep, hc]

/-- C3: the section scan of the `PeLoader` constructor stores exactly the sections whose
`Characteristics` equals `0x60000020` (`MEM_READ | CNT_CODE | MEM_EXECUTE`, by equality), in
section-table order, each as `CodeSection(PointerToRawData, VirtualAddress, VirtualSize)`;
the array has one entry per matching section and no `NULL` entry. -/
theorem scanCodeSections_spec (sections : Nat → SectionHeader) (sectionsNumber : Int) :
    PeLoader.scanCodeSections sections sectionsNumber =
      some (((sectionTable sections sectionsNumber).filter
          (fun h => decide (h.Characteristics = 0x60000020))).map
        (fun h : SectionHeader => some (CodeSection.mk h.PointerToRawData h.VirtualAddress h.VirtualSize))) := by
  have hfilt : (fun h : SectionHeader => decide (h.Characteristics = 0x60000020))
      = isCodeSection := by
    funext h
    rw [Bool.eq_iff_iff, decide_eq_true_iff, isCodeSection_iff]
  unfold PeLoader.scanCodeSections PeLoader.countCodeSections sectionTable
  dsimp only
  rw [hfilt, countCodeSections_eq, fillLoop_eq _ _ _ (Nat.le_refl _)]
  simp

/-- The section loop of `GetMethodProps` returns the lookup of the first section whose
lookup is not the miss value. -/
theorem findILHeader_eq_find (codeSections : List CodeSection) (RVA : Int) :
    PeLoader.findILHeader codeSections RVA =
      (codeSections.find? (fun s => decide (s.RvaToFilePos RVA ≠ -1))).map
        (fun s => s.RvaToFilePos RVA) := by
  induction codeSections with
  | nil => rfl
  | cons s rest ih =>
    unfold PeLoader.findILHeader
    by_cases h : s.RvaToFilePos RVA = -1
    · simp [h, ih]
    · simp [h]

/-- C4: `GetMethodProps` takes the IL header at the file position `RvaToFilePos(RVA)` of the
first code section, in list order, whose lookup is a hit (is not `-1`); when every lookup is a
miss, in particular when the RVA is in no section, it returns (no failure) properties whose
body is absent: `code == NULL`, `codeSize == 0`, `maxStack == 0`, and `IsIL` is false. The
method signature is decoded before the lookup; `hsig` says that this decoding returns. -/
theorem GetMethodProps_section_lookup (fuel : Nat) (codeSections : List CodeSection)
    (name : String) (RVA : Int) (sig : Nat → Nat)
    (decoderAt : Int → COR_ILMETHOD_DECODER) (getSigFromToken : Int → Nat → Nat)
    (heap : Int → Nat) (signature : MethodSignature) (mdHash : Int → ObjRef)
    (hsig : MethodSignature.new fuel { mem := sig, sig := 0 } false = some signature) :
    PeLoader.findILHeader codeSections RVA =
        (codeSections.find? (fun s => decide (s.RvaToFilePos RVA ≠ -1))).map
          (fun s => s.RvaToFilePos RVA) ∧
    (∀ filePos, PeLoader.findILHeader codeSections RVA = some filePos →
      PeLoader.GetMethodProps fuel codeSections name RVA sig decoderAt getSigFromToken heap =
        (PeLoader.decodeBody fuel (decoderAt filePos) getSigFromToken heap).map
          (fun methodCode => { name := name, methodCode := methodCode, sig := signature })) ∧
    ((∀ s ∈ codeSections, s.RvaToFilePos RVA = -1) →
      ∃ props,
        PeLoader.GetMethodProps fuel codeSections name RVA sig decoderAt getSigFromToken heap =
          some props ∧
        props.methodCode.code = none ∧ props.methodCode.codeSize = 0 ∧
        props.methodCode.maxStack = 0 ∧
        (ILMethodDecoder.new props.methodCode mdHash).IsIL = false) := by
  refine ⟨findILHeader_eq_find codeSections RVA, ?_, ?_⟩
  · intro filePos hpos
    unfold PeLoader.GetMethodProps
    rw [hsig, hpos]
    dsimp only
    cases hb : PeLoader.decodeBody fuel (decoderAt filePos) getSigFromToken heap <;> rfl
  · intro hmiss
    have hnone : PeLoader.findILHeader codeSections RVA = none := by
      rw [findILHeader_eq_find, Option.map_eq_none', List.find?_eq_none]
      intro s hs
      simp [hmiss s hs]
    refine ⟨{ name := name, methodCode := MethodCode.empty, sig := signature }, ?_, rfl, rfl,
      rfl, rfl⟩
    unfold PeLoader.GetMethodProps
    rw [hsig, hnone]

/-- Witness for C4: with the single section (0x400, 0x2000, 0x100), RVA 0x2010 is found at
file position 0x410 and RVA 0x3000 is in no section, so its body is absent. -/
theorem GetMethodProps_section_lookup_witness :
    PeLoader.findILHeader [CodeSection.mk 0x400 0x2000 0x100] 0x2010 = some 0x410 ∧
    ∃ props,
      PeLoader.GetMethodProps 1 [CodeSection.mk 0x400 0x2000 0x100] "M" 0x3000
          (sigOfBytes [0x00, 0x00, 0x01])
          (fun _ => ⟨false, 0, 8, 1, memOfBytes [0x2A], 0, fun _ => ⟨0, 0, 0, 0, 0, 0⟩⟩)
          (fun _ => sigOfBytes []) (memOfBytes []) = some props ∧
      props.methodCode.code = none ∧ props.methodCode.codeSize = 0 ∧
      props.methodCode.maxStack = 0 ∧
      (ILMethodDecoder.new props.methodCode (fun _ => ObjRef.null)).IsIL = false :=
  ⟨by decide,
    (GetMethodProps_section_lookup 1 [CodeSection.mk 0x400 0x2000 0x100] "M" 0x3000
      (sigOfBytes [0x00, 0x00, 0x01])
      (fun _ => ⟨false, 0, 8, 1, memOfBytes [0x2A], 0, fun _ => ⟨0, 0, 0, 0, 0, 0⟩⟩)
      (fun _ => sigOfBytes []) (memOfBytes [])
      { sigReader := { mem := sigOfBytes [0x00, 0x00, 0x01], sig := 3 }
        isMethodRef := false
        callingConv := 1
        paramBaseTypes := []
        paramDeclarators := []
        paramCount := 0
        paramTypes := none }
      (fun _ => ObjRef.null) (by rfl)).2.2 (by decide)⟩

/-! ### The IL opcode reader -/

theorem wrap32_add_wrap32 (a b : Int) : wrap32 (wrap32 a + b) = wrap32 (a + b) := by
  unfold wrap32
  omega

theorem advance_advance (d : ILMethodDecoder) (a b : Int) :
    (d.advance a).advance b = d.advance (a + b) := by
  unfold ILMethodDecoder.advance
  simp only [wrap32_add_wrap32, add_assoc]

theorem advance_of_inInt32 (d : ILMethodDecoder) (n : Int) (h : inInt32 (d.pos + n)) :
    d.advance n = { d with pos := d.pos + n } := by
  unfold ILMethodDecoder.advance
  rw [wrap32_of_inInt32 h]

theorem advance_pos (d : ILMethodDecoder) (n : Int) : (d.advance n).pos = wrap32 (d.pos + n) :=
  rfl

theorem advance_code (d : ILMethodDecoder) (n : Int) :
    (d.advance n).methodCode = d.methodCode := rfl

theorem wrap32_inInt32 (x : Int) : inInt32 (wrap32 x) := by
  unfold inInt32 wrap32
  omega

/-- The loop of `ReadSwitch` never fails on a present body: it appends the `k` values at the
successive cursor positions and moves the cursor by `4 * k`. -/
theorem readSwitchLoop_eq (code : Int → Nat) :
    ∀ (k : Nat) (acc : List Int) (d : ILMethodDecoder), d.methodCode.code = some code →
      inInt32 d.pos →
      ILMethodDecoder.readSwitchLoop k acc d =
        .ok (acc ++ (List.range k).map
              (fun i : Nat => toSigned 32 (leBytes code (wrap32 (d.pos + 4 * (i : Int))) 4)),
            d.advance (4 * (k : Int))) := by
  intro k
  induction k with
  | zero =>
    intro acc d _ hp
    simp [ILMethodDecoder.readSwitchLoop, ILMethodDecoder.advance, wrap32_of_inInt32 hp]
  | succ k ih =>
    intro acc d hcode hp
    unfold ILMethodDecoder.readSwitchLoop ILMethodDecoder.ReadInt32
    simp only [hcode]
    rw [ih _ _ (by rw [advance_code]; exact hcode) (wrap32_inInt32 _), advance_advance,
      List.range_succ_eq_map, List.map_cons, List.map_map]
    have h1 : (4 : Int) + 4 * (k : Int) = 4 * ((k + 1 : Nat) : Int) := by push_cast; ring
    rw [h1]
    congr 2
    simp only [List.append_assoc, List.singleton_append, List.append_cancel_left_eq,
      List.cons.injEq]
    refine ⟨?_, ?_⟩
    · simp [wrap32_of_inInt32 hp]
    · apply List.map_congr_left
      intro i _
      simp only [Function.comp, advance_pos, wrap32_add_wrap32]
      congr 3
      push_cast
      ring

/-- C5 (as stated, refuted): on the body `[0xFE, 0x16, 0x0A]` the cursor is on `0xFE` and
`pos + 1 < codeSize`, and `ReadCode` returns `0xF7`, not `0xE100 + 0x16 = 0xE116`. -/
theorem ReadCode_two_byte_counterexample :
    byteAt (memOfBytes [0xFE, 0x16, 0x0A]) 0 = 0xFE ∧
    (ILMethodDecoder.new (bodyOfBytes [0xFE, 0x16, 0x0A]) (fun _ => ObjRef.null)).pos + 1
      < (bodyOfBytes [0xFE, 0x16, 0x0A]).codeSize ∧
    Except.map Prod.fst
        (ILMethodDecoder.new (bodyOfBytes [0xFE, 0x16, 0x0A]) (fun _ => ObjRef.null)).ReadCode
      = .ok 0xF7 ∧
    Except.map Prod.fst
        (ILMethodDecoder.new (bodyOfBytes [0xFE, 0x16, 0x0A]) (fun _ => ObjRef.null)).ReadCode
      ≠ .ok (0xE100 + 0x16) := by
  refine ⟨by decide, by decide, rfl, ?_⟩
  intro h
  have h2 : Except.map Prod.fst
      (ILMethodDecoder.new (bodyOfBytes [0xFE, 0x16, 0x0A]) (fun _ => ObjRef.null)).ReadCode
      = .ok 0xF7 := rfl
  rw [h2] at h
  injection h with h3
  omega

/-- C5 (amended): when the byte at the cursor is `0xFE` and one more byte of the body
follows, `ReadCode` returns `(0xE1 + code[pos+1]) mod 256` (the origin is `0xE1` and the
result is held in a `Byte`) and advances the cursor by 2. -/
theorem ReadCode_two_byte (d : ILMethodDecoder) (code : Int → Nat)
    (hcode : d.methodCode.code = some code) (hsize : inInt32 d.methodCode.codeSize)
    (hpos : 0 ≤ d.pos) (hFE : byteAt code d.pos = 0xFE)
    (hlt : d.pos + 1 < d.methodCode.codeSize) :
    d.ReadCode =
      .ok ((((0xE1 + byteAt code (d.pos + 1)) % 256 : Nat) : Int),
        { d with pos := d.pos + 2 }) := by
  have hs := hsize.2
  have h1 : inInt32 (d.pos + 1) := ⟨by omega, by omega⟩
  have h2 : inInt32 (d.pos + (1 + 1)) := ⟨by omega, by omega⟩
  unfold ILMethodDecoder.ReadCode
  simp only [hcode, hFE, if_true]
  rw [advance_advance, advance_pos, wrap32_of_inInt32 h1, advance_of_inInt32 d _ h2]
  rfl

/-- Witness for C5: on the body `[0xFE, 0x16, 0x0A]`, `ReadCode` returns `0xF7`, the cursor
is then 2, and the next `ReadUint8` returns `0x0A`. -/
theorem ReadCode_two_byte_witness :
    ∃ d1, (ILMethodDecoder.new (bodyOfBytes [0xFE, 0x16, 0x0A])
          (fun _ => ObjRef.null)).ReadCode = .ok (0xF7, d1) ∧
      d1.pos = 2 ∧ Except.map Prod.fst d1.ReadUint8 = .ok 0x0A :=
  ⟨_, ReadCode_two_byte
      (ILMethodDecoder.new (bodyOfBytes [0xFE, 0x16, 0x0A]) (fun _ => ObjRef.null)) _ rfl
      (by decide) (by decide) (by decide) (by decide), rfl, rfl⟩

/-- C6: when the little-endian 32-bit value `n` at the cursor is non-negative and
`pos + 4 + 4n <= codeSize`, `ReadSwitch` returns the `n` signed little-endian 32-bit values
at `pos + 4 + 4i` (`i < n`) and advances the cursor by `4 + 4n`. -/
theorem ReadSwitch_spec (d : ILMethodDecoder) (code : Int → Nat)
    (hcode : d.methodCode.code = some code) (hsize : inInt32 d.methodCode.codeSize)
    (hpos : 0 ≤ d.pos) (hn : 0 ≤ toSigned 32 (leBytes code d.pos 4))
    (hfit : d.pos + 4 + 4 * toSigned 32 (leBytes code d.pos 4) ≤ d.methodCode.codeSize) :
    d.ReadSwitch =
      .ok ((List.range (toSigned 32 (leBytes code d.pos 4)).toNat).map
            (fun i : Nat => toSigned 32 (leBytes code (d.pos + 4 + 4 * (i : Int)) 4)),
        { d with pos := d.pos + 4 + 4 * toSigned 32 (leBytes code d.pos 4) }) := by
  have hs := hsize.2
  unfold ILMethodDecoder.ReadSwitch ILMethodDecoder.ReadInt32
  simp only [hcode, if_neg (not_lt.mpr hn)]
  rw [readSwitchLoop_eq code _ _ _ (by rw [advance_code]; exact hcode) (wrap32_inInt32 _),
    advance_advance, List.nil_append]
  have hk : ((toSigned 32 (leBytes code d.pos 4)).toNat : Int)
      = toSigned 32 (leBytes code d.pos 4) := Int.toNat_of_nonneg hn
  rw [hk, advance_of_inInt32 d (4 + 4 * toSigned 32 (leBytes code d.pos 4))
    ⟨by omega, by omega⟩, add_assoc]
  congr 2
  apply List.map_congr_left
  intro i hi
  rw [List.mem_range] at hi
  have hi2 : (i : Int) < toSigned 32 (leBytes code d.pos 4) := by omega
  rw [advance_pos, wrap32_add_wrap32, wrap32_of_inInt32 ⟨by omega, by omega⟩]

/-- Witness for C6: the bytes `02 00 00 00 10 00 00 00 F0 FF FF FF` give `[16, -16]` and
move the cursor from 0 to 12. -/
theorem ReadSwitch_spec_witness :
    ∃ d1, (ILMethodDecoder.new
        (bodyOfBytes [0x02, 0, 0, 0, 0x10, 0, 0, 0, 0xF0, 0xFF, 0xFF, 0xFF])
        (fun _ => ObjRef.null)).ReadSwitch = .ok ([16, -16], d1) ∧ d1.pos = 12 :=
  ⟨_, ReadSwitch_spec
      (ILMethodDecoder.new (bodyOfBytes [0x02, 0, 0, 0, 0x10, 0, 0, 0, 0xF0, 0xFF, 0xFF, 0xFF])
        (fun _ => ObjRef.null)) _ rfl
      (by decide) (by decide) (by decide) (by decide), rfl⟩

theorem byteAt_lt (code : Int → Nat) (i : Int) : byteAt code i < 256 :=
  Nat.mod_lt _ (by decide)

theorem leBytes_lt (code : Int → Nat) : ∀ (n : Nat) (i : Int), leBytes code i n < 256 ^ n := by
  intro n
  induction n with
  | zero => intro i; simp [leBytes]
  | succ n ih =>
    intro i
    unfold leBytes
    have h1 := byteAt_lt code i
    have h2 := ih (i + 1)
    rw [pow_succ]
    omega

theorem toSigned32_inInt32 (u : Nat) (h : u < 4294967296) : inInt32 (toSigned 32 u) := by
  unfold toSigned inInt32
  norm_num
  split <;> omega

/-- C7 (as stated, refuted): on the four bytes `01 00 00 80`, the unsigned token
`0x80000001`, and a map without that key, `ReadToken` returns the string `"-2147483647"`, which is not the
decimal text `"2147483649"` of the unsigned token. -/
theorem ReadToken_unsigned_counterexample :
    leBytes (memOfBytes [0x01, 0x00, 0x00, 0x80]) 0 4 = 0x80000001 ∧
    (ILMethodDecoder.new (bodyOfBytes [0x01, 0x00, 0x00, 0x80]) (fun _ => ObjRef.null)).pos + 4
      ≤ (bodyOfBytes [0x01, 0x00, 0x00, 0x80]).codeSize ∧
    Except.map Prod.fst
        (ILMethodDecoder.new (bodyOfBytes [0x01, 0x00, 0x00, 0x80])
          (fun _ => ObjRef.null)).ReadToken
      = .ok (ObjRef.str "-2147483647") ∧
    ObjRef.str "-2147483647" ≠ ObjRef.str (toString (0x80000001 : Nat)) :=
  ⟨by decide, by decide, rfl, by decide⟩

/-- C7 (amended): with at least 4 bytes of the body left at the cursor, `ReadToken` reads the
little-endian 32-bit value as a signed `Int32` `tk`, advances the cursor by 4, and returns the
object the map gives for the key `tk` when there is one; otherwise it returns the decimal text
of the signed value `tk`. -/
theorem ReadToken_spec (d : ILMethodDecoder) (code : Int → Nat)
    (hcode : d.methodCode.code = some code) (hsize : inInt32 d.methodCode.codeSize)
    (hpos : 0 ≤ d.pos) (hfit : d.pos + 4 ≤ d.methodCode.codeSize) :
    inInt32 (toSigned 32 (leBytes code d.pos 4)) ∧
    (d.mdHash (toSigned 32 (leBytes code d.pos 4)) ≠ ObjRef.null →
      d.ReadToken =
        .ok (d.mdHash (toSigned 32 (leBytes code d.pos 4)), { d with pos := d.pos + 4 })) ∧
    (d.mdHash (toSigned 32 (leBytes code d.pos 4)) = ObjRef.null →
      d.ReadToken =
        .ok (ObjRef.str (toString (toSigned 32 (leBytes code d.pos 4))),
          { d with pos := d.pos + 4 })) := by
  have hs := hsize.2
  have hadv := advance_of_inInt32 d 4 ⟨by omega, by omega⟩
  refine ⟨?_, ?_, ?_⟩
  · exact toSigned32_inInt32 _ (by have := leBytes_lt code 4 d.pos; norm_num at this; exact this)
  · intro hkey
    unfold ILMethodDecoder.ReadToken ILMethodDecoder.ReadInt32
    simp only [hcode, hadv]
    cases hobj : d.mdHash (toSigned 32 (leBytes code d.pos 4)) with
    | null => exact absurd hobj hkey
    | _ => simp [ObjRef.isNull]
  · intro hkey
    unfold ILMethodDecoder.ReadToken ILMethodDecoder.ReadInt32
    simp only [hcode, hadv, hkey, ObjRef.isNull, if_true, formatInt32]

/-- Witness for C7: over the bytes `01 00 00 0A` and a map that has the key `0x0A000001`,
`ReadToken` returns the mapped object; with a map without the key it returns the string
`"167772161"`; over `01 00 00 80` and a map without the key it returns `"-2147483647"`. -/
theorem ReadToken_spec_witness :
    (∃ d1, (ILMethodDecoder.new (bodyOfBytes [0x01, 0x00, 0x00, 0x0A])
          (fun _ => ObjRef.null)).ReadToken = .ok (ObjRef.str "167772161", d1) ∧ d1.pos = 4) ∧
    Except.map Prod.fst
        (ILMethodDecoder.new (bodyOfBytes [0x01, 0x00, 0x00, 0x0A])
          (fun tk => if tk = 0x0A000001 then ObjRef.type (SysType.resolved 1)
            else ObjRef.null)).ReadToken
      = .ok (ObjRef.type (SysType.resolved 1)) ∧
    Except.map Prod.fst
        (ILMethodDecoder.new (bodyOfBytes [0x01, 0x00, 0x00, 0x80])
          (fun _ => ObjRef.null)).ReadToken
      = .ok (ObjRef.str "-2147483647") :=
  ⟨⟨_, (ReadToken_spec
      (ILMethodDecoder.new (bodyOfBytes [0x01, 0x00, 0x00, 0x0A]) (fun _ => ObjRef.null)) _ rfl
      (by decide) (by decide) (by decide)).2.2 rfl, rfl⟩, rfl, rfl⟩

/-- C8 (as stated, refuted): after the one byte of the body `[0x2A]` has been read the
cursor equals `codeSize`, every operand would extend past `codeSize`, and each of the ten read
operations returns a value. -/
theorem read_past_codeSize_counterexample :
    ((ILMethodDecoder.new (bodyOfBytes [0x2A]) (fun _ => ObjRef.null)).advance 1).EndOfCode
      = true ∧
    ((ILMethodDecoder.new (bodyOfBytes [0x2A]) (fun _ => ObjRef.null)).advance 1).pos + 1 >
      ((ILMethodDecoder.new (bodyOfBytes [0x2A]) (fun _ => ObjRef.null)).advance 1).CodeSize ∧
    Except.map Prod.fst
      ((ILMethodDecoder.new (bodyOfBytes [0x2A]) (fun _ => ObjRef.null)).advance 1).ReadUint8
      = .ok 0 ∧
    ((ILMethodDecoder.new (bodyOfBytes [0x2A]) (fun _ => ObjRef.null)).advance 1).ReadCode.isOk
      = true ∧
    ((ILMethodDecoder.new (bodyOfBytes [0x2A]) (fun _ => ObjRef.null)).advance 1).ReadInt8.isOk
      = true ∧
    ((ILMethodDecoder.new (bodyOfBytes [0x2A]) (fun _ => ObjRef.null)).advance 1).ReadUint16.isOk
      = true ∧
    ((ILMethodDecoder.new (bodyOfBytes [0x2A]) (fun _ => ObjRef.null)).advance 1).ReadInt32.isOk
      = true ∧
    ((ILMethodDecoder.new (bodyOfBytes [0x2A]) (fun _ => ObjRef.null)).advance 1).ReadInt64.isOk
      = true ∧
    ((ILMethodDecoder.new (bodyOfBytes [0x2A]) (fun _ => ObjRef.null)).advance 1).ReadFloat32.isOk
      = true ∧
    ((ILMethodDecoder.new (bodyOfBytes [0x2A]) (fun _ => ObjRef.null)).advance 1).ReadFloat64.isOk
      = true ∧
    ((ILMethodDecoder.new (bodyOfBytes [0x2A]) (fun _ => ObjRef.null)).advance 1).ReadSwitch.isOk
      = true ∧
    ((ILMethodDecoder.new (bodyOfBytes [0x2A]) (fun _ => ObjRef.null)).advance 1).ReadToken.isOk
      = true :=
  ⟨rfl, by decide, rfl, rfl, rfl, rfl, rfl, rfl, rfl, rfl, rfl, rfl⟩

/-- On a present body `ReadSwitch` is determined by the bytes at the cursor: the overflow of
the allocation for a negative count, else the values at the successive positions. -/
theorem ReadSwitch_eq (d : ILMethodDecoder) (code : Int → Nat)
    (hcode : d.methodCode.code = some code) :
    d.ReadSwitch =
      if toSigned 32 (leBytes code d.pos 4) < 0 then .error Fault.overflow
      else .ok ((List.range (toSigned 32 (leBytes code d.pos 4)).toNat).map
            (fun i : Nat =>
              toSigned 32 (leBytes code (wrap32 ((d.advance 4).pos + 4 * (i : Int))) 4)),
          (d.advance 4).advance (4 * ((toSigned 32 (leBytes code d.pos 4)).toNat : Int))) := by
  unfold ILMethodDecoder.ReadSwitch ILMethodDecoder.ReadInt32
  simp only [hcode]
  by_cases hn : toSigned 32 (leBytes code d.pos 4) < 0
  · rw [if_pos hn, if_pos hn]
  · rw [if_neg hn, if_neg hn,
      readSwitchLoop_eq code _ _ _ (by rw [advance_code]; exact hcode) (wrap32_inInt32 _),
      List.nil_append]

/-- C8 (amended): no read operation compares the cursor with `codeSize` or raises a
`FormatError`. For each of the ten read operations, the outcome (the value returned and the
reader left, or the failure) is the same whatever value the field `codeSize` has, apart from
that field in the reader left; so a read whose operand extends past `codeSize` is not
rejected. A read whose operand lies inside the body (body present, `0 <= pos`,
`pos + width <= codeSize`) returns the value of the operand and advances the cursor by the
width: the byte for `ReadCode` (width 1), or `(0xE1 + next byte) mod 256` after a `0xFE`
(width 2); the signed byte for `ReadInt8`; the byte for `ReadUint8`; the little-endian value
of 2 bytes for `ReadUint16`, of 4 bytes, signed, for `ReadInt32`, of 8 bytes, signed, for
`ReadInt64`; the bit pattern of 4 and 8 bytes for `ReadFloat32` and `ReadFloat64`; for
`ReadToken` the object the map has for the signed 32-bit token, else the token's decimal
text; for `ReadSwitch` with a count `n >= 0` the `n` signed 32-bit values that follow the
count (width `4 + 4n`), and for a count `n < 0` the overflow of the array allocation. -/
theorem read_unchecked (d : ILMethodDecoder) :
    (∀ c : Int,
      ({ d with methodCode := { d.methodCode with codeSize := c } } : ILMethodDecoder).ReadCode =
        Except.map (fun p => (p.1,
            ({ p.2 with methodCode := { p.2.methodCode with codeSize := c } } : ILMethodDecoder)))
          d.ReadCode) ∧
    (∀ c : Int,
      ({ d with methodCode := { d.methodCode with codeSize := c } } : ILMethodDecoder).ReadInt8 =
        Except.map (fun p => (p.1,
            ({ p.2 with methodCode := { p.2.methodCode with codeSize := c } } : ILMethodDecoder)))
          d.ReadInt8) ∧
    (∀ c : Int,
      ({ d with methodCode := { d.methodCode with codeSize := c } } : ILMethodDecoder).ReadUint8 =
        Except.map (fun p => (p.1,
            ({ p.2 with methodCode := { p.2.methodCode with codeSize := c } } : ILMethodDecoder)))
          d.ReadUint8) ∧
    (∀ c : Int,
      ({ d with methodCode := { d.methodCode with codeSize := c } } : ILMethodDecoder).ReadUint16 =
        Except.map (fun p => (p.1,
            ({ p.2 with methodCode := { p.2.methodCode with codeSize := c } } : ILMethodDecoder)))
          d.ReadUint16) ∧
    (∀ c : Int,
      ({ d with methodCode := { d.methodCode with codeSize := c } } : ILMethodDecoder).ReadInt32 =
        Except.map (fun p => (p.1,
            ({ p.2 with methodCode := { p.2.methodCode with codeSize := c } } : ILMethodDecoder)))
          d.ReadInt32) ∧
    (∀ c : Int,
      ({ d with methodCode := { d.methodCode with codeSize := c } } : ILMethodDecoder).ReadInt64 =
        Except.map (fun p => (p.1,
            ({ p.2 with methodCode := { p.2.methodCode with codeSize := c } } : ILMethodDecoder)))
          d.ReadInt64) ∧
    (∀ c : Int,
      ({ d with methodCode := { d.methodCode with codeSize := c } } : ILMethodDecoder).ReadFloat32 =
        Except.map (fun p => (p.1,
            ({ p.2 with methodCode := { p.2.methodCode with codeSize := c } } : ILMethodDecoder)))
          d.ReadFloat32) ∧
    (∀ c : Int,
      ({ d with methodCode := { d.methodCode with codeSize := c } } : ILMethodDecoder).ReadFloat64 =
        Except.map (fun p => (p.1,
            ({ p.2 with methodCode := { p.2.methodCode with codeSize := c } } : ILMethodDecoder)))
          d.ReadFloat64) ∧
    (∀ c : Int,
      ({ d with methodCode := { d.methodCode with codeSize := c } } : ILMethodDecoder).ReadSwitch =
        Except.map (fun p => (p.1,
            ({ p.2 with methodCode := { p.2.methodCode with codeSize := c } } : ILMethodDecoder)))
          d.ReadSwitch) ∧
    (∀ c : Int,
      ({ d with methodCode := { d.methodCode with codeSize := c } } : ILMethodDecoder).ReadToken =
        Except.map (fun p => (p.1,
            ({ p.2 with methodCode := { p.2.methodCode with codeSize := c } } : ILMethodDecoder)))
          d.ReadToken) ∧
    (∀ code : Int → Nat, d.methodCode.code = some code → inInt32 d.methodCode.codeSize →
      0 ≤ d.pos →
      (d.pos + 1 ≤ d.methodCode.codeSize → byteAt code d.pos ≠ 0xFE →
        d.ReadCode = .ok (((byteAt code d.pos : Nat) : Int), { d with pos := d.pos + 1 })) ∧
      (d.pos + 2 ≤ d.methodCode.codeSize → byteAt code d.pos = 0xFE →
        d.ReadCode = .ok ((((0xE1 + byteAt code (d.pos + 1)) % 256 : Nat) : Int),
          { d with pos := d.pos + 2 })) ∧
      (d.pos + 1 ≤ d.methodCode.codeSize →
        d.ReadInt8 = .ok (toSigned 8 (byteAt code d.pos), { d with pos := d.pos + 1 })) ∧
      (d.pos + 1 ≤ d.methodCode.codeSize →
        d.ReadUint8 = .ok (byteAt code d.pos, { d with pos := d.pos + 1 })) ∧
      (d.pos + 2 ≤ d.methodCode.codeSize →
        d.ReadUint16 = .ok (((leBytes code d.pos 2 : Nat) : Int), { d with pos := d.pos + 2 })) ∧
      (d.pos + 4 ≤ d.methodCode.codeSize →
        d.ReadInt32 = .ok (toSigned 32 (leBytes code d.pos 4), { d with pos := d.pos + 4 })) ∧
      (d.pos + 8 ≤ d.methodCode.codeSize →
        d.ReadInt64 = .ok (toSigned 64 (leBytes code d.pos 8), { d with pos := d.pos + 8 })) ∧
      (d.pos + 4 ≤ d.methodCode.codeSize →
        d.ReadFloat32 = .ok (leBytes code d.pos 4, { d with pos := d.pos + 4 })) ∧
      (d.pos + 8 ≤ d.methodCode.codeSize →
        d.ReadFloat64 = .ok (leBytes code d.pos 8, { d with pos := d.pos + 8 })) ∧
      (d.pos + 4 ≤ d.methodCode.codeSize →
        d.ReadToken =
          .ok (if (d.mdHash (toSigned 32 (leBytes code d.pos 4))).isNull
              then ObjRef.str (formatInt32 (toSigned 32 (leBytes code d.pos 4)))
              else d.mdHash (toSigned 32 (leBytes code d.pos 4)),
            { d with pos := d.pos + 4 })) ∧
      (d.pos + 4 ≤ d.methodCode.codeSize → toSigned 32 (leBytes code d.pos 4) < 0 →
        d.ReadSwitch = .error Fault.overflow) ∧
      (0 ≤ toSigned 32 (leBytes code d.pos 4) →
        d.pos + 4 + 4 * toSigned 32 (leBytes code d.pos 4) ≤ d.methodCode.codeSize →
        d.ReadSwitch =
          .ok ((List.range (toSigned 32 (leBytes code d.pos 4)).toNat).map
                (fun i : Nat => toSigned 32 (leBytes code (d.pos + 4 + 4 * (i : Int)) 4)),
            { d with pos := d.pos + 4 + 4 * toSigned 32 (leBytes code d.pos 4) }))) := by
  refine ⟨?_, ?_, ?_, ?_, ?_, ?_, ?_, ?_, ?_, ?_, ?_⟩
  · intro c
    obtain ⟨pos, ⟨ms, cs, code, eh, lb, ld, mp⟩, hash⟩ := d
    cases code with
    | none => rfl
    | some code =>
      by_cases h : byteAt code pos = 0xFE
      · simp only [ILMethodDecoder.ReadCode, ILMethodDecoder.advance, Except.map, h, if_true]
      · simp only [ILMethodDecoder.ReadCode, ILMethodDecoder.advance, Except.map, h, if_false]
  · intro c
    obtain ⟨pos, ⟨ms, cs, code, eh, lb, ld, mp⟩, hash⟩ := d
    cases code with
    | none => rfl
    | some code => simp only [ILMethodDecoder.ReadInt8, ILMethodDecoder.advance, Except.map]
  · intro c
    obtain ⟨pos, ⟨ms, cs, code, eh, lb, ld, mp⟩, hash⟩ := d
    cases code with
    | none => rfl
    | some code => simp only [ILMethodDecoder.ReadUint8, ILMethodDecoder.advance, Except.map]
  · intro c
    obtain ⟨pos, ⟨ms, cs, code, eh, lb, ld, mp⟩, hash⟩ := d
    cases code with
    | none => rfl
    | some code => simp only [ILMethodDecoder.ReadUint16, ILMethodDecoder.advance, Except.map]
  · intro c
    obtain ⟨pos, ⟨ms, cs, code, eh, lb, ld, mp⟩, hash⟩ := d
    cases code with
    | none => rfl
    | some code => simp only [ILMethodDecoder.ReadInt32, ILMethodDecoder.advance, Except.map]
  · intro c
    obtain ⟨pos, ⟨ms, cs, code, eh, lb, ld, mp⟩, hash⟩ := d
    cases code with
    | none => rfl
    | some code => simp only [ILMethodDecoder.ReadInt64, ILMethodDecoder.advance, Except.map]
  · intro c
    obtain ⟨pos, ⟨ms, cs, code, eh, lb, ld, mp⟩, hash⟩ := d
    cases code with
    | none => rfl
    | some code => simp only [ILMethodDecoder.ReadFloat32, ILMethodDecoder.advance, Except.map]
  · intro c
    obtain ⟨pos, ⟨ms, cs, code, eh, lb, ld, mp⟩, hash⟩ := d
    cases code with
    | none => rfl
    | some code => simp only [ILMethodDecoder.ReadFloat64, ILMethodDecoder.advance, Except.map]
  · intro c
    obtain ⟨pos, ⟨ms, cs, code, eh, lb, ld, mp⟩, hash⟩ := d
    cases code with
    | none => rfl
    | some code =>
      rw [ReadSwitch_eq _ code rfl, ReadSwitch_eq _ code rfl]
      by_cases h : toSigned 32 (leBytes code pos 4) < 0
      · simp only [h, if_true, Except.map]
      · simp only [h, if_false, ILMethodDecoder.advance, Except.map]
  · intro c
    obtain ⟨pos, ⟨ms, cs, code, eh, lb, ld, mp⟩, hash⟩ := d
    cases code with
    | none => rfl
    | some code =>
      by_cases h : (hash (toSigned 32 (leBytes code pos 4))).isNull = true
      · simp only [ILMethodDecoder.ReadToken, ILMethodDecoder.ReadInt32,
          ILMethodDecoder.advance, Except.map, h, if_true]
      · simp only [ILMethodDecoder.ReadToken, ILMethodDecoder.ReadInt32,
          ILMethodDecoder.advance, Except.map, h, if_false, Bool.false_eq_true]
  · intro code hcode hsize hpos
    have hs := hsize.2
    have adv : ∀ w : Int, 0 ≤ w → d.pos + w ≤ d.methodCode.codeSize →
        d.advance w = { d with pos := d.pos + w } :=
      fun w hw hfit => advance_of_inInt32 d w ⟨by omega, by omega⟩
    refine ⟨?_, ?_, ?_, ?_, ?_, ?_, ?_, ?_, ?_, ?_, ?_, ?_⟩
    · intro hfit hb
      unfold ILMethodDecoder.ReadCode
      simp only [hcode, hb, if_false]
      rw [adv 1 (by decide) hfit]
    · intro hfit hb
      unfold ILMethodDecoder.ReadCode
      simp only [hcode, hb, if_true]
      have hfit2 : d.pos + (1 + 1) ≤ d.methodCode.codeSize := hfit
      rw [advance_advance, advance_pos, wrap32_of_inInt32 ⟨by omega, by omega⟩,
        adv (1 + 1) (by decide) hfit2]
      rfl
    · intro hfit
      unfold ILMethodDecoder.ReadInt8
      simp only [hcode]
      rw [adv 1 (by decide) hfit]
    · intro hfit
      unfold ILMethodDecoder.ReadUint8
      simp only [hcode]
      rw [adv 1 (by decide) hfit]
    · intro hfit
      unfold ILMethodDecoder.ReadUint16
      simp only [hcode]
      rw [adv 2 (by decide) hfit]
    · intro hfit
      unfold ILMethodDecoder.ReadInt32
      simp only [hcode]
      rw [adv 4 (by decide) hfit]
    · intro hfit
      unfold ILMethodDecoder.ReadInt64
      simp only [hcode]
      rw [adv 8 (by decide) hfit]
    · intro hfit
      unfold ILMethodDecoder.ReadFloat32
      simp only [hcode]
      rw [adv 4 (by decide) hfit]
    · intro hfit
      unfold ILMethodDecoder.ReadFloat64
      simp only [hcode]
      rw [adv 8 (by decide) hfit]
    · intro hfit
      unfold ILMethodDecoder.ReadToken ILMethodDecoder.ReadInt32
      simp only [hcode]
      rw [adv 4 (by decide) hfit]
      by_cases h : (d.mdHash (toSigned 32 (leBytes code d.pos 4))).isNull = true
      · rw [if_pos h, if_pos h]
      · rw [if_neg h, if_neg h]
    · intro _ hn
      rw [ReadSwitch_eq d code hcode, if_pos hn]
    · intro hn hfit
      rw [ReadSwitch_eq d code hcode, if_neg (not_lt.mpr hn), advance_advance]
      have hk : ((toSigned 32 (leBytes code d.pos 4)).toNat : Int)
          = toSigned 32 (leBytes code d.pos 4) := Int.toNat_of_nonneg hn
      rw [hk, adv (4 + 4 * toSigned 32 (leBytes code d.pos 4)) (by omega) (by omega),
        add_assoc]
      congr 2
      apply List.map_congr_left
      intro i hi
      rw [List.mem_range] at hi
      have hi2 : (i : Int) < toSigned 32 (leBytes code d.pos 4) := by omega
      rw [advance_pos, wrap32_add_wrap32, wrap32_of_inInt32 ⟨by omega, by omega⟩]

/-- Witness for C8: at the end of the body `[0x2A]` (cursor 1, `codeSize` 1) `ReadUint8` does
what it does with `codeSize` 5 in place of 1; and at the start of that body, where the operand
lies inside it, `ReadUint8` returns `0x2A` and moves the cursor to 1. -/
theorem read_unchecked_witness :
    ({ (ILMethodDecoder.new (bodyOfBytes [0x2A]) (fun _ => ObjRef.null)).advance 1 with
        methodCode := { (bodyOfBytes [0x2A]) with codeSize := 5 } } : ILMethodDecoder).ReadUint8 =
      Except.map (fun p => (p.1,
          ({ p.2 with methodCode := { p.2.methodCode with codeSize := 5 } } : ILMethodDecoder)))
        ((ILMethodDecoder.new (bodyOfBytes [0x2A]) (fun _ => ObjRef.null)).advance 1).ReadUint8 ∧
    (ILMethodDecoder.new (bodyOfBytes [0x2A]) (fun _ => ObjRef.null)).ReadUint8 =
      .ok (0x2A, { ILMethodDecoder.new (bodyOfBytes [0x2A]) (fun _ => ObjRef.null) with
        pos := 0 + 1 }) :=
  ⟨(read_unchecked
      ((ILMethodDecoder.new (bodyOfBytes [0x2A]) (fun _ => ObjRef.null)).advance 1)).2.2.1 5,
    ((read_unchecked (ILMethodDecoder.new (bodyOfBytes [0x2A]) (fun _ => ObjRef.null))).2.2.2.2.2.2.2.2.2.2
      _ rfl (by decide) (by decide)).2.2.2.1 (by decide)⟩

/-! ### The signature reader -/

/-- C9: `MatchUlong(v)` returns true exactly when the compressed unsigned integer at the
cursor equals `v`; when it returns true the cursor is the one `ReadUlong` leaves, just past
that integer, and when it returns false the reader is as it was before the call. -/
theorem MatchUlong_spec (r : SignatureReader) (v : Nat) :
    ((r.MatchUlong v).1 = true ↔ (CorSigUncompressData r.mem r.sig).1 = v) ∧
    ((r.MatchUlong v).1 = true →
      (r.MatchUlong v).2 = r.ReadUlong.2 ∧
      (r.MatchUlong v).2.sig = r.sig + (CorSigUncompressData r.mem r.sig).2) ∧
    ((r.MatchUlong v).1 = false → (r.MatchUlong v).2 = r) := by
  unfold SignatureReader.MatchUlong SignatureReader.ReadUlong
  by_cases h : (CorSigUncompressData r.mem r.sig).1 = v
  · simp [h]
  · simp [h]

/-- Witness for C9: over the signature `[0x20, 0x02]`, matching `0x20` succeeds and moves the
cursor from 0 to 1; matching `0x1F` fails and leaves the cursor at 0. -/
theorem MatchUlong_spec_witness :
    ((SignatureReader.mk (sigOfBytes [0x20, 0x02]) 0).MatchUlong 0x20).2.sig = 0 + 1 ∧
    ((SignatureReader.mk (sigOfBytes [0x20, 0x02]) 0).MatchUlong 0x1F).2
      = SignatureReader.mk (sigOfBytes [0x20, 0x02]) 0 :=
  ⟨((MatchUlong_spec (SignatureReader.mk (sigOfBytes [0x20, 0x02]) 0) 0x20).2.1 rfl).2,
    (MatchUlong_spec (SignatureReader.mk (sigOfBytes [0x20, 0x02]) 0) 0x1F).2.2 rfl⟩

/-- C10: when the tag at the cursor is one of `BOOLEAN, CHAR, I1, U1, I2, U2, I4, U4, I8, U8,
R4, R8, I, U, STRING, OBJECT`, `parseType` (with any fuel of at least 1) returns the primitive
type of the table, having read the tag only, and leaves `decls` unchanged; distinct tags of
the table have distinct types; when the tag is `VALUETYPE` or `CLASS` it reads one compressed
token after the tag and returns that token boxed, and leaves `decls` unchanged. -/
theorem parseType_primitive (fuel : Nat) (r : SignatureReader) (decls : String) :
    (∀ p ∈ specPrimitiveTypes, r.ReadUlong.1 = p.1 →
      SignatureReader.parseType (fuel + 1) r decls
        = some (ObjRef.type p.2, r.ReadUlong.2, decls)) ∧
    (∀ p ∈ specPrimitiveTypes, ∀ q ∈ specPrimitiveTypes, p.1 ≠ q.1 → p.2 ≠ q.2) ∧
    (r.ReadUlong.1 = ELEMENT_TYPE_VALUETYPE ∨ r.ReadUlong.1 = ELEMENT_TYPE_CLASS →
      SignatureReader.parseType (fuel + 1) r decls
        = some (ObjRef.boxInt32 r.ReadUlong.2.ReadToken.1, r.ReadUlong.2.ReadToken.2, decls)) := by
  refine ⟨?_, by decide, ?_⟩
  · intro p hp h
    simp only [specPrimitiveTypes, List.mem_cons, List.mem_singleton, List.not_mem_nil,
      or_false] at hp
    unfold SignatureReader.parseType
    rcases hp with rfl | rfl | rfl | rfl | rfl | rfl | rfl | rfl | rfl | rfl | rfl | rfl |
      rfl | rfl | rfl | rfl <;> simp [h]
  · intro h
    unfold SignatureReader.parseType
    rcases h with h | h <;> simp [h]

/-- Witness for C10: on the signature `[0x08]` `parseType` returns `Int32`, on `[0x0E]` it
returns `String`, and on `[0x12, 0x49]` (`CLASS`, then the compressed token of row 0x12 of
the `TypeRef` table) it returns the boxed token `0x01000012`; `decls` is unchanged. -/
theorem parseType_primitive_witness :
    SignatureReader.parseType 1 (SignatureReader.mk (sigOfBytes [0x08]) 0) "" =
      some (ObjRef.type SysType.Int32, SignatureReader.mk (sigOfBytes [0x08]) 1, "") ∧
    SignatureReader.parseType 1 (SignatureReader.mk (sigOfBytes [0x0E]) 0) "x" =
      some (ObjRef.type SysType.String, SignatureReader.mk (sigOfBytes [0x0E]) 1, "x") ∧
    SignatureReader.parseType 1 (SignatureReader.mk (sigOfBytes [0x12, 0x49]) 0) "" =
      some (ObjRef.boxInt32 0x01000012, SignatureReader.mk (sigOfBytes [0x12, 0x49]) 2, "") :=
  ⟨(parseType_primitive 0 (SignatureReader.mk (sigOfBytes [0x08]) 0) "").1
      (ELEMENT_TYPE_I4, SysType.Int32) (by decide) rfl,
    (parseType_primitive 0 (SignatureReader.mk (sigOfBytes [0x0E]) 0) "x").1
      (ELEMENT_TYPE_STRING, SysType.String) (by decide) rfl,
    (parseType_primitive 0 (SignatureReader.mk (sigOfBytes [0x12, 0x49]) 0) "").2.2
      (Or.inr rfl)⟩

/-! ### `parseType`: unsupported tags and declarators -/

/-- C11 (the source at the claimed input): when the tag at the cursor is
`ELEMENT_TYPE_FNPTR`, `parseType` raises nothing: it returns the `NULL` reference, having read
the tag only, with `decls` unchanged (the `case` holds only the comment `throw ...`). -/
theorem parseType_fnptr (fuel : Nat) (r : SignatureReader) (decls : String)
    (h : r.ReadUlong.1 = ELEMENT_TYPE_FNPTR) :
    SignatureReader.parseType (fuel + 1) r decls = some (ObjRef.null, r.ReadUlong.2, decls) := by
  unfold SignatureReader.parseType
  simp [h]

/-- Witness for C11: on the signature `[0x1B]` `parseType` returns `NULL` and the cursor is
past the tag. -/
theorem parseType_fnptr_witness :
    SignatureReader.parseType 1 (SignatureReader.mk (sigOfBytes [0x1B]) 0) "" =
      some (ObjRef.null, SignatureReader.mk (sigOfBytes [0x1B]) 1, "") :=
  parseType_fnptr 0 (SignatureReader.mk (sigOfBytes [0x1B]) 0) "" rfl

theorem CorSigUncompressData_le (mem : Nat → Nat) (p : Nat) :
    (CorSigUncompressData mem p).1 ≤ 0x1FFFFFFF := by
  unfold CorSigUncompressData
  dsimp only
  split_ifs
  · exact Nat.le_trans Nat.and_le_right (by decide)
  · exact Nat.le_trans Nat.and_le_right (by decide)
  · exact Nat.and_le_right

theorem ReadInt_range (r : SignatureReader) :
    -268435456 ≤ r.ReadInt.1 ∧ r.ReadInt.1 < 268435456 := by
  have hu := CorSigUncompressData_le r.mem r.sig
  unfold SignatureReader.ReadInt CorSigUncompressSignedInt
  dsimp only
  split_ifs <;> omega

theorem rankCommas_eq (s : Int) (h1 : -268435456 ≤ s) (h2 : s < 268435456) :
    rankCommas (wrap32 (s + 1)) = String.mk (List.replicate ((s + 1) - 1).toNat ',') := by
  unfold rankCommas
  have e1 : wrap32 (s + 1) = s + 1 := wrap32_of_inInt32 ⟨by omega, by omega⟩
  rw [e1]
  have e2 : wrap32 (s + 1 - 1) = s + 1 - 1 := wrap32_of_inInt32 ⟨by omega, by omega⟩
  rw [e2]

theorem parseType_array_unfold (fuel : Nat) (r : SignatureReader) (d : String)
    (h : r.ReadUlong.1 = ELEMENT_TYPE_ARRAY) :
    SignatureReader.parseType (fuel + 1) r d =
      (SignatureReader.parseType fuel r.ReadUlong.2 d).map
        (fun x => (x.1, x.2.1.ReadInt.2,
          x.2.2 ++ "[" ++ rankCommas (wrap32 (x.2.1.ReadInt.1 + 1)) ++ "]")) := by
  rw [SignatureReader.parseType]
  simp only [h]
  cases SignatureReader.parseType fuel r.ReadUlong.2 d <;> rfl

theorem parseType_szarray_unfold (fuel : Nat) (r : SignatureReader) (d : String)
    (h : r.ReadUlong.1 = ELEMENT_TYPE_SZARRAY) :
    SignatureReader.parseType (fuel + 1) r d =
      SignatureReader.parseType fuel r.ReadUlong.2 (d ++ "[]") := by
  rw [SignatureReader.parseType]
  simp [h]

theorem parseType_leaf (r : SignatureReader)
    (hA : r.ReadUlong.1 ≠ ELEMENT_TYPE_ARRAY) (hS : r.ReadUlong.1 ≠ ELEMENT_TYPE_SZARRAY) :
    (SignatureReader.parseType 1 r "").isSome = true ∧
    ∀ (fuel : Nat) (d : String), SignatureReader.parseType (fuel + 1) r d =
      (SignatureReader.parseType 1 r "").map (fun x => (x.1, x.2.1, d)) := by
  have hc : r.ReadUlong.1 = 2 ∨ r.ReadUlong.1 = 3 ∨ r.ReadUlong.1 = 4 ∨ r.ReadUlong.1 = 5 ∨
      r.ReadUlong.1 = 6 ∨ r.ReadUlong.1 = 7 ∨ r.ReadUlong.1 = 8 ∨ r.ReadUlong.1 = 9 ∨
      r.ReadUlong.1 = 10 ∨ r.ReadUlong.1 = 11 ∨ r.ReadUlong.1 = 12 ∨ r.ReadUlong.1 = 13 ∨
      r.ReadUlong.1 = 24 ∨ r.ReadUlong.1 = 25 ∨ r.ReadUlong.1 = 17 ∨ r.ReadUlong.1 = 18 ∨
      r.ReadUlong.1 = 14 ∨ r.ReadUlong.1 = 28 ∨ r.ReadUlong.1 = 15 ∨ r.ReadUlong.1 = 27 ∨
      (r.ReadUlong.1 ≠ 2 ∧ r.ReadUlong.1 ≠ 3 ∧ r.ReadUlong.1 ≠ 4 ∧ r.ReadUlong.1 ≠ 5 ∧
      r.ReadUlong.1 ≠ 6 ∧ r.ReadUlong.1 ≠ 7 ∧ r.ReadUlong.1 ≠ 8 ∧ r.ReadUlong.1 ≠ 9 ∧
      r.ReadUlong.1 ≠ 10 ∧ r.ReadUlong.1 ≠ 11 ∧ r.ReadUlong.1 ≠ 12 ∧ r.ReadUlong.1 ≠ 13 ∧
      r.ReadUlong.1 ≠ 24 ∧ r.ReadUlong.1 ≠ 25 ∧ r.ReadUlong.1 ≠ 17 ∧ r.ReadUlong.1 ≠ 18 ∧
      r.ReadUlong.1 ≠ 14 ∧ r.ReadUlong.1 ≠ 28 ∧ r.ReadUlong.1 ≠ 15 ∧ r.ReadUlong.1 ≠ 27) := by
    omega
  simp only [ELEMENT_TYPE_ARRAY, ELEMENT_TYPE_SZARRAY] at hA hS
  rcases hc with h | h | h | h | h | h | h | h | h | h | h | h | h | h | h | h | h | h | h | h | h
  all_goals simp [SignatureReader.parseType, h, hA, hS]

theorem parseType_append : ∀ (fuel : Nat) (r : SignatureReader) (d : String),
    SignatureReader.parseType fuel r d =
      (SignatureReader.parseType fuel r "").map (fun x => (x.1, x.2.1, d ++ x.2.2)) := by
  intro fuel
  induction fuel with
  | zero => intro r d; rfl
  | succ n ih =>
    intro r d
    by_cases hA : r.ReadUlong.1 = ELEMENT_TYPE_ARRAY
    · rw [parseType_array_unfold n r d hA, parseType_array_unfold n r "" hA, ih _ d]
      cases SignatureReader.parseType n r.ReadUlong.2 "" with
      | none => rfl
      | some x => simp [String.append_assoc]
    · by_cases hS : r.ReadUlong.1 = ELEMENT_TYPE_SZARRAY
      · rw [parseType_szarray_unfold n r d hS, parseType_szarray_unfold n r "" hS,
          ih _ (d ++ "[]"), ih _ ("" ++ "[]")]
        cases SignatureReader.parseType n r.ReadUlong.2 "" with
        | none => rfl
        | some x => simp [String.append_assoc]
      · obtain ⟨hsome, hleaf⟩ := parseType_leaf r hA hS
        rw [hleaf n d, hleaf n ""]
        cases SignatureReader.parseType 1 r "" with
        | none => rfl
        | some x => simp

/-- C12: the text `parseType` appends to `decls`. A tag other than `ARRAY` and `SZARRAY` (so
every primitive, `CLASS`, `VALUETYPE` and `PTR`) appends nothing. When the element type
parses to the base `base` and appends `text`: `SZARRAY` returns `base` and appends `"[]"` and
then `text`; `ARRAY` returns `base`, reads a compressed signed integer `s` after the element
type and appends `text`, then `"["`, then `rank - 1` commas for `rank = s + 1` (none when
`rank <= 1`), then `"]"`. -/
theorem parseType_decls (fuel : Nat) (r : SignatureReader) (decls : String) :
    (r.ReadUlong.1 ≠ ELEMENT_TYPE_ARRAY → r.ReadUlong.1 ≠ ELEMENT_TYPE_SZARRAY →
      ∃ res r1, SignatureReader.parseType (fuel + 1) r decls = some (res, r1, decls)) ∧
    (r.ReadUlong.1 = ELEMENT_TYPE_SZARRAY → ∀ base r2 text,
      SignatureReader.parseType fuel r.ReadUlong.2 "" = some (base, r2, text) →
      SignatureReader.parseType (fuel + 1) r decls = some (base, r2, decls ++ "[]" ++ text)) ∧
    (r.ReadUlong.1 = ELEMENT_TYPE_ARRAY → ∀ base r2 text,
      SignatureReader.parseType fuel r.ReadUlong.2 "" = some (base, r2, text) →
      SignatureReader.parseType (fuel + 1) r decls =
        some (base, r2.ReadInt.2,
          decls ++ text ++ "[" ++
            String.mk (List.replicate ((r2.ReadInt.1 + 1) - 1).toNat ',') ++ "]")) := by
  refine ⟨?_, ?_, ?_⟩
  · intro hA hS
    obtain ⟨hsome, hleaf⟩ := parseType_leaf r hA hS
    rw [hleaf fuel decls]
    cases hx : SignatureReader.parseType 1 r "" with
    | none => rw [hx] at hsome; exact absurd hsome (by simp)
    | some x => exact ⟨x.1, x.2.1, rfl⟩
  · intro hS base r2 text hel
    rw [parseType_szarray_unfold fuel r decls hS, parseType_append, hel]
    rfl
  · intro hA base r2 text hel
    rw [parseType_array_unfold fuel r decls hA, parseType_append, hel]
    simp only [Option.map_some']
    rw [rankCommas_eq _ (ReadInt_range r2).1 (ReadInt_range r2).2]

/-- Witness for C12: `SZARRAY` of `STRING` (`[0x1D, 0x0E]`) yields the base `String` and the
declarator `"[]"`; `ARRAY` of `I4` with the rank integer 2 (`[0x14, 0x08, 0x04]`), so rank 3,
appends `"[,,]"`; the tag `I4` alone appends nothing. -/
theorem parseType_decls_witness :
    SignatureReader.parseType 2 (SignatureReader.mk (sigOfBytes [0x1D, 0x0E]) 0) "" =
      some (ObjRef.type SysType.String, SignatureReader.mk (sigOfBytes [0x1D, 0x0E]) 2, "[]") ∧
    SignatureReader.parseType 2 (SignatureReader.mk (sigOfBytes [0x14, 0x08, 0x04]) 0) "x" =
      some (ObjRef.type SysType.Int32, SignatureReader.mk (sigOfBytes [0x14, 0x08, 0x04]) 3,
        "x[,,]") ∧
    ∃ res r1, SignatureReader.parseType 1 (SignatureReader.mk (sigOfBytes [0x08]) 0) "x" =
      some (res, r1, "x") :=
  ⟨(parseType_decls 1 (SignatureReader.mk (sigOfBytes [0x1D, 0x0E]) 0) "").2.1 rfl
      (ObjRef.type SysType.String) (SignatureReader.mk (sigOfBytes [0x1D, 0x0E]) 2) "" rfl,
    (parseType_decls 1 (SignatureReader.mk (sigOfBytes [0x14, 0x08, 0x04]) 0) "x").2.2 rfl
      (ObjRef.type SysType.Int32) (SignatureReader.mk (sigOfBytes [0x14, 0x08, 0x04]) 2) "" rfl,
    (parseType_decls 0 (SignatureReader.mk (sigOfBytes [0x08]) 0) "x").1
      (by decide) (by decide)⟩

/-! ### Custom modifiers and the `MethodSignature` constructor -/

theorem MatchUlong_eq (r : SignatureReader) (v : Nat) :
    r.MatchUlong v = if r.ReadUlong.1 = v then (true, r.ReadUlong.2) else (false, r) := by
  unfold SignatureReader.MatchUlong
  by_cases h : r.ReadUlong.1 = v
  · simp [h]
  · have h2 : ¬ (CorSigUncompressData r.mem r.sig).1 = v := h
    simp [h, h2, SignatureReader.ReadUlong]

theorem missCustomMod_step (fuel : Nat) (r : SignatureReader) :
    SignatureReader.missCustomMod (fuel + 1) r =
      if r.ReadUlong.1 = ELEMENT_TYPE_CMOD_OPT ∨ r.ReadUlong.1 = ELEMENT_TYPE_CMOD_REQD then
        SignatureReader.missCustomMod fuel r.ReadUlong.2.ReadToken.2
      else some r := by
  rw [SignatureReader.missCustomMod]
  simp only [MatchUlong_eq]
  by_cases h1 : r.ReadUlong.1 = ELEMENT_TYPE_CMOD_OPT
  · simp [h1]
  · by_cases h2 : r.ReadUlong.1 = ELEMENT_TYPE_CMOD_REQD
    · simp [h2]
    · simp [h1, h2]

theorem missCustomMod_pairs : ∀ (k fuel : Nat) (r : SignatureReader),
    startsWithCustomMods k r = true → k < fuel →
    SignatureReader.missCustomMod fuel r = some (skipCustomModPairs k r) ∧
    (skipCustomModPairs k r).ReadUlong.1 ≠ ELEMENT_TYPE_CMOD_OPT ∧
    (skipCustomModPairs k r).ReadUlong.1 ≠ ELEMENT_TYPE_CMOD_REQD := by
  intro k
  induction k with
  | zero =>
    intro fuel r h hf
    obtain ⟨f, rfl⟩ : ∃ f, fuel = f + 1 := ⟨fuel - 1, by omega⟩
    simp only [startsWithCustomMods, decide_eq_true_eq] at h
    rw [missCustomMod_step, if_neg (by tauto)]
    exact ⟨rfl, h.1, h.2⟩
  | succ k ih =>
    intro fuel r h hf
    obtain ⟨f, rfl⟩ : ∃ f, fuel = f + 1 := ⟨fuel - 1, by omega⟩
    simp only [startsWithCustomMods, Bool.and_eq_true, decide_eq_true_eq] at h
    rw [missCustomMod_step, if_pos h.1]
    exact ih f _ h.2 (by omega)

theorem readParam_eq (fuel : Nat) (e : Bool) (i : Nat) (st : ParamState) :
    MethodSignature.readParam fuel e i st =
      if st.sigReader.ReadUlong.1 = ELEMENT_TYPE_SENTINEL then
        some (false, { st with sigReader := st.sigReader.ReadUlong.2 })
      else
        (specParamEntry fuel st.sigReader).map (fun x =>
          (true,
            { sigReader := x.2.2
              paramBaseTypes := st.paramBaseTypes.set i x.1
              paramDeclarators := st.paramDeclarators.set i (some x.2.1)
              paramCount := if i > 0 ∨ e = false then st.paramCount + 1 else st.paramCount })) := by
  unfold MethodSignature.readParam specParamEntry
  simp only [MatchUlong_eq]
  by_cases hs : st.sigReader.ReadUlong.1 = ELEMENT_TYPE_SENTINEL
  · simp [hs]
  · simp only [hs, if_false]
    cases hm : SignatureReader.missCustomMod fuel st.sigReader with
    | none => simp
    | some r2 =>
      simp only []
      by_cases ht : r2.ReadUlong.1 = ELEMENT_TYPE_TYPEDBYREF
      · simp [ht]
      · simp only [ht, if_false]
        by_cases hb : r2.ReadUlong.1 = ELEMENT_TYPE_BYREF
        · simp only [hb, if_true, decide_True]
          cases hp : SignatureReader.parseType fuel r2.ReadUlong.2 "" with
          | none => simp [hp]
          | some x => simp [hp]
        · simp only [hb, if_false, decide_False]
          cases hp : SignatureReader.parseType fuel r2 "" with
          | none => simp [hp]
          | some x => simp [hp]

theorem paramLoop_trace (fuel : Nat) (e : Bool) :
    ∀ (remaining i : Nat) (st st' : ParamState),
      MethodSignature.paramLoop fuel e remaining i st = some st' →
      ∃ (d : Nat) (pos : Nat → SignatureReader) (base : Nat → ObjRef) (text : Nat → String),
        d ≤ remaining ∧ pos 0 = st.sigReader ∧
        (∀ j, j < d → (pos j).ReadUlong.1 ≠ ELEMENT_TYPE_SENTINEL ∧
          specParamEntry fuel (pos j) = some (base j, text j, pos (j + 1))) ∧
        (d < remaining → (pos d).ReadUlong.1 = ELEMENT_TYPE_SENTINEL ∧
          st'.sigReader = (pos d).ReadUlong.2) ∧
        (d = remaining → st'.sigReader = pos d) ∧
        st'.paramBaseTypes.length = st.paramBaseTypes.length ∧
        st'.paramDeclarators.length = st.paramDeclarators.length ∧
        (∀ k, st'.paramBaseTypes[k]? =
          if i ≤ k ∧ k < i + d ∧ k < st.paramBaseTypes.length then some (base (k - i))
          else st.paramBaseTypes[k]?) ∧
        (∀ k, st'.paramDeclarators[k]? =
          if i ≤ k ∧ k < i + d ∧ k < st.paramDeclarators.length then some (some (text (k - i)))
          else st.paramDeclarators[k]?) ∧
        st'.paramCount + (if e = true ∧ i = 0 ∧ 0 < d then 1 else 0) = st.paramCount + d := by
  intro remaining
  induction remaining with
  | zero =>
    intro i st st' h
    simp only [MethodSignature.paramLoop, Option.some.injEq] at h
    subst h
    refine ⟨0, fun _ => st.sigReader, fun _ => ObjRef.null, fun _ => "", Nat.le_refl _, rfl,
      ?_, ?_, ?_, rfl, rfl, ?_, ?_, ?_⟩
    · intro j hj; omega
    · intro hd; omega
    · intro _; rfl
    · intro k; rw [if_neg (by omega)]
    · intro k; rw [if_neg (by omega)]
    · simp
  | succ n ih =>
    intro i st st' h
    rw [MethodSignature.paramLoop, readParam_eq] at h
    by_cases hs : st.sigReader.ReadUlong.1 = ELEMENT_TYPE_SENTINEL
    · simp only [hs, if_true, Option.some.injEq] at h
      subst h
      refine ⟨0, fun _ => st.sigReader, fun _ => ObjRef.null, fun _ => "", Nat.zero_le _, rfl,
        ?_, ?_, ?_, rfl, rfl, ?_, ?_, ?_⟩
      · intro j hj; omega
      · intro _; exact ⟨hs, rfl⟩
      · intro hd; omega
      · intro k; rw [if_neg (by omega)]
      · intro k; rw [if_neg (by omega)]
      · simp
    · simp only [hs, if_false] at h
      cases hsp : specParamEntry fuel st.sigReader with
      | none => rw [hsp] at h; simp at h
      | some x =>
        rw [hsp] at h
        simp only [Option.map_some'] at h
        obtain ⟨d, pos, base, text, hd, hp0, hent, hlt, heq, hlb, hld, hab, had, hpc⟩ :=
          ih (i + 1) _ st' h
        dsimp only at hp0 hlb hld hab had hpc
        refine ⟨d + 1, fun j => Nat.casesOn j st.sigReader pos,
          fun j => Nat.casesOn j x.1 base, fun j => Nat.casesOn j x.2.1 text,
          Nat.succ_le_succ hd, rfl, ?_, ?_, ?_, ?_, ?_, ?_, ?_, ?_⟩
        · intro j hj
          cases j with
          | zero =>
            refine ⟨hs, ?_⟩
            show specParamEntry fuel st.sigReader = some (x.1, x.2.1, pos 0)
            rw [hp0]
            exact hsp
          | succ j => exact hent j (by omega)
        · intro hdn
          exact hlt (by omega)
        · intro hdn
          exact heq (by omega)
        · rw [hlb, List.length_set]
        · rw [hld, List.length_set]
        · intro k
          rw [hab k, List.length_set]
          by_cases hk : k = i
          · subst hk
            rw [if_neg (by omega), List.getElem?_set]
            simp only [if_true, Nat.sub_self]
            by_cases hl : k < st.paramBaseTypes.length
            · rw [if_pos hl, if_pos ⟨Nat.le_refl _, by omega, hl⟩]
              rfl
            · rw [if_neg hl, if_neg (by omega)]
              exact (List.getElem?_eq_none (by omega)).symm
          · rw [List.getElem?_set_ne (Ne.symm hk)]
            by_cases hc : i + 1 ≤ k ∧ k < i + 1 + d ∧ k < st.paramBaseTypes.length
            · rw [if_pos hc, if_pos ⟨by omega, by omega, hc.2.2⟩]
              have hki : k - i = (k - (i + 1)) + 1 := by omega
              rw [hki]
            · rw [if_neg hc, if_neg (by omega)]
        · intro k
          rw [had k, List.length_set]
          by_cases hk : k = i
          · subst hk
            rw [if_neg (by omega), List.getElem?_set]
            simp only [if_true, Nat.sub_self]
            by_cases hl : k < st.paramDeclarators.length
            · rw [if_pos hl, if_pos ⟨Nat.le_refl _, by omega, hl⟩]
              rfl
            · rw [if_neg hl, if_neg (by omega)]
              exact (List.getElem?_eq_none (by omega)).symm
          · rw [List.getElem?_set_ne (Ne.symm hk)]
            by_cases hc : i + 1 ≤ k ∧ k < i + 1 + d ∧ k < st.paramDeclarators.length
            · rw [if_pos hc, if_pos ⟨by omega, by omega, hc.2.2⟩]
              have hki : k - i = (k - (i + 1)) + 1 := by omega
              rw [hki]
            · rw [if_neg hc, if_neg (by omega)]
        · rw [if_neg (by omega), Nat.add_zero] at hpc
          by_cases hc : e = true ∧ i = 0
          · have hn : ¬ (i > 0 ∨ e = false) := by
              rintro (h1 | h1)
              · omega
              · rw [hc.1] at h1; exact Bool.noConfusion h1
            rw [if_pos ⟨hc.1, hc.2, Nat.succ_pos d⟩]
            rw [if_neg hn] at hpc
            omega
          · have hp : i > 0 ∨ e = false := by
              by_cases hi : i = 0
              · right
                cases e with
                | false => rfl
                | true => exact absurd ⟨rfl, hi⟩ hc
              · left; omega
            rw [if_neg (fun h => hc ⟨h.1, h.2.1⟩)]
            rw [if_pos hp] at hpc
            omega

theorem MethodSignature_new_some (fuel : Nat) (r : SignatureReader) (isMethodRef : Bool)
    (s : MethodSignature) (h : MethodSignature.new fuel r isMethodRef = some s) :
    ∃ r3 st,
      MethodSignature.skipRetType fuel r.ReadUlong.2.ReadUlong.2 = some r3 ∧
      MethodSignature.paramLoop fuel
          (decide ((r.ReadUlong.1 &&& IMAGE_CEE_CS_CALLCONV_EXPLICITTHIS) > 0))
          r.ReadUlong.2.ReadUlong.1 0
          { sigReader := r3
            paramBaseTypes := List.replicate r.ReadUlong.2.ReadUlong.1 ObjRef.null
            paramDeclarators := List.replicate r.ReadUlong.2.ReadUlong.1 none
            paramCount := 0 } = some st ∧
      s.sigReader = st.sigReader ∧ s.isMethodRef = isMethodRef ∧
      s.callingConv = MethodSignature.decodeCallingConv r.ReadUlong.1 ∧
      s.paramBaseTypes = st.paramBaseTypes ∧ s.paramDeclarators = st.paramDeclarators ∧
      s.paramCount = st.paramCount ∧ s.paramTypes = none := by
  unfold MethodSignature.new at h
  dsimp only at h
  cases hr : MethodSignature.skipRetType fuel r.ReadUlong.2.ReadUlong.2 with
  | none => rw [hr] at h; simp at h
  | some r3 =>
    rw [hr] at h
    dsimp only at h
    cases hl : MethodSignature.paramLoop fuel
        (decide ((r.ReadUlong.1 &&& IMAGE_CEE_CS_CALLCONV_EXPLICITTHIS) > 0))
        r.ReadUlong.2.ReadUlong.1 0
        { sigReader := r3
          paramBaseTypes := List.replicate r.ReadUlong.2.ReadUlong.1 ObjRef.null
          paramDeclarators := List.replicate r.ReadUlong.2.ReadUlong.1 none
          paramCount := 0 } with
    | none => rw [hl] at h; simp at h
    | some st =>
      rw [hl] at h
      simp only [Option.some.injEq] at h
      subst h
      exact ⟨r3, st, rfl, hl, rfl, rfl, rfl, rfl, rfl, rfl, rfl⟩

/-- What the constructor leaves for a signature with raw parameter count `n`, in terms of the
readers `pos j` at the parameter positions: `d` entries are decoded. -/
theorem MethodSignature_new_trace (fuel : Nat) (r : SignatureReader) (isMethodRef : Bool)
    (s : MethodSignature) (h : MethodSignature.new fuel r isMethodRef = some s) :
    ∃ (d : Nat) (pos : Nat → SignatureReader) (base : Nat → ObjRef) (text : Nat → String),
      d ≤ r.ReadUlong.2.ReadUlong.1 ∧
      MethodSignature.skipRetType fuel r.ReadUlong.2.ReadUlong.2 = some (pos 0) ∧
      (∀ j, j < d → (pos j).ReadUlong.1 ≠ ELEMENT_TYPE_SENTINEL ∧
        specParamEntry fuel (pos j) = some (base j, text j, pos (j + 1)) ∧
        s.paramBaseTypes[j]? = some (base j) ∧ s.paramDeclarators[j]? = some (some (text j))) ∧
      (d < r.ReadUlong.2.ReadUlong.1 → (pos d).ReadUlong.1 = ELEMENT_TYPE_SENTINEL ∧
        s.sigReader = (pos d).ReadUlong.2) ∧
      (d = r.ReadUlong.2.ReadUlong.1 → s.sigReader = pos d) ∧
      s.paramBaseTypes.length = r.ReadUlong.2.ReadUlong.1 ∧
      s.paramDeclarators.length = r.ReadUlong.2.ReadUlong.1 ∧
      (∀ k, d ≤ k → k < r.ReadUlong.2.ReadUlong.1 →
        s.paramBaseTypes[k]? = some ObjRef.null ∧ s.paramDeclarators[k]? = some none) ∧
      s.paramCount +
          (if (r.ReadUlong.1 &&& IMAGE_CEE_CS_CALLCONV_EXPLICITTHIS) > 0 ∧ 1 ≤ d then 1 else 0)
        = d := by
  obtain ⟨r3, st, hret, hloop, hsr, _, _, hb, hdcl, hpc, _⟩ :=
    MethodSignature_new_some fuel r isMethodRef s h
  obtain ⟨d, pos, base, text, hd, hp0, hent, hlt, heq, hlb, hld, hab, had, hcount⟩ :=
    paramLoop_trace fuel _ _ 0 _ st hloop
  dsimp only at hp0 hlb hld hab had hcount
  rw [List.length_replicate] at hlb hld
  refine ⟨d, pos, base, text, hd, by rw [hp0]; exact hret, ?_, ?_, ?_, by rw [hb, hlb],
    by rw [hdcl, hld], ?_, ?_⟩
  · intro j hj
    refine ⟨(hent j hj).1, (hent j hj).2, ?_, ?_⟩
    · rw [hb, hab j, List.length_replicate, if_pos ⟨Nat.zero_le _, by omega, by omega⟩]
      rfl
    · rw [hdcl, had j, List.length_replicate, if_pos ⟨Nat.zero_le _, by omega, by omega⟩]
      rfl
  · intro hdn
    rw [hsr]
    exact hlt hdn
  · intro hdn
    rw [hsr]
    exact heq hdn
  · intro k hk1 hk2
    constructor
    · rw [hb, hab k, if_neg (by omega), List.getElem?_replicate, if_pos hk2]
    · rw [hdcl, had k, if_neg (by omega), List.getElem?_replicate, if_pos hk2]
  · rw [hpc]
    by_cases hc : (r.ReadUlong.1 &&& IMAGE_CEE_CS_CALLCONV_EXPLICITTHIS) > 0 ∧ 1 ≤ d
    · rw [if_pos ⟨by simpa using hc.1, rfl, hc.2⟩] at hcount
      rw [if_pos hc]
      omega
    · rw [if_neg (fun h1 => hc ⟨by simpa using h1.1, h1.2.2⟩)] at hcount
      rw [if_neg hc]
      omega

/-- C13: when the signature at the cursor starts with `k >= 0` custom-modifier pairs (a
`CMOD_OPT` or `CMOD_REQD` tag followed by a compressed token) and then a tag that is neither,
`missCustomMod` returns (with any fuel above `k`) the reader advanced exactly over those `k`
pairs; the next tag is then neither `CMOD_OPT` nor `CMOD_REQD`; with `k = 0` the reader is
unchanged. -/
theorem missCustomMod_spec (k fuel : Nat) (r : SignatureReader)
    (h : startsWithCustomMods k r = true) (hf : k < fuel) :
    SignatureReader.missCustomMod fuel r = some (skipCustomModPairs k r) ∧
    (skipCustomModPairs k r).ReadUlong.1 ≠ ELEMENT_TYPE_CMOD_OPT ∧
    (skipCustomModPairs k r).ReadUlong.1 ≠ ELEMENT_TYPE_CMOD_REQD ∧
    (k = 0 → SignatureReader.missCustomMod fuel r = some r) := by
  obtain ⟨h1, h2, h3⟩ := missCustomMod_pairs k fuel r h hf
  refine ⟨h1, h2, h3, ?_⟩
  intro hk
  subst hk
  exact h1

/-- Witness for C13: over `[0x1F, 0x49, 0x20, 0x49, 0x08]` (a `CMOD_REQD` pair, a `CMOD_OPT`
pair, then `I4`) the cursor moves from 0 to 4; over `[0x08]` it stays at 0. -/
theorem missCustomMod_spec_witness :
    SignatureReader.missCustomMod 3
        (SignatureReader.mk (sigOfBytes [0x1F, 0x49, 0x20, 0x49, 0x08]) 0)
      = some (SignatureReader.mk (sigOfBytes [0x1F, 0x49, 0x20, 0x49, 0x08]) 4) ∧
    SignatureReader.missCustomMod 1 (SignatureReader.mk (sigOfBytes [0x08]) 0)
      = some (SignatureReader.mk (sigOfBytes [0x08]) 0) :=
  ⟨(missCustomMod_spec 2 3 (SignatureReader.mk (sigOfBytes [0x1F, 0x49, 0x20, 0x49, 0x08]) 0)
      rfl (by decide)).1,
    (missCustomMod_spec 0 1 (SignatureReader.mk (sigOfBytes [0x08]) 0) rfl (by decide)).2.2.2
      rfl⟩

theorem and_32_eq (b : Nat) : b &&& 0x20 = (b.testBit 5).toNat * 32 := by
  have h := Nat.and_two_pow b 5
  norm_num at h
  exact h

theorem and_64_eq (b : Nat) : b &&& 0x40 = (b.testBit 6).toNat * 64 := by
  have h := Nat.and_two_pow b 6
  norm_num at h
  exact h

theorem decodeCallingConv_eq (b : Nat) :
    MethodSignature.decodeCallingConv b =
      ((if b.testBit 5 then CallingConventions.HasThis else 0) |||
        (if b.testBit 6 then CallingConventions.ExplicitThis else 0) |||
        (if b &&& 0x0F = 0x05 then CallingConventions.VarArgs
          else CallingConventions.Standard)) := by
  unfold MethodSignature.decodeCallingConv
  simp only [IMAGE_CEE_CS_CALLCONV_HASTHIS, IMAGE_CEE_CS_CALLCONV_EXPLICITTHIS,
    IMAGE_CEE_CS_CALLCONV_VARARG, and_32_eq, and_64_eq]
  cases b.testBit 5 <;> cases b.testBit 6 <;> simp

theorem decodeCallingConv_mask (b : Nat) :
    MethodSignature.decodeCallingConv (b &&& 0x6F) = MethodSignature.decodeCallingConv b := by
  unfold MethodSignature.decodeCallingConv
  simp only [IMAGE_CEE_CS_CALLCONV_HASTHIS, IMAGE_CEE_CS_CALLCONV_EXPLICITTHIS,
    IMAGE_CEE_CS_CALLCONV_VARARG, Nat.land_assoc]
  have h1 : (0x6F : Nat) &&& 0x20 = 0x20 := by decide
  have h2 : (0x6F : Nat) &&& 0x40 = 0x40 := by decide
  have h3 : (0x6F : Nat) &&& 0x0F = 0x0F := by decide
  rw [h1, h2, h3]

/-- C14: the calling convention decoded from the first value `b` of a method signature is the
bitwise OR of `HasThis` when bit `0x20` of `b` is set, `ExplicitThis` when bit `0x40` is set,
and `VarArgs` when `(b & 0x0F) == 0x05`, otherwise `Standard`; the `HasThis` and
`ExplicitThis` flags of the result are set exactly when those bits of `b` are; two values
that agree on the bits `0x6F` give the same result; and this is the `callingConv` the
constructor stores. -/
theorem decodeCallingConv_spec (b : Nat) :
    MethodSignature.decodeCallingConv b =
      ((if b.testBit 5 then CallingConventions.HasThis else 0) |||
        (if b.testBit 6 then CallingConventions.ExplicitThis else 0) |||
        (if b &&& 0x0F = 0x05 then CallingConventions.VarArgs
          else CallingConventions.Standard)) ∧
    (MethodSignature.decodeCallingConv b &&& CallingConventions.HasThis
        = CallingConventions.HasThis ↔ b.testBit 5 = true) ∧
    (MethodSignature.decodeCallingConv b &&& CallingConventions.ExplicitThis
        = CallingConventions.ExplicitThis ↔ b.testBit 6 = true) ∧
    (∀ b2 : Nat, b2 &&& 0x6F = b &&& 0x6F →
      MethodSignature.decodeCallingConv b2 = MethodSignature.decodeCallingConv b) ∧
    (∀ (fuel : Nat) (r : SignatureReader) (isMethodRef : Bool) (s : MethodSignature),
      r.ReadUlong.1 = b → MethodSignature.new fuel r isMethodRef = some s →
      s.callingConv = MethodSignature.decodeCallingConv b) := by
  refine ⟨decodeCallingConv_eq b, ?_, ?_, ?_, ?_⟩
  · rw [decodeCallingConv_eq]
    cases b.testBit 5 <;> cases b.testBit 6 <;> by_cases hv : b &&& 0x0F = 0x05 <;>
      simp [hv] <;> decide
  · rw [decodeCallingConv_eq]
    cases b.testBit 5 <;> cases b.testBit 6 <;> by_cases hv : b &&& 0x0F = 0x05 <;>
      simp [hv] <;> decide
  · intro b2 hb
    rw [← decodeCallingConv_mask b2, hb, decodeCallingConv_mask]
  · intro fuel r isMethodRef s hr hs
    obtain ⟨_, _, _, _, _, _, hcc, _⟩ := MethodSignature_new_some fuel r isMethodRef s hs
    rw [hcc, hr]

/-- Witness for C14: the first value `0x65` (bits `0x40`, `0x20`, low nibble 5) decodes to
`ExplicitThis | HasThis | VarArgs = 0x62`, as does `0xE5`; for the signature
`[0x20, 0x00, 0x01]` the constructor stores `HasThis | Standard = 0x21`. -/
theorem decodeCallingConv_spec_witness :
    MethodSignature.decodeCallingConv 0x65 = 0x62 ∧
    MethodSignature.decodeCallingConv 0xE5 = MethodSignature.decodeCallingConv 0x65 ∧
    (MethodSignature.mk (SignatureReader.mk (sigOfBytes [0x20, 0x00, 0x01]) 3) false 0x21 [] []
      0 none).callingConv = MethodSignature.decodeCallingConv 0x20 :=
  ⟨(decodeCallingConv_spec 0x65).1,
    (decodeCallingConv_spec 0x65).2.2.2.1 0xE5 (by decide),
    (decodeCallingConv_spec 0x20).2.2.2.2 1
      (SignatureReader.mk (sigOfBytes [0x20, 0x00, 0x01]) 0) false
      (MethodSignature.mk (SignatureReader.mk (sigOfBytes [0x20, 0x00, 0x01]) 3) false 0x21 [] []
        0 none) rfl rfl⟩

/-- C15: for a signature the constructor decodes, with raw parameter count `n` (the second
value of the signature), `paramBaseTypes` and `paramDeclarators` both have length exactly `n`,
and `paramCount <= n`. -/
theorem MethodSignature_lengths (fuel : Nat) (r : SignatureReader) (isMethodRef : Bool)
    (s : MethodSignature) (h : MethodSignature.new fuel r isMethodRef = some s) :
    s.paramBaseTypes.length = r.ReadUlong.2.ReadUlong.1 ∧
    s.paramDeclarators.length = r.ReadUlong.2.ReadUlong.1 ∧
    s.paramCount ≤ r.ReadUlong.2.ReadUlong.1 := by
  obtain ⟨d, pos, base, text, hd, _, _, _, _, hlb, hld, _, hpc⟩ :=
    MethodSignature_new_trace fuel r isMethodRef s h
  exact ⟨hlb, hld, by omega⟩

/-- Witness for C15: the signature `[0x65, 0x03, 0x01, 0x12, 0x49, 0x08, 0x41, 0x0E]` (raw
count 3, a sentinel before the third entry, `ExplicitThis`) gives arrays of length 3 and
`paramCount = 1`. -/
theorem MethodSignature_lengths_witness :
    ∃ s, MethodSignature.new 2
        (SignatureReader.mk (sigOfBytes [0x65, 0x03, 0x01, 0x12, 0x49, 0x08, 0x41, 0x0E]) 0)
        false = some s ∧
      s.paramBaseTypes.length = 3 ∧ s.paramDeclarators.length = 3 ∧ s.paramCount ≤ 3 ∧
      s.paramCount = 1 :=
  ⟨MethodSignature.mk
      (SignatureReader.mk (sigOfBytes [0x65, 0x03, 0x01, 0x12, 0x49, 0x08, 0x41, 0x0E]) 7)
      false 0x62 [ObjRef.boxInt32 0x01000012, ObjRef.type SysType.Int32, ObjRef.null]
      [some "", some "", none] 1 none,
    rfl,
    (MethodSignature_lengths 2
      (SignatureReader.mk (sigOfBytes [0x65, 0x03, 0x01, 0x12, 0x49, 0x08, 0x41, 0x0E]) 0)
      false _ rfl).1,
    (MethodSignature_lengths 2
      (SignatureReader.mk (sigOfBytes [0x65, 0x03, 0x01, 0x12, 0x49, 0x08, 0x41, 0x0E]) 0)
      false _ rfl).2.1,
    (MethodSignature_lengths 2
      (SignatureReader.mk (sigOfBytes [0x65, 0x03, 0x01, 0x12, 0x49, 0x08, 0x41, 0x0E]) 0)
      false _ rfl).2.2,
    rfl⟩

theorem skipRetType_eq (fuel : Nat) (r : SignatureReader) :
    MethodSignature.skipRetType fuel r = specRetType fuel r := by
  unfold MethodSignature.skipRetType specRetType specSkipTag
  cases hm : SignatureReader.missCustomMod fuel r with
  | none => rfl
  | some q =>
    simp only [MatchUlong_eq]
    by_cases hv : q.ReadUlong.1 = ELEMENT_TYPE_VOID
    · simp [hv]
    · by_cases ht : q.ReadUlong.1 = ELEMENT_TYPE_TYPEDBYREF
      · simp [hv, ht]
      · simp only [hv, ht, if_false, or_self, Bool.not_false, if_true]
        by_cases hb : q.ReadUlong.1 = ELEMENT_TYPE_BYREF
        · simp only [hb, if_true]
          rcases SignatureReader.parseType fuel q.ReadUlong.2 "" with _ | ⟨b, q2, t⟩ <;> rfl
        · simp only [hb, if_false]
          rcases SignatureReader.parseType fuel q "" with _ | ⟨b, q2, t⟩ <;> rfl

theorem specParams_succ (fuel n : Nat) (r rend : SignatureReader)
    (entries : List (ObjRef × String)) (h : specParams fuel (n + 1) r = some (entries, rend)) :
    (r.ReadUlong.1 = ELEMENT_TYPE_SENTINEL ∧ entries = [] ∧ rend = r.ReadUlong.2) ∨
    (r.ReadUlong.1 ≠ ELEMENT_TYPE_SENTINEL ∧ ∃ b t r2 rest,
      specParamEntry fuel r = some (b, t, r2) ∧ specParams fuel n r2 = some (rest, rend) ∧
      entries = (b, t) :: rest) := by
  rw [specParams] at h
  by_cases hs : r.ReadUlong.1 = ELEMENT_TYPE_SENTINEL
  · rw [if_pos hs] at h
    simp only [Option.some.injEq, Prod.mk.injEq] at h
    exact Or.inl ⟨hs, h.1.symm, h.2.symm⟩
  · rw [if_neg hs] at h
    right
    refine ⟨hs, ?_⟩
    rcases he : specParamEntry fuel r with _ | ⟨b, t, r2⟩
    · rw [he] at h; cases h
    · rw [he] at h
      dsimp only at h
      rcases hr : specParams fuel n r2 with _ | ⟨rest, q⟩
      · rw [hr] at h; cases h
      · rw [hr] at h
        simp only [Option.map_some', Option.some.injEq, Prod.mk.injEq] at h
        exact ⟨b, t, r2, rest, rfl, by rw [← h.2]; exact hr, h.1.symm⟩

theorem paramLoop_eq (fuel : Nat) (e : Bool) :
    ∀ (k i : Nat) (st : ParamState) (entries : List (ObjRef × String)) (rend : SignatureReader),
      specParams fuel k st.sigReader = some (entries, rend) →
      i + k ≤ st.paramBaseTypes.length → i + k ≤ st.paramDeclarators.length →
      ∃ st2, MethodSignature.paramLoop fuel e k i st = some st2 ∧
        st2.sigReader = rend ∧
        st2.paramBaseTypes = st.paramBaseTypes.take i ++ entries.map (fun x => x.1) ++
          st.paramBaseTypes.drop (i + entries.length) ∧
        st2.paramDeclarators = st.paramDeclarators.take i ++
          entries.map (fun x => some x.2) ++ st.paramDeclarators.drop (i + entries.length) ∧
        st2.paramCount + (if e = true ∧ i = 0 ∧ 0 < entries.length then 1 else 0)
          = st.paramCount + entries.length ∧
        entries.length ≤ k := by
  intro k
  induction k with
  | zero =>
    intro i st entries rend hs _ _
    rw [specParams] at hs
    simp only [Option.some.injEq, Prod.mk.injEq] at hs
    obtain ⟨h1, h2⟩ := hs
    subst h1
    subst h2
    refine ⟨st, rfl, rfl, ?_, ?_, ?_, Nat.le_refl _⟩
    · simp
    · simp
    · simp
  | succ k ih =>
    intro i st entries rend hs hlb hld
    rw [MethodSignature.paramLoop, readParam_eq]
    rcases specParams_succ fuel k _ _ _ hs with ⟨hsen, he, hr⟩ | ⟨hsen, b, t, r2, rest, hent, hrest, he⟩
    · subst he
      subst hr
      rw [if_pos hsen]
      refine ⟨_, rfl, rfl, ?_, ?_, ?_, Nat.zero_le _⟩
      · simp
      · simp
      · simp
    · subst he
      rw [if_neg hsen, hent]
      simp only [Option.map_some']
      obtain ⟨st2, hloop, e1, e2, e3, e4, e5⟩ := ih (i + 1)
        { sigReader := r2
          paramBaseTypes := st.paramBaseTypes.set i b
          paramDeclarators := st.paramDeclarators.set i (some t)
          paramCount := if i > 0 ∨ e = false then st.paramCount + 1 else st.paramCount }
        rest rend hrest (by rw [List.length_set]; omega) (by rw [List.length_set]; omega)
      dsimp only at e2 e3 e4
      refine ⟨st2, hloop, e1, ?_, ?_, ?_, ?_⟩
      · rw [e2, set_take_succ _ i b (by omega), set_drop_succ _ i _ b (by omega)]
        have hk : i + 1 + rest.length = i + ((b, t) :: rest).length := by
          simp only [List.length_cons]; omega
        rw [hk]
        simp only [List.map_cons, List.append_assoc, List.singleton_append, List.cons_append,
          List.nil_append]
      · rw [e3, set_take_succ _ i (some t) (by omega), set_drop_succ _ i _ (some t) (by omega)]
        have hk : i + 1 + rest.length = i + ((b, t) :: rest).length := by
          simp only [List.length_cons]; omega
        rw [hk]
        simp only [List.map_cons, List.append_assoc, List.singleton_append, List.cons_append,
          List.nil_append]
      · rw [if_neg (by omega), Nat.add_zero] at e4
        simp only [List.length_cons]
        by_cases hc : e = true ∧ i = 0
        · have hn : ¬ (i > 0 ∨ e = false) := by
            rintro (h1 | h1)
            · omega
            · rw [hc.1] at h1; exact Bool.noConfusion h1
          rw [if_pos ⟨hc.1, hc.2, Nat.succ_pos _⟩]
          rw [if_neg hn] at e4
          omega
        · have hp : i > 0 ∨ e = false := by
            by_cases hi : i = 0
            · right
              cases e with
              | false => rfl
              | true => exact absurd ⟨rfl, hi⟩ hc
            · left; omega
          rw [if_neg (fun h => hc ⟨h.1, h.2.1⟩)]
          rw [if_pos hp] at e4
          omega
      · simp only [List.length_cons]; omega

theorem specParams_trace (fuel : Nat) : ∀ (n : Nat) (p0 rend : SignatureReader)
    (entries : List (ObjRef × String)), specParams fuel n p0 = some (entries, rend) →
    ∃ pos : Nat → SignatureReader, pos 0 = p0 ∧ entries.length ≤ n ∧
      (∀ j, j < entries.length → (pos j).ReadUlong.1 ≠ ELEMENT_TYPE_SENTINEL ∧
        ∃ base text, entries[j]? = some (base, text) ∧
          specParamEntry fuel (pos j) = some (base, text, pos (j + 1))) ∧
      (entries.length < n → (pos entries.length).ReadUlong.1 = ELEMENT_TYPE_SENTINEL ∧
        rend = (pos entries.length).ReadUlong.2) ∧
      (entries.length = n → rend = pos entries.length) := by
  intro n
  induction n with
  | zero =>
    intro p0 rend entries hs
    rw [specParams] at hs
    simp only [Option.some.injEq, Prod.mk.injEq] at hs
    obtain ⟨h1, h2⟩ := hs
    subst h1
    subst h2
    exact ⟨fun _ => p0, rfl, Nat.le_refl _, fun j hj => absurd hj (Nat.not_lt_zero _),
      fun h => absurd h (Nat.lt_irrefl _), fun _ => rfl⟩
  | succ n ih =>
    intro p0 rend entries hs
    rcases specParams_succ fuel n _ _ _ hs with
      ⟨hsen, he, hr⟩ | ⟨hsen, b, t, r2, rest, hent, hrest, he⟩
    · subst he
      subst hr
      exact ⟨fun _ => p0, rfl, Nat.zero_le _, fun j hj => absurd hj (Nat.not_lt_zero _),
        fun _ => ⟨hsen, rfl⟩, fun h => absurd h (Nat.succ_ne_zero n).symm⟩
    · subst he
      obtain ⟨pos, hp0, hlen, hpos, hlt, heq⟩ := ih r2 rend rest hrest
      refine ⟨fun j => Nat.casesOn j p0 (fun i => pos i), rfl,
        by simp only [List.length_cons]; omega, ?_, ?_, ?_⟩
      · intro j hj
        cases j with
        | zero =>
          refine ⟨hsen, b, t, List.getElem?_cons_zero, ?_⟩
          show specParamEntry fuel p0 = some (b, t, pos 0)
          rw [hp0]
          exact hent
        | succ i =>
          simp only [List.length_cons] at hj
          obtain ⟨h1, base, text, h2, h3⟩ := hpos i (by omega)
          exact ⟨h1, base, text, by rw [List.getElem?_cons_succ]; exact h2, h3⟩
      · intro h
        simp only [List.length_cons] at h
        exact hlt (by omega)
      · intro h
        simp only [List.length_cons] at h
        exact heq (by omega)

/-- The constructor returns on every signature whose return type and parameter entries
parse, and leaves the decoded entries, in order, followed by the unset entries. -/
theorem MethodSignature_new_eq (fuel : Nat) (r : SignatureReader) (isMethodRef : Bool)
    (p0 rend : SignatureReader) (entries : List (ObjRef × String))
    (hret : specRetType fuel r.ReadUlong.2.ReadUlong.2 = some p0)
    (hpar : specParams fuel r.ReadUlong.2.ReadUlong.1 p0 = some (entries, rend)) :
    ∃ s, MethodSignature.new fuel r isMethodRef = some s ∧
      s.sigReader = rend ∧ s.isMethodRef = isMethodRef ∧
      s.callingConv = MethodSignature.decodeCallingConv r.ReadUlong.1 ∧
      s.paramBaseTypes = entries.map (fun x => x.1) ++
        List.replicate (r.ReadUlong.2.ReadUlong.1 - entries.length) ObjRef.null ∧
      s.paramDeclarators = entries.map (fun x => some x.2) ++
        List.replicate (r.ReadUlong.2.ReadUlong.1 - entries.length) none ∧
      s.paramCount = entries.length -
        (if (r.ReadUlong.1 &&& IMAGE_CEE_CS_CALLCONV_EXPLICITTHIS) > 0 ∧ 1 ≤ entries.length
          then 1 else 0) ∧
      s.paramTypes = none ∧ entries.length ≤ r.ReadUlong.2.ReadUlong.1 := by
  obtain ⟨st2, hloop, e1, e2, e3, e4, e5⟩ :=
    paramLoop_eq fuel (decide ((r.ReadUlong.1 &&& IMAGE_CEE_CS_CALLCONV_EXPLICITTHIS) > 0))
      r.ReadUlong.2.ReadUlong.1 0
      { sigReader := p0
        paramBaseTypes := List.replicate r.ReadUlong.2.ReadUlong.1 ObjRef.null
        paramDeclarators := List.replicate r.ReadUlong.2.ReadUlong.1 none
        paramCount := 0 } entries rend hpar
      (by rw [List.length_replicate]; omega) (by rw [List.length_replicate]; omega)
  dsimp only at e2 e3 e4
  refine ⟨{ sigReader := st2.sigReader
            isMethodRef := isMethodRef
            callingConv := MethodSignature.decodeCallingConv r.ReadUlong.1
            paramBaseTypes := st2.paramBaseTypes
            paramDeclarators := st2.paramDeclarators
            paramCount := st2.paramCount
            paramTypes := none }, ?_, e1, rfl, rfl, ?_, ?_, ?_, rfl, e5⟩
  · unfold MethodSignature.new
    dsimp only
    rw [skipRetType_eq, hret]
    dsimp only
    rw [hloop]
  · show st2.paramBaseTypes = _
    rw [e2]
    simp [List.drop_replicate]
  · show st2.paramDeclarators = _
    rw [e3]
    simp [List.drop_replicate]
  · show st2.paramCount = _
    by_cases hc : (r.ReadUlong.1 &&& IMAGE_CEE_CS_CALLCONV_EXPLICITTHIS) > 0 ∧ 1 ≤ entries.length
    · rw [if_pos ⟨by simpa using hc.1, rfl, hc.2⟩] at e4
      rw [if_pos hc]
      omega
    · rw [if_neg (fun h1 => hc ⟨by simpa using h1.1, h1.2.2⟩)] at e4
      rw [if_neg hc]
      omega

/-- C16: for a signature with raw parameter count `n` whose return type and parameter
entries parse (`entries` is the list of the entries before the first position with a
`SENTINEL` tag, all `n` when there is none), the constructor returns, and with
`d = entries.length`: there are readers `pos 0, pos 1, ...` (`pos 0` after the return type,
`pos (j+1)` after entry `j`) such that no position `j < d` holds a `SENTINEL` tag and entry
`j` is decoded there and stored in both arrays; if `d < n`, position `d` holds the `SENTINEL`
tag and the constructor stops just past it (if `d = n` it stops at `pos n`); the entries
`d..n-1` of both arrays are left unset (`NULL`); and `paramCount` is `d`, minus 1 when
`ExplicitThis` is set and `d >= 1`. -/
theorem MethodSignature_sentinel (fuel : Nat) (r : SignatureReader) (isMethodRef : Bool)
    (p0 rend : SignatureReader) (entries : List (ObjRef × String))
    (hret : specRetType fuel r.ReadUlong.2.ReadUlong.2 = some p0)
    (hpar : specParams fuel r.ReadUlong.2.ReadUlong.1 p0 = some (entries, rend)) :
    ∃ (s : MethodSignature) (pos : Nat → SignatureReader),
      MethodSignature.new fuel r isMethodRef = some s ∧
      s.sigReader = rend ∧
      s.paramBaseTypes = entries.map (fun x => x.1) ++
        List.replicate (r.ReadUlong.2.ReadUlong.1 - entries.length) ObjRef.null ∧
      s.paramDeclarators = entries.map (fun x => some x.2) ++
        List.replicate (r.ReadUlong.2.ReadUlong.1 - entries.length) none ∧
      s.paramCount =
        entries.length -
          (if (r.ReadUlong.1 &&& IMAGE_CEE_CS_CALLCONV_EXPLICITTHIS) > 0 ∧ 1 ≤ entries.length
            then 1 else 0) ∧
      entries.length ≤ r.ReadUlong.2.ReadUlong.1 ∧
      MethodSignature.skipRetType fuel r.ReadUlong.2.ReadUlong.2 = some (pos 0) ∧
      (∀ j, j < entries.length → (pos j).ReadUlong.1 ≠ ELEMENT_TYPE_SENTINEL ∧
        ∃ base text, specParamEntry fuel (pos j) = some (base, text, pos (j + 1)) ∧
          s.paramBaseTypes[j]? = some base ∧ s.paramDeclarators[j]? = some (some text)) ∧
      (entries.length < r.ReadUlong.2.ReadUlong.1 →
        (pos entries.length).ReadUlong.1 = ELEMENT_TYPE_SENTINEL ∧
        s.sigReader = (pos entries.length).ReadUlong.2) ∧
      (entries.length = r.ReadUlong.2.ReadUlong.1 → s.sigReader = pos entries.length) ∧
      (∀ k, entries.length ≤ k → k < r.ReadUlong.2.ReadUlong.1 →
        s.paramBaseTypes[k]? = some ObjRef.null ∧ s.paramDeclarators[k]? = some none) := by
  obtain ⟨s, hnew, hsr, _, _, hb, hd, hpc, _, hlen⟩ :=
    MethodSignature_new_eq fuel r isMethodRef p0 rend entries hret hpar
  obtain ⟨pos, hp0, _, hpos, hlt, heq⟩ := specParams_trace fuel _ p0 rend entries hpar
  refine ⟨s, pos, hnew, hsr, hb, hd, hpc, hlen, by rw [skipRetType_eq, hret, hp0], ?_, ?_, ?_,
    ?_⟩
  · intro j hj
    obtain ⟨h1, base, text, h2, h3⟩ := hpos j hj
    refine ⟨h1, base, text, h3, ?_, ?_⟩
    · rw [hb, List.getElem?_append_left (by rw [List.length_map]; exact hj),
        List.getElem?_map, h2]
      rfl
    · rw [hd, List.getElem?_append_left (by rw [List.length_map]; exact hj),
        List.getElem?_map, h2]
      rfl
  · intro h
    rw [hsr]
    exact hlt h
  · intro h
    rw [hsr]
    exact heq h
  · intro k hk1 hk2
    constructor
    · rw [hb, List.getElem?_append_right (by rw [List.length_map]; exact hk1),
        List.length_map, List.getElem?_replicate, if_pos (by omega)]
    · rw [hd, List.getElem?_append_right (by rw [List.length_map]; exact hk1),
        List.length_map, List.getElem?_replicate, if_pos (by omega)]

/-- Witness for C16: in `[0x65, 0x03, 0x01, 0x12, 0x49, 0x08, 0x41, 0x0E]` (`ExplicitThis`, raw
count 3) the sentinel `0x41` stands at parameter position 2: the constructor returns, entries
0 and 1 are decoded, entry 2 is unset, the cursor stops at 7 just past the sentinel, and
`paramCount` is `2 - 1 = 1`. -/
theorem MethodSignature_sentinel_witness :
    ∃ s, MethodSignature.new 2
        (SignatureReader.mk (sigOfBytes [0x65, 0x03, 0x01, 0x12, 0x49, 0x08, 0x41, 0x0E]) 0)
        false = some s ∧
      s.paramBaseTypes = [ObjRef.boxInt32 0x01000012, ObjRef.type SysType.Int32, ObjRef.null] ∧
      s.paramDeclarators = [some "", some "", none] ∧ s.paramCount = 1 ∧ s.sigReader.sig = 7 ∧
      ∃ pos : Nat → SignatureReader,
        (pos 2).ReadUlong.1 = ELEMENT_TYPE_SENTINEL ∧ s.sigReader = (pos 2).ReadUlong.2 :=
  (MethodSignature_sentinel 2
      (SignatureReader.mk (sigOfBytes [0x65, 0x03, 0x01, 0x12, 0x49, 0x08, 0x41, 0x0E]) 0)
      false
      (SignatureReader.mk (sigOfBytes [0x65, 0x03, 0x01, 0x12, 0x49, 0x08, 0x41, 0x0E]) 3)
      (SignatureReader.mk (sigOfBytes [0x65, 0x03, 0x01, 0x12, 0x49, 0x08, 0x41, 0x0E]) 7)
      [(ObjRef.boxInt32 0x01000012, ""), (ObjRef.type SysType.Int32, "")] rfl rfl).elim
    (fun s hs => hs.elim (fun pos h =>
      ⟨s, h.1, h.2.2.1.trans rfl, h.2.2.2.1.trans rfl, h.2.2.2.2.1.trans (by decide),
        by rw [h.2.1],
        pos, h.2.2.2.2.2.2.2.2.1 (by decide)⟩))

theorem specParamEntry_some (fuel : Nat) (r r1 : SignatureReader) (base : ObjRef)
    (text : String) (h : specParamEntry fuel r = some (base, text, r1)) :
    ∃ r2, SignatureReader.missCustomMod fuel r = some r2 ∧
      (r2.ReadUlong.1 = ELEMENT_TYPE_TYPEDBYREF →
        base = ObjRef.type SysType.TypedReference ∧ text = "" ∧ r1 = r2.ReadUlong.2) ∧
      (r2.ReadUlong.1 ≠ ELEMENT_TYPE_TYPEDBYREF →
        ∃ t, SignatureReader.parseType fuel
            (if r2.ReadUlong.1 = ELEMENT_TYPE_BYREF then r2.ReadUlong.2 else r2) ""
              = some (base, r1, t) ∧
          text = if r2.ReadUlong.1 = ELEMENT_TYPE_BYREF then t ++ "&" else t) := by
  unfold specParamEntry at h
  cases hm : SignatureReader.missCustomMod fuel r with
  | none => rw [hm] at h; simp at h
  | some r2 =>
    rw [hm] at h
    dsimp only at h
    refine ⟨r2, rfl, ?_, ?_⟩
    · intro ht
      rw [if_pos ht] at h
      simp only [Option.some.injEq, Prod.mk.injEq] at h
      exact ⟨h.1.symm, h.2.1.symm, h.2.2.symm⟩
    · intro ht
      rw [if_neg ht] at h
      by_cases hb : r2.ReadUlong.1 = ELEMENT_TYPE_BYREF
      · simp only [hb, decide_True, if_true] at h ⊢
        cases hp : SignatureReader.parseType fuel r2.ReadUlong.2 "" with
        | none => rw [hp] at h; simp at h
        | some x =>
          rw [hp] at h
          simp only [Option.some.injEq, Prod.mk.injEq] at h
          exact ⟨x.2.2, by rw [← h.1, ← h.2.2], h.2.1.symm⟩
      · simp only [hb, decide_False, Bool.false_eq_true, if_false] at h ⊢
        cases hp : SignatureReader.parseType fuel r2 "" with
        | none => rw [hp] at h; simp at h
        | some x =>
          rw [hp] at h
          simp only [Option.some.injEq, Prod.mk.injEq] at h
          exact ⟨x.2.2, by rw [← h.1, ← h.2.2], h.2.1.symm⟩

/-- C17: for a signature whose return type and parameter entries parse (`entries` is the list
of the entries before the first `SENTINEL` position), the constructor returns, its two arrays
hold the base types and the declarators of the entries in order (the entries after them are
unset), and with the reader `pos j` at entry `j`: after the custom modifiers of entry `j` are
skipped, if the tag is `TYPEDBYREF` then `paramBaseTypes[j]` is `TypedReference` and
`paramDeclarators[j]` is the empty string; otherwise `paramBaseTypes[j]` is the result of
`parseType` (called after an optional `BYREF` tag, on an empty text) and `paramDeclarators[j]`
is the text `parseType` appended, followed by `"&"` exactly when the `BYREF` tag was there. -/
theorem MethodSignature_entries (fuel : Nat) (r : SignatureReader) (isMethodRef : Bool)
    (p0 rend : SignatureReader) (entries : List (ObjRef × String))
    (hret : specRetType fuel r.ReadUlong.2.ReadUlong.2 = some p0)
    (hpar : specParams fuel r.ReadUlong.2.ReadUlong.1 p0 = some (entries, rend)) :
    ∃ (s : MethodSignature) (pos : Nat → SignatureReader),
      MethodSignature.new fuel r isMethodRef = some s ∧
      s.paramBaseTypes = entries.map (fun x => x.1) ++
        List.replicate (r.ReadUlong.2.ReadUlong.1 - entries.length) ObjRef.null ∧
      s.paramDeclarators = entries.map (fun x => some x.2) ++
        List.replicate (r.ReadUlong.2.ReadUlong.1 - entries.length) none ∧
      s.paramCount =
        entries.length -
          (if (r.ReadUlong.1 &&& IMAGE_CEE_CS_CALLCONV_EXPLICITTHIS) > 0 ∧ 1 ≤ entries.length
            then 1 else 0) ∧
      entries.length ≤ r.ReadUlong.2.ReadUlong.1 ∧
      MethodSignature.skipRetType fuel r.ReadUlong.2.ReadUlong.2 = some (pos 0) ∧
      (∀ k, entries.length ≤ k → k < r.ReadUlong.2.ReadUlong.1 →
        s.paramDeclarators[k]? = some none) ∧
      ∀ j, j < entries.length → ∃ r2, SignatureReader.missCustomMod fuel (pos j) = some r2 ∧
        (r2.ReadUlong.1 = ELEMENT_TYPE_TYPEDBYREF →
          s.paramBaseTypes[j]? = some (ObjRef.type SysType.TypedReference) ∧
          s.paramDeclarators[j]? = some (some "")) ∧
        (r2.ReadUlong.1 ≠ ELEMENT_TYPE_TYPEDBYREF →
          ∃ base t, SignatureReader.parseType fuel
              (if r2.ReadUlong.1 = ELEMENT_TYPE_BYREF then r2.ReadUlong.2 else r2) ""
                = some (base, pos (j + 1), t) ∧
            s.paramBaseTypes[j]? = some base ∧
            s.paramDeclarators[j]? =
              some (some (if r2.ReadUlong.1 = ELEMENT_TYPE_BYREF then t ++ "&" else t))) := by
  obtain ⟨s, hnew, _, _, _, hb, hd, hpc, _, hlen⟩ :=
    MethodSignature_new_eq fuel r isMethodRef p0 rend entries hret hpar
  obtain ⟨pos, hp0, _, hpos, _, _⟩ := specParams_trace fuel _ p0 rend entries hpar
  refine ⟨s, pos, hnew, hb, hd, hpc, hlen, by rw [skipRetType_eq, hret, hp0], ?_, ?_⟩
  · intro k hk1 hk2
    rw [hd, List.getElem?_append_right (by rw [List.length_map]; exact hk1),
      List.length_map, List.getElem?_replicate, if_pos (by omega)]
  · intro j hj
    obtain ⟨_, base, text, h2, h3⟩ := hpos j hj
    have hbj : s.paramBaseTypes[j]? = some base := by
      rw [hb, List.getElem?_append_left (by rw [List.length_map]; exact hj),
        List.getElem?_map, h2]
      rfl
    have hdj : s.paramDeclarators[j]? = some (some text) := by
      rw [hd, List.getElem?_append_left (by rw [List.length_map]; exact hj),
        List.getElem?_map, h2]
      rfl
    obtain ⟨r2, hm, htyped, hother⟩ := specParamEntry_some fuel _ _ _ _ h3
    refine ⟨r2, hm, ?_, ?_⟩
    · intro ht
      obtain ⟨e1, e2, _⟩ := htyped ht
      rw [hbj, hdj, e1, e2]
      exact ⟨rfl, rfl⟩
    · intro ht
      obtain ⟨t, hp, e2⟩ := hother ht
      exact ⟨base, t, hp, hbj, by rw [hdj, e2]⟩

/-- Witness for C17: the blob `[0x20, 0x02, 0x01, 0x08, 0x1D, 0x0E]` gives `paramCount = 2`,
the base types `[Int32, String]` and the declarators `["", "[]"]`; the blob
`[0x00, 0x03, 0x01, 0x16, 0x10, 0x08, 0x10, 0x1D, 0x0E]` (a `TYPEDBYREF` entry, `BYREF` `I4`,
`BYREF` `SZARRAY` of `STRING`) gives `[TypedReference, Int32, String]` and
`["", "&", "[]&"]`. -/
theorem MethodSignature_entries_witness :
    (∃ s, MethodSignature.new 2
        (SignatureReader.mk (sigOfBytes [0x20, 0x02, 0x01, 0x08, 0x1D, 0x0E]) 0) false
        = some s ∧
      s.paramCount = 2 ∧
      s.paramBaseTypes = [ObjRef.type SysType.Int32, ObjRef.type SysType.String] ∧
      s.paramDeclarators = [some "", some "[]"]) ∧
    (∃ s, MethodSignature.new 2
        (SignatureReader.mk
          (sigOfBytes [0x00, 0x03, 0x01, 0x16, 0x10, 0x08, 0x10, 0x1D, 0x0E]) 0) false
        = some s ∧
      s.paramCount = 3 ∧
      s.paramBaseTypes = [ObjRef.type SysType.TypedReference, ObjRef.type SysType.Int32,
        ObjRef.type SysType.String] ∧
      s.paramDeclarators = [some "", some "&", some "[]&"]) :=
  ⟨(MethodSignature_entries 2
      (SignatureReader.mk (sigOfBytes [0x20, 0x02, 0x01, 0x08, 0x1D, 0x0E]) 0) false
      (SignatureReader.mk (sigOfBytes [0x20, 0x02, 0x01, 0x08, 0x1D, 0x0E]) 3)
      (SignatureReader.mk (sigOfBytes [0x20, 0x02, 0x01, 0x08, 0x1D, 0x0E]) 6)
      [(ObjRef.type SysType.Int32, ""), (ObjRef.type SysType.String, "[]")] rfl rfl).elim
    (fun s hs => hs.elim (fun _ h =>
      ⟨s, h.1, h.2.2.2.1.trans (by decide), h.2.1.trans rfl, h.2.2.1.trans rfl⟩)),
   (MethodSignature_entries 2
      (SignatureReader.mk
        (sigOfBytes [0x00, 0x03, 0x01, 0x16, 0x10, 0x08, 0x10, 0x1D, 0x0E]) 0) false
      (SignatureReader.mk
        (sigOfBytes [0x00, 0x03, 0x01, 0x16, 0x10, 0x08, 0x10, 0x1D, 0x0E]) 3)
      (SignatureReader.mk
        (sigOfBytes [0x00, 0x03, 0x01, 0x16, 0x10, 0x08, 0x10, 0x1D, 0x0E]) 9)
      [(ObjRef.type SysType.TypedReference, ""), (ObjRef.type SysType.Int32, "&"),
        (ObjRef.type SysType.String, "[]&")] rfl rfl).elim
    (fun s hs => hs.elim (fun _ h =>
      ⟨s, h.1, h.2.2.2.1.trans (by decide), h.2.1.trans rfl, h.2.2.1.trans rfl⟩))⟩

theorem matchLoop_eq (types params : List SysType) :
    ∀ (remaining i : Nat), i + remaining ≤ types.length → i + remaining ≤ params.length →
      ∃ b, MethodSignature.matchLoop (some (types.map ObjRef.type)) params remaining i = .ok b ∧
        (b = true ↔ ∀ j, i ≤ j → j < i + remaining → types[j]? = params[j]?) := by
  intro remaining
  induction remaining with
  | zero =>
    intro i _ _
    exact ⟨true, rfl, by simp; intro j h1 h2; omega⟩
  | succ n ih =>
    intro i h1 h2
    have hit : i < types.length := by omega
    have hip : i < params.length := by omega
    have ht : types[i]? = some types[i] := List.getElem?_eq_getElem hit
    have hp : params[i]? = some params[i] := List.getElem?_eq_getElem hip
    have hmt : (types.map ObjRef.type)[i]? = some (ObjRef.type types[i]) := by
      rw [List.getElem?_map, ht]
      rfl
    rw [MethodSignature.matchLoop]
    simp only [hmt, hp]
    by_cases heq : types[i] = params[i]
    · rw [if_pos heq]
      obtain ⟨b, hb, hiff⟩ := ih (i + 1) (by omega) (by omega)
      refine ⟨b, hb, ?_⟩
      rw [hiff]
      constructor
      · intro hall j hj1 hj2
        by_cases hji : j = i
        · subst hji
          rw [ht, hp, heq]
        · exact hall j (by omega) (by omega)
      · intro hall j hj1 hj2
        exact hall j (by omega) (by omega)
    · rw [if_neg heq]
      refine ⟨false, rfl, ?_⟩
      simp only [Bool.false_eq_true, false_iff, not_forall]
      refine ⟨i, Nat.le_refl _, by omega, ?_⟩
      rw [ht, hp]
      intro hc
      exact heq (Option.some.inj hc)

/-- C18 (as stated, refuted): for the signature the constructor decodes from
`[0x20, 0x02, 0x01, 0x08, 0x1D, 0x0E]` and a method with the same calling convention and two
parameters, `Matches` does not return: the constructor leaves `paramTypes` unset, and the
first comparison dereferences it. -/
theorem Matches_counterexample :
    ∃ s, MethodSignature.new 2
        (SignatureReader.mk (sigOfBytes [0x20, 0x02, 0x01, 0x08, 0x1D, 0x0E]) 0) false
        = some s ∧
      s.Matches (MethodBase.mk 0x21 [SysType.Int32, SysType.String])
        = .error Fault.nullReference :=
  ⟨MethodSignature.mk
      (SignatureReader.mk (sigOfBytes [0x20, 0x02, 0x01, 0x08, 0x1D, 0x0E]) 6) false 0x21
      [ObjRef.type SysType.Int32, ObjRef.type SysType.String] [some "", some "[]"] 2 none,
    rfl, rfl⟩

/-- C18 (amended): for a signature whose `paramTypes` array holds the types `types`, at least
`paramCount` of them (the constructor leaves `paramTypes` unset; it is filled from outside),
and every method `m`, `Matches` returns, and returns true exactly when the calling
convention of `m` equals that of the signature, `m` has exactly `paramCount` parameters and
`paramTypes[i]` equals the type of parameter `i` of `m` for every `i < paramCount`. For a
signature with `paramTypes` unset, `Matches` returns false when the calling conventions or
the parameter counts differ, and true when they agree and `paramCount` is 0. -/
theorem Matches_spec (s : MethodSignature) (m : MethodBase) :
    (∀ types : List SysType, s.paramTypes = some (types.map ObjRef.type) →
      s.paramCount ≤ types.length →
      ∃ b, s.Matches m = .ok b ∧
        (b = true ↔ m.CallingConvention = s.callingConv ∧
          m.ParameterTypes.length = s.paramCount ∧
          ∀ i, i < s.paramCount → types[i]? = m.ParameterTypes[i]?)) ∧
    (s.paramTypes = none →
      ((m.CallingConvention ≠ s.callingConv ∨ m.ParameterTypes.length ≠ s.paramCount) →
        s.Matches m = .ok false) ∧
      (m.CallingConvention = s.callingConv → m.ParameterTypes.length = s.paramCount →
        s.paramCount = 0 → s.Matches m = .ok true)) := by
  refine ⟨?_, ?_⟩
  · intro types hpt hlen
    unfold MethodSignature.Matches
    by_cases hc : m.CallingConvention = s.callingConv
    · rw [if_pos hc]
      by_cases hl : m.ParameterTypes.length = s.paramCount
      · rw [if_pos hl, hpt]
        obtain ⟨b, hb, hiff⟩ := matchLoop_eq types m.ParameterTypes s.paramCount 0
          (by omega) (by omega)
        refine ⟨b, hb, ?_⟩
        rw [hiff]
        constructor
        · intro hall
          exact ⟨hc, hl, fun i hi => hall i (Nat.zero_le _) (by omega)⟩
        · intro hall j _ hj
          exact hall.2.2 j (by omega)
      · rw [if_neg hl]
        exact ⟨false, rfl, by simp [hl]⟩
    · rw [if_neg hc]
      exact ⟨false, rfl, by simp [hc]⟩
  · intro hpt
    refine ⟨?_, ?_⟩
    · intro hne
      unfold MethodSignature.Matches
      by_cases hc : m.CallingConvention = s.callingConv
      · rw [if_pos hc, if_neg (by tauto)]
      · rw [if_neg hc]
    · intro hc hl h0
      unfold MethodSignature.Matches
      rw [if_pos hc, if_pos hl, h0]
      rfl

/-- Witness for C18: with `paramTypes = [Int32, String]` filled in, the signature of
`[0x20, 0x02, 0x01, 0x08, 0x1D, 0x0E]` matches a method with convention `0x21` and the
parameter types `[Int32, String]`, and does not match one with `[Int32, Int32]`. -/
theorem Matches_spec_witness :
    (MethodSignature.mk
        (SignatureReader.mk (sigOfBytes [0x20, 0x02, 0x01, 0x08, 0x1D, 0x0E]) 6) false 0x21
        [ObjRef.type SysType.Int32, ObjRef.type SysType.String] [some "", some "[]"] 2
        (some [ObjRef.type SysType.Int32, ObjRef.type SysType.String])).Matches
      (MethodBase.mk 0x21 [SysType.Int32, SysType.String]) = .ok true ∧
    (MethodSignature.mk
        (SignatureReader.mk (sigOfBytes [0x20, 0x02, 0x01, 0x08, 0x1D, 0x0E]) 6) false 0x21
        [ObjRef.type SysType.Int32, ObjRef.type SysType.String] [some "", some "[]"] 2
        (some [ObjRef.type SysType.Int32, ObjRef.type SysType.String])).Matches
      (MethodBase.mk 0x21 [SysType.Int32, SysType.Int32]) = .ok false ∧
    ∃ b, (MethodSignature.mk
        (SignatureReader.mk (sigOfBytes [0x20, 0x02, 0x01, 0x08, 0x1D, 0x0E]) 6) false 0x21
        [ObjRef.type SysType.Int32, ObjRef.type SysType.String] [some "", some "[]"] 2
        (some [ObjRef.type SysType.Int32, ObjRef.type SysType.String])).Matches
      (MethodBase.mk 0x21 [SysType.Int32, SysType.String]) = .ok b :=
  ⟨rfl, rfl,
    ((Matches_spec
      (MethodSignature.mk
        (SignatureReader.mk (sigOfBytes [0x20, 0x02, 0x01, 0x08, 0x1D, 0x0E]) 6) false 0x21
        [ObjRef.type SysType.Int32, ObjRef.type SysType.String] [some "", some "[]"] 2
        (some [ObjRef.type SysType.Int32, ObjRef.type SysType.String]))
      (MethodBase.mk 0x21 [SysType.Int32, SysType.String])).1
      [SysType.Int32, SysType.String] rfl (by decide)).elim (fun b hb => ⟨b, hb.1⟩)⟩

/-! ### Exception-handling clauses -/

theorem foldl_set_upto {α : Type} (f : Nat → α) (d : α) (n : Nat) :
    ∀ k, k ≤ n →
      (List.range k).foldl (fun a i => a.set i (f i)) (List.replicate n d)
        = (List.range k).map f ++ List.replicate (n - k) d := by
  intro k
  induction k with
  | zero => intro _; simp
  | succ k ih =>
    intro hk
    rw [List.range_succ, List.foldl_append, ih (by omega), List.map_append]
    obtain ⟨m, hm⟩ : ∃ m, n - k = m + 1 := ⟨n - k - 1, by omega⟩
    have hm2 : n - (k + 1) = m := by omega
    rw [hm, hm2, List.replicate_succ]
    simp only [List.foldl_cons, List.foldl_nil, List.map_cons, List.map_nil]
    have hset := set_length_append ((List.range k).map f) (List.replicate m d) d (f k)
    rw [List.length_map, List.length_range] at hset
    rw [hset]
    simp

theorem foldl_set_eq_map {α : Type} (f : Nat → α) (d : α) (n : Nat) :
    (List.range n).foldl (fun a i => a.set i (f i)) (List.replicate n d)
      = (List.range n).map f := by
  rw [foldl_set_upto f d n n (Nat.le_refl _)]
  simp

theorem foldl_storeClause (decoder : COR_ILMETHOD_DECODER) :
    ∀ (l : List Nat) (e : EHDecoder),
      l.foldl (EHDecoder.storeClause decoder) e =
        { count := e.count
          kinds := l.foldl (fun a i =>
            a.set i (EHDecoder.kindOfFlags (wrap32 ((decoder.EHClause i).Flags : Nat)))) e.kinds
          tryOfs := l.foldl (fun a i =>
            a.set i (wrap32 ((decoder.EHClause i).TryOffset : Nat))) e.tryOfs
          tryLens := l.foldl (fun a i =>
            a.set i (wrap32 ((decoder.EHClause i).TryLength : Nat))) e.tryLens
          hOfs := l.foldl (fun a i =>
            a.set i (wrap32 ((decoder.EHClause i).HandlerOffset : Nat))) e.hOfs
          hLens := l.foldl (fun a i =>
            a.set i (wrap32 ((decoder.EHClause i).HandlerLength : Nat))) e.hLens
          params := l.foldl (fun a i =>
            a.set i (EHDecoder.paramOfClause (decoder.EHClause i))) e.params } := by
  intro l
  induction l with
  | nil => intro e; rfl
  | cons i l ih =>
    intro e
    rw [List.foldl_cons, ih]
    rfl

/-- The arrays the constructor of `EHDecoder` builds, entry by entry. -/
theorem EHDecoder_new_eq (decoder : COR_ILMETHOD_DECODER) :
    EHDecoder.new decoder =
      { count := wrap32 (decoder.EHCount : Nat)
        kinds := (List.range decoder.EHCount).map (fun i =>
          EHDecoder.kindOfFlags (wrap32 ((decoder.EHClause i).Flags : Nat)))
        tryOfs := (List.range decoder.EHCount).map (fun i =>
          wrap32 ((decoder.EHClause i).TryOffset : Nat))
        tryLens := (List.range decoder.EHCount).map (fun i =>
          wrap32 ((decoder.EHClause i).TryLength : Nat))
        hOfs := (List.range decoder.EHCount).map (fun i =>
          wrap32 ((decoder.EHClause i).HandlerOffset : Nat))
        hLens := (List.range decoder.EHCount).map (fun i =>
          wrap32 ((decoder.EHClause i).HandlerLength : Nat))
        params := (List.range decoder.EHCount).map (fun i =>
          EHDecoder.paramOfClause (decoder.EHClause i)) } := by
  unfold EHDecoder.new
  rw [foldl_storeClause]
  simp only [foldl_set_eq_map]

theorem wrap32_natCast (x : Nat) (h : x < 2147483648) : wrap32 (x : Nat) = (x : Int) :=
  wrap32_of_inInt32 ⟨by omega, by omega⟩

theorem kindOfFlags_values :
    EHDecoder.kindOfFlags (wrap32 ((0 : Nat) : Int)) = TYPE_FILTERED_HANDLER ∧
    EHDecoder.kindOfFlags (wrap32 ((1 : Nat) : Int)) = USER_FILTERED_HANDLER ∧
    EHDecoder.kindOfFlags (wrap32 ((2 : Nat) : Int)) = FINALLY_HANDLER ∧
    EHDecoder.kindOfFlags (wrap32 ((4 : Nat) : Int)) = FAULT_HANDLER := by
  have h0 : wrap32 ((0 : Nat) : Int) = 0 := by unfold wrap32; norm_num
  have h1 : wrap32 ((1 : Nat) : Int) = 1 := by unfold wrap32; norm_num
  have h2 : wrap32 ((2 : Nat) : Int) = 2 := by unfold wrap32; norm_num
  have h4 : wrap32 ((4 : Nat) : Int) = 4 := by unfold wrap32; norm_num
  rw [h0, h1, h2, h4]
  decide

theorem paramOfClause_eq (clause : EHClauseFat) :
    EHDecoder.paramOfClause clause =
      if EHDecoder.kindOfFlags (wrap32 (clause.Flags : Nat)) = TYPE_FILTERED_HANDLER ∨
          EHDecoder.kindOfFlags (wrap32 (clause.Flags : Nat)) = USER_FILTERED_HANDLER then
        ObjRef.boxInt32 (wrap32 (clause.ClassTokenOrFilterOffset : Nat))
      else ObjRef.null := by
  unfold EHDecoder.paramOfClause
  dsimp only
  by_cases h1 : EHDecoder.kindOfFlags (wrap32 (clause.Flags : Nat)) = TYPE_FILTERED_HANDLER
  · rw [if_pos h1, if_pos (Or.inl h1)]
  · by_cases h2 : EHDecoder.kindOfFlags (wrap32 (clause.Flags : Nat)) = USER_FILTERED_HANDLER
    · rw [if_neg h1, if_pos h2, if_pos (Or.inr h2)]
    · rw [if_neg h1, if_neg h2, if_neg (not_or.mpr ⟨h1, h2⟩)]

theorem EHDecoder_new_entry (decoder : COR_ILMETHOD_DECODER) (i : Nat)
    (hi : i < decoder.EHCount) :
    (EHDecoder.new decoder).kinds[i]? =
      some (EHDecoder.kindOfFlags (wrap32 ((decoder.EHClause i).Flags : Nat))) ∧
    (EHDecoder.new decoder).tryOfs[i]? = some (wrap32 ((decoder.EHClause i).TryOffset : Nat)) ∧
    (EHDecoder.new decoder).tryLens[i]? = some (wrap32 ((decoder.EHClause i).TryLength : Nat)) ∧
    (EHDecoder.new decoder).hOfs[i]? =
      some (wrap32 ((decoder.EHClause i).HandlerOffset : Nat)) ∧
    (EHDecoder.new decoder).hLens[i]? =
      some (wrap32 ((decoder.EHClause i).HandlerLength : Nat)) ∧
    (EHDecoder.new decoder).params[i]? =
      some (EHDecoder.paramOfClause (decoder.EHClause i)) := by
  have hr : (List.range decoder.EHCount)[i]? = some i := List.getElem?_range hi
  rw [EHDecoder_new_eq]
  simp only [List.getElem?_map, hr, Option.map_some', and_self]

theorem EHDecoder_new_count (decoder : COR_ILMETHOD_DECODER) :
    (EHDecoder.new decoder).count = wrap32 (decoder.EHCount : Nat) ∧
    (EHDecoder.new decoder).kinds.length = decoder.EHCount ∧
    (EHDecoder.new decoder).params.length = decoder.EHCount := by
  rw [EHDecoder_new_eq]
  simp only [List.length_map, List.length_range, and_self]

/-- C19: for a method body with `EHCount` clauses, the constructor of `EHDecoder` gives
`GetCount` equal to the number of clauses, and for every clause `i`: `Flags` 0 gives the kind
`TYPE_FILTERED_HANDLER` and the boxed class token as parameter, `Flags` 1 (`FILTER`) gives
`USER_FILTERED_HANDLER` and the boxed filter offset, `Flags` 2 (`FINALLY`) gives
`FINALLY_HANDLER` and `Flags` 4 (`FAULT`) gives `FAULT_HANDLER`, both with a `NULL` parameter;
`tryOfs`, `tryLens`, `hOfs`, `hLens` hold the clause's `TryOffset`, `TryLength`,
`HandlerOffset`, `HandlerLength`, as the 32-bit values read as `Int32` (so the same numbers
whenever they are below `2^31`). -/
theorem EHDecoder_new_spec (decoder : COR_ILMETHOD_DECODER)
    (hcount : decoder.EHCount < 2147483648) :
    (EHDecoder.new decoder).GetCount = (decoder.EHCount : Int) ∧
    (EHDecoder.new decoder).kinds.length = decoder.EHCount ∧
    (EHDecoder.new decoder).params.length = decoder.EHCount ∧
    ∀ i, i < decoder.EHCount →
      ((decoder.EHClause i).Flags = 0 →
        (EHDecoder.new decoder).kinds[i]? = some TYPE_FILTERED_HANDLER ∧
        (EHDecoder.new decoder).params[i]? =
          some (ObjRef.boxInt32 (wrap32 ((decoder.EHClause i).ClassTokenOrFilterOffset : Nat)))) ∧
      ((decoder.EHClause i).Flags = 1 →
        (EHDecoder.new decoder).kinds[i]? = some USER_FILTERED_HANDLER ∧
        (EHDecoder.new decoder).params[i]? =
          some (ObjRef.boxInt32 (wrap32 ((decoder.EHClause i).ClassTokenOrFilterOffset : Nat)))) ∧
      ((decoder.EHClause i).Flags = 2 →
        (EHDecoder.new decoder).kinds[i]? = some FINALLY_HANDLER ∧
        (EHDecoder.new decoder).params[i]? = some ObjRef.null) ∧
      ((decoder.EHClause i).Flags = 4 →
        (EHDecoder.new decoder).kinds[i]? = some FAULT_HANDLER ∧
        (EHDecoder.new decoder).params[i]? = some ObjRef.null) ∧
      (EHDecoder.new decoder).tryOfs[i]? = some (wrap32 ((decoder.EHClause i).TryOffset : Nat)) ∧
      (EHDecoder.new decoder).tryLens[i]? = some (wrap32 ((decoder.EHClause i).TryLength : Nat)) ∧
      (EHDecoder.new decoder).hOfs[i]? =
        some (wrap32 ((decoder.EHClause i).HandlerOffset : Nat)) ∧
      (EHDecoder.new decoder).hLens[i]? =
        some (wrap32 ((decoder.EHClause i).HandlerLength : Nat)) ∧
      ((decoder.EHClause i).TryOffset < 2147483648 →
        (decoder.EHClause i).TryLength < 2147483648 →
        (decoder.EHClause i).HandlerOffset < 2147483648 →
        (decoder.EHClause i).HandlerLength < 2147483648 →
        (EHDecoder.new decoder).tryOfs[i]? = some ((decoder.EHClause i).TryOffset : Int) ∧
        (EHDecoder.new decoder).tryLens[i]? = some ((decoder.EHClause i).TryLength : Int) ∧
        (EHDecoder.new decoder).hOfs[i]? = some ((decoder.EHClause i).HandlerOffset : Int) ∧
        (EHDecoder.new decoder).hLens[i]? = some ((decoder.EHClause i).HandlerLength : Int)) := by
  obtain ⟨hc, hk, hp⟩ := EHDecoder_new_count decoder
  refine ⟨?_, hk, hp, ?_⟩
  · unfold EHDecoder.GetCount
    rw [hc]
    exact wrap32_natCast _ hcount
  intro i hi
  obtain ⟨e1, e2, e3, e4, e5, e6⟩ := EHDecoder_new_entry decoder i hi
  obtain ⟨k0, k1, k2, k4⟩ := kindOfFlags_values
  rw [e1, e2, e3, e4, e5, e6, paramOfClause_eq]
  refine ⟨?_, ?_, ?_, ?_, rfl, rfl, rfl, rfl, ?_⟩
  · intro hf
    rw [hf, k0]
    exact ⟨rfl, rfl⟩
  · intro hf
    rw [hf, k1]
    exact ⟨rfl, rfl⟩
  · intro hf
    rw [hf, k2]
    exact ⟨rfl, rfl⟩
  · intro hf
    rw [hf, k4]
    exact ⟨rfl, rfl⟩
  · intro h1 h2 h3 h4
    rw [wrap32_natCast _ h1, wrap32_natCast _ h2, wrap32_natCast _ h3, wrap32_natCast _ h4]
    exact ⟨rfl, rfl, rfl, rfl⟩

/-- Witness for C19: a body with the two clauses (Flags 0, try 1+2, handler 3+4, class token
`0x01000012`) and (Flags 2, try 5+6, handler 7+8). -/
theorem EHDecoder_new_spec_witness :
    EHDecoder.new
        ⟨true, 0, 8, 1, memOfBytes [0x2A], 2,
          fun i => if i = 0 then ⟨0, 1, 2, 3, 4, 0x01000012⟩ else ⟨2, 5, 6, 7, 8, 0⟩⟩
      = EHDecoder.mk 2 [TYPE_FILTERED_HANDLER, FINALLY_HANDLER] [1, 5] [2, 6] [3, 7] [4, 8]
          [ObjRef.boxInt32 0x01000012, ObjRef.null] ∧
    (EHDecoder.new
        ⟨true, 0, 8, 1, memOfBytes [0x2A], 2,
          fun i => if i = 0 then ⟨0, 1, 2, 3, 4, 0x01000012⟩ else ⟨2, 5, 6, 7, 8, 0⟩⟩).GetCount
      = ((2 : Nat) : Int) :=
  ⟨rfl,
    (EHDecoder_new_spec
      ⟨true, 0, 8, 1, memOfBytes [0x2A], 2,
        fun i => if i = 0 then ⟨0, 1, 2, 3, 4, 0x01000012⟩ else ⟨2, 5, 6, 7, 8, 0⟩⟩
      (by decide)).1⟩

theorem fixParamsLoop_eq (hash : Int → ObjRef) (kinds : List Int) :
    ∀ (remaining i : Nat) (params : List ObjRef),
      i + remaining ≤ kinds.length → i + remaining ≤ params.length →
      (∀ j, i ≤ j → j < i + remaining → kinds[j]? = some TYPE_FILTERED_HANDLER →
        ∃ tok, params[j]? = some (ObjRef.boxInt32 tok)) →
      ∃ out, EHDecoder.fixParamsLoop hash kinds remaining i params = .ok out ∧
        out.length = params.length ∧
        ∀ j,
          (i ≤ j → j < i + remaining → kinds[j]? = some TYPE_FILTERED_HANDLER →
            ∀ tok, params[j]? = some (ObjRef.boxInt32 tok) →
              out[j]? = some (hash tok).castType) ∧
          (¬ (i ≤ j ∧ j < i + remaining ∧ kinds[j]? = some TYPE_FILTERED_HANDLER) →
            out[j]? = params[j]?) := by
  intro remaining
  induction remaining with
  | zero =>
    intro i params _ _ _
    refine ⟨params, rfl, rfl, fun j => ⟨?_, fun _ => rfl⟩⟩
    intro h1 h2
    omega
  | succ n ih =>
    intro i params hk hp hbox
    have hik : i < kinds.length := by omega
    have hki : kinds[i]? = some kinds[i] := List.getElem?_eq_getElem hik
    rw [EHDecoder.fixParamsLoop]
    simp only [hki]
    by_cases hT : kinds[i] = TYPE_FILTERED_HANDLER
    · obtain ⟨tok, htok⟩ := hbox i (Nat.le_refl _) (by omega) (by rw [hki, hT])
      simp only [hT, if_true, htok]
      obtain ⟨out, hout, hlen, hspec⟩ := ih (i + 1) (params.set i (hash tok).castType)
        (by omega) (by rw [List.length_set]; omega)
        (by
          intro j hj1 hj2 hj3
          rw [List.getElem?_set_ne (by omega)]
          exact hbox j (by omega) (by omega) hj3)
      refine ⟨out, hout, by rw [hlen, List.length_set], ?_⟩
      intro j
      constructor
      · intro hj1 hj2 hj3 tok2 htok2
        by_cases hji : j = i
        · subst hji
          rw [htok] at htok2
          have htt : tok = tok2 := by
            injection htok2 with h1
            injection h1
          rw [(hspec j).2 (by omega), List.getElem?_set_self (by omega), htt]
        · refine (hspec j).1 (by omega) (by omega) hj3 tok2 ?_
          rw [List.getElem?_set_ne (Ne.symm hji)]
          exact htok2
      · intro hn
        have hji : j ≠ i := by
          intro hji
          subst hji
          exact hn ⟨Nat.le_refl _, by omega, by rw [hki, hT]⟩
        rw [(hspec j).2 (fun hc => hn ⟨by omega, by omega, hc.2.2⟩),
          List.getElem?_set_ne (Ne.symm hji)]
    · simp only [hT, if_false]
      obtain ⟨out, hout, hlen, hspec⟩ := ih (i + 1) params (by omega) (by omega)
        (fun j hj1 hj2 hj3 => hbox j (by omega) (by omega) hj3)
      refine ⟨out, hout, hlen, ?_⟩
      intro j
      constructor
      · intro hj1 hj2 hj3 tok2 htok2
        have hji : j ≠ i := by
          intro hji
          subst hji
          rw [hki] at hj3
          exact hT (Option.some.inj hj3)
        exact (hspec j).1 (by omega) (by omega) hj3 tok2 htok2
      · intro hn
        exact (hspec j).2 (fun hc => hn ⟨by omega, by omega, hc.2.2⟩)

/-- C20 (as stated, refuted): for a body with one type-filtered clause of class token
`0x01000012` and a map without that key, the parameter is the boxed token before `FixParams`
and `NULL` after it: the raw token is not retained. -/
theorem FixParams_unresolved_counterexample :
    (EHDecoder.new
        ⟨true, 0, 8, 1, memOfBytes [0x2A], 1, fun _ => ⟨0, 0, 1, 1, 1, 0x01000012⟩⟩).params
      = [ObjRef.boxInt32 0x01000012] ∧
    (EHDecoder.new
        ⟨true, 0, 8, 1, memOfBytes [0x2A], 1, fun _ => ⟨0, 0, 1, 1, 1, 0x01000012⟩⟩).FixParams
        (fun _ => ObjRef.null)
      = .ok (EHDecoder.mk 1 [TYPE_FILTERED_HANDLER] [0] [1] [1] [1] [ObjRef.null]) ∧
    (EHDecoder.mk 1 [TYPE_FILTERED_HANDLER] [0] [1] [1] [1] [ObjRef.null]).params
      ≠ [ObjRef.boxInt32 0x01000012] :=
  ⟨rfl, rfl, by decide⟩

/-- C20 (amended): for the EH table the constructor builds and every token map, `FixParams`
returns, and replaces the parameter of each type-filtered clause by
`dynamic_cast <Type*>` of the map's entry for its class token: the mapped type object when
the token is a key mapped to a type, and `NULL` (not the raw boxed token) when the token is
not in the map; the parameters of the clauses of every other kind, and all kinds, offsets,
lengths and the count, are unchanged. -/
theorem FixParams_spec (decoder : COR_ILMETHOD_DECODER) (hash : Int → ObjRef)
    (hcount : decoder.EHCount < 2147483648) :
    ∃ e, (EHDecoder.new decoder).FixParams hash = .ok e ∧
      e.count = (EHDecoder.new decoder).count ∧ e.kinds = (EHDecoder.new decoder).kinds ∧
      e.tryOfs = (EHDecoder.new decoder).tryOfs ∧ e.tryLens = (EHDecoder.new decoder).tryLens ∧
      e.hOfs = (EHDecoder.new decoder).hOfs ∧ e.hLens = (EHDecoder.new decoder).hLens ∧
      e.params.length = decoder.EHCount ∧
      ∀ i, i < decoder.EHCount →
        ((EHDecoder.new decoder).kinds[i]? = some TYPE_FILTERED_HANDLER →
          e.params[i]? =
            some (hash (wrap32 ((decoder.EHClause i).ClassTokenOrFilterOffset : Nat))).castType ∧
          (∀ t, hash (wrap32 ((decoder.EHClause i).ClassTokenOrFilterOffset : Nat))
              = ObjRef.type t → e.params[i]? = some (ObjRef.type t)) ∧
          (hash (wrap32 ((decoder.EHClause i).ClassTokenOrFilterOffset : Nat)) = ObjRef.null →
            e.params[i]? = some ObjRef.null)) ∧
        ((EHDecoder.new decoder).kinds[i]? ≠ some TYPE_FILTERED_HANDLER →
          e.params[i]? = (EHDecoder.new decoder).params[i]?) := by
  obtain ⟨hc, hk, hp⟩ := EHDecoder_new_count decoder
  have hn : (EHDecoder.new decoder).count.toNat = decoder.EHCount := by
    rw [hc, wrap32_natCast _ hcount, Int.toNat_natCast]
  have hbox : ∀ j, 0 ≤ j → j < 0 + decoder.EHCount →
      (EHDecoder.new decoder).kinds[j]? = some TYPE_FILTERED_HANDLER →
      ∃ tok, (EHDecoder.new decoder).params[j]? = some (ObjRef.boxInt32 tok) := by
    intro j _ hj hkind
    obtain ⟨e1, _, _, _, _, e6⟩ := EHDecoder_new_entry decoder j (by omega)
    rw [e1] at hkind
    rw [e6, paramOfClause_eq, if_pos (Or.inl (Option.some.inj hkind))]
    exact ⟨_, rfl⟩
  obtain ⟨out, hout, hlen, hspec⟩ := fixParamsLoop_eq hash (EHDecoder.new decoder).kinds
    decoder.EHCount 0 (EHDecoder.new decoder).params (by omega) (by omega) hbox
  refine ⟨{ EHDecoder.new decoder with params := out }, ?_, rfl, rfl, rfl, rfl, rfl, rfl,
    by rw [hlen, hp], ?_⟩
  · unfold EHDecoder.FixParams
    rw [hn, hout]
  · intro i hi
    obtain ⟨e1, _, _, _, _, e6⟩ := EHDecoder_new_entry decoder i hi
    constructor
    · intro hkind
      have hpar : (EHDecoder.new decoder).params[i]? = some (ObjRef.boxInt32
          (wrap32 ((decoder.EHClause i).ClassTokenOrFilterOffset : Nat))) := by
        rw [e1] at hkind
        rw [e6, paramOfClause_eq, if_pos (Or.inl (Option.some.inj hkind))]
      have hres := (hspec i).1 (Nat.zero_le _) (by omega) hkind _ hpar
      refine ⟨hres, ?_, ?_⟩
      · intro t ht
        show out[i]? = _
        rw [hres, ht]
        rfl
      · intro ht
        show out[i]? = _
        rw [hres, ht]
        rfl
    · intro hkind
      exact (hspec i).2 (fun hc2 => hkind hc2.2.2)

/-- Witness for C20: with the clauses (Flags 0, class token `0x01000012`) and (Flags 2), and
a map that sends `0x01000012` to a type, `FixParams` gives the parameters `[that type, NULL]`
and leaves the kinds; with a map without the key it gives `[NULL, NULL]`. -/
theorem FixParams_spec_witness :
    (EHDecoder.new
        ⟨true, 0, 8, 1, memOfBytes [0x2A], 2,
          fun i => if i = 0 then ⟨0, 1, 2, 3, 4, 0x01000012⟩ else ⟨2, 5, 6, 7, 8, 0⟩⟩).FixParams
        (fun tk => if tk = 0x01000012 then ObjRef.type (SysType.resolved 7) else ObjRef.null)
      = .ok (EHDecoder.mk 2 [TYPE_FILTERED_HANDLER, FINALLY_HANDLER] [1, 5] [2, 6] [3, 7] [4, 8]
          [ObjRef.type (SysType.resolved 7), ObjRef.null]) ∧
    (EHDecoder.new
        ⟨true, 0, 8, 1, memOfBytes [0x2A], 2,
          fun i => if i = 0 then ⟨0, 1, 2, 3, 4, 0x01000012⟩ else ⟨2, 5, 6, 7, 8, 0⟩⟩).FixParams
        (fun _ => ObjRef.null)
      = .ok (EHDecoder.mk 2 [TYPE_FILTERED_HANDLER, FINALLY_HANDLER] [1, 5] [2, 6] [3, 7] [4, 8]
          [ObjRef.null, ObjRef.null]) ∧
    ∃ e, (EHDecoder.new
        ⟨true, 0, 8, 1, memOfBytes [0x2A], 2,
          fun i => if i = 0 then ⟨0, 1, 2, 3, 4, 0x01000012⟩ else ⟨2, 5, 6, 7, 8, 0⟩⟩).FixParams
        (fun tk => if tk = 0x01000012 then ObjRef.type (SysType.resolved 7) else ObjRef.null)
        = .ok e ∧ e.params.length = 2 :=
  ⟨rfl, rfl,
    (FixParams_spec
      ⟨true, 0, 8, 1, memOfBytes [0x2A], 2,
        fun i => if i = 0 then ⟨0, 1, 2, 3, 4, 0x01000012⟩ else ⟨2, 5, 6, 7, 8, 0⟩⟩
      (fun tk => if tk = 0x01000012 then ObjRef.type (SysType.resolved 7) else ObjRef.null)
      (by decide)).elim (fun e he => ⟨e, he.1, he.2.2.2.2.2.2.2.1⟩)⟩

/-! ### `GetMethodProps`: the local-variable signature -/

theorem localVarSig_mismatch (decoder : COR_ILMETHOD_DECODER)
    (getSigFromToken : Int → Nat → Nat)
    (hfat : decoder.IsFat = true)
    (htok : wrap32 (decoder.LocalVarSigTok : Nat) ≠ 0)
    (hfirst : (SignatureReader.mk (getSigFromToken (wrap32 (decoder.LocalVarSigTok : Nat)))
      0).ReadUlong.1 ≠ IMAGE_CEE_CS_CALLCONV_LOCAL_SIG) :
    PeLoader.localVarSig decoder getSigFromToken =
      (some (SignatureReader.mk (getSigFromToken (wrap32 (decoder.LocalVarSigTok : Nat)))
        0).ReadUlong.2, 0) := by
  unfold PeLoader.localVarSig
  rw [if_pos hfat]
  dsimp only
  rw [if_pos htok, if_pos hfirst]

/-- C21 (the source at the claimed input): for a fat header whose local-variable signature
token is not zero and whose local signature does not start with `LOCAL_SIG`, `GetMethodProps`
raises nothing (the branch holds only the comment `throw ...`): once the method signature is
decoded and the header located, it returns properties whose body has the header's max stack,
code size and code and no local variable at all. -/
theorem GetMethodProps_bad_local_sig (fuel : Nat) (codeSections : List CodeSection)
    (name : String) (RVA : Int) (sig : Nat → Nat)
    (decoderAt : Int → COR_ILMETHOD_DECODER) (getSigFromToken : Int → Nat → Nat)
    (heap : Int → Nat) (signature : MethodSignature) (filePos : Int)
    (hsig : MethodSignature.new fuel { mem := sig, sig := 0 } false = some signature)
    (hpos : PeLoader.findILHeader codeSections RVA = some filePos)
    (hfat : (decoderAt filePos).IsFat = true)
    (htok : wrap32 ((decoderAt filePos).LocalVarSigTok : Nat) ≠ 0)
    (hfirst : (SignatureReader.mk
        (getSigFromToken (wrap32 ((decoderAt filePos).LocalVarSigTok : Nat))) 0).ReadUlong.1
      ≠ IMAGE_CEE_CS_CALLCONV_LOCAL_SIG) :
    PeLoader.GetMethodProps fuel codeSections name RVA sig decoderAt getSigFromToken heap =
      some { name := name
             methodCode := MethodCode.new (wrap32 ((decoderAt filePos).MaxStack : Nat))
               (wrap32 ((decoderAt filePos).CodeSize : Nat)) (decoderAt filePos).Code
               (EHDecoder.new (decoderAt filePos)) 0 heap
             sig := signature } ∧
    (MethodCode.new (wrap32 ((decoderAt filePos).MaxStack : Nat))
        (wrap32 ((decoderAt filePos).CodeSize : Nat)) (decoderAt filePos).Code
        (EHDecoder.new (decoderAt filePos)) 0 heap).locVarBaseTypes = some [] ∧
    (MethodCode.new (wrap32 ((decoderAt filePos).MaxStack : Nat))
        (wrap32 ((decoderAt filePos).CodeSize : Nat)) (decoderAt filePos).Code
        (EHDecoder.new (decoderAt filePos)) 0 heap).locVarDeclarators = some [] := by
  refine ⟨?_, rfl, rfl⟩
  unfold PeLoader.GetMethodProps
  rw [hsig, hpos]
  dsimp only
  unfold PeLoader.decodeBody
  rw [localVarSig_mismatch (decoderAt filePos) getSigFromToken hfat htok hfirst]
  rfl

/-- Witness for C21: a fat header with the signature token `0x11000001` whose signature is
`[0x06, 0x01, 0x08]` (it starts with `FIELD`, not `LOCAL_SIG`): `GetMethodProps` returns
properties, and the body has no local variable. -/
theorem GetMethodProps_bad_local_sig_witness :
    ∃ props,
      PeLoader.GetMethodProps 1 [CodeSection.mk 0x400 0x2000 0x100] "M" 0x2010
          (sigOfBytes [0x00, 0x00, 0x01])
          (fun _ => ⟨true, 0x11000001, 8, 1, memOfBytes [0x2A], 0, fun _ => ⟨0, 0, 0, 0, 0, 0⟩⟩)
          (fun _ => sigOfBytes [0x06, 0x01, 0x08]) (memOfBytes []) = some props ∧
      props.methodCode.locVarBaseTypes = some [] ∧
      props.methodCode.locVarDeclarators = some [] ∧
      props.methodCode.codeSize = 1 :=
  ⟨_, (GetMethodProps_bad_local_sig 1 [CodeSection.mk 0x400 0x2000 0x100] "M" 0x2010
      (sigOfBytes [0x00, 0x00, 0x01])
      (fun _ => ⟨true, 0x11000001, 8, 1, memOfBytes [0x2A], 0, fun _ => ⟨0, 0, 0, 0, 0, 0⟩⟩)
      (fun _ => sigOfBytes [0x06, 0x01, 0x08]) (memOfBytes [])
      { sigReader := { mem := sigOfBytes [0x00, 0x00, 0x01], sig := 3 }
        isMethodRef := false
        callingConv := 1
        paramBaseTypes := []
        paramDeclarators := []
        paramCount := 0
        paramTypes := none }
      0x410 (by rfl) (by decide) rfl (by decide) (by decide)).1, rfl, rfl, by decide⟩

/-- C23: the value `ReadCode` returns. Whenever `ReadCode` returns, its value lies in
`[0, 255]`; on a body it always returns: the byte at the cursor when that byte is not `0xFE`,
and `(0xE1 + second byte) mod 256` when it is. Hence a reader whose cursor is on the one-byte
opcode `(0xE1 + xx) mod 256` (a byte other than the lead byte `0xFE`) returns the same value as
a reader whose cursor is on the pair `FE xx`. -/
theorem ReadCode_byte_value (d : ILMethodDecoder) :
    (∀ v d1, d.ReadCode = .ok (v, d1) → 0 ≤ v ∧ v ≤ 255) ∧
    (∀ code, d.methodCode.code = some code →
      (byteAt code d.pos = 0xFE →
        Except.map Prod.fst d.ReadCode =
          .ok (((0xE1 + byteAt code (wrap32 (d.pos + 1))) % 256 : Nat) : Int)) ∧
      (byteAt code d.pos ≠ 0xFE →
        Except.map Prod.fst d.ReadCode = .ok ((byteAt code d.pos : Nat) : Int)) ∧
      (∀ (e : ILMethodDecoder) (code2 : Int → Nat), e.methodCode.code = some code2 →
        byteAt code2 e.pos = 0xFE →
        byteAt code d.pos ≠ 0xFE →
        byteAt code d.pos = (0xE1 + byteAt code2 (wrap32 (e.pos + 1))) % 256 →
        Except.map Prod.fst d.ReadCode = Except.map Prod.fst e.ReadCode)) := by
  have hFE : ∀ (x : ILMethodDecoder) (c : Int → Nat), x.methodCode.code = some c →
      byteAt c x.pos = 0xFE →
      Except.map Prod.fst x.ReadCode =
        .ok (((0xE1 + byteAt c (wrap32 (x.pos + 1))) % 256 : Nat) : Int) := by
    intro x c hc h
    unfold ILMethodDecoder.ReadCode
    simp only [hc, h, if_true, advance_pos]
    rfl
  have hone : ∀ (x : ILMethodDecoder) (c : Int → Nat), x.methodCode.code = some c →
      byteAt c x.pos ≠ 0xFE →
      Except.map Prod.fst x.ReadCode = .ok ((byteAt c x.pos : Nat) : Int) := by
    intro x c hc h
    unfold ILMethodDecoder.ReadCode
    simp only [hc, h, if_false]
    rfl
  refine ⟨?_, ?_⟩
  · intro v d1 h
    cases hc : d.methodCode.code with
    | none =>
      unfold ILMethodDecoder.ReadCode at h
      simp only [hc] at h
      cases h
    | some code =>
      by_cases hb : byteAt code d.pos = 0xFE
      · have h1 := hFE d code hc hb
        rw [h] at h1
        injection h1 with h2
        have h3 : v = (((0xE1 + byteAt code (wrap32 (d.pos + 1))) % 256 : Nat) : Int) := h2
        omega
      · have h1 := hone d code hc hb
        rw [h] at h1
        injection h1 with h2
        have h3 : v = ((byteAt code d.pos : Nat) : Int) := h2
        have := byteAt_lt code d.pos
        omega
  · intro code hc
    refine ⟨hFE d code hc, hone d code hc, ?_⟩
    intro e code2 hc2 hFE2 hb heq
    rw [hone d code hc hb, hFE e code2 hc2 hFE2, heq]

/-- Witness for C23: on the body `[0xFE, 0x16]` and on the body `[0xF7]` `ReadCode` returns
the same value `0xF7`, which lies in `[0, 255]`. -/
theorem ReadCode_byte_value_witness :
    Except.map Prod.fst
        (ILMethodDecoder.new (bodyOfBytes [0xF7]) (fun _ => ObjRef.null)).ReadCode
      = Except.map Prod.fst
        (ILMethodDecoder.new (bodyOfBytes [0xFE, 0x16]) (fun _ => ObjRef.null)).ReadCode ∧
    Except.map Prod.fst
        (ILMethodDecoder.new (bodyOfBytes [0xFE, 0x16]) (fun _ => ObjRef.null)).ReadCode
      = .ok 0xF7 ∧
    ((0 : Int) ≤ 0xF7 ∧ (0xF7 : Int) ≤ 255) :=
  ⟨((ReadCode_byte_value
        (ILMethodDecoder.new (bodyOfBytes [0xF7]) (fun _ => ObjRef.null))).2 _ rfl).2.2
      (ILMethodDecoder.new (bodyOfBytes [0xFE, 0x16]) (fun _ => ObjRef.null)) _ rfl
      (by decide) (by decide) (by decide),
    ((ReadCode_byte_value
        (ILMethodDecoder.new (bodyOfBytes [0xFE, 0x16]) (fun _ => ObjRef.null))).2 _ rfl).1
      (by decide),
    (ReadCode_byte_value
        (ILMethodDecoder.new (bodyOfBytes [0xFE, 0x16]) (fun _ => ObjRef.null))).1 0xF7
      ((ILMethodDecoder.new (bodyOfBytes [0xFE, 0x16]) (fun _ => ObjRef.null)).advance 2) rfl⟩

/-! ### The cursor of `parseType` -/

theorem CorSigUncompressData_pos (mem : Nat → Nat) (p : Nat) :
    0 < (CorSigUncompressData mem p).2 := by
  unfold CorSigUncompressData
  dsimp only
  split_ifs <;> exact Nat.succ_pos _

theorem CorSigUncompressData_local (mem mem2 : Nat → Nat) (p : Nat)
    (h : ∀ i, i < (CorSigUncompressData mem p).2 → mem2 (p + i) = mem (p + i)) :
    CorSigUncompressData mem2 p = CorSigUncompressData mem p := by
  have h0 : mem2 p = mem p := by
    have := h 0 (CorSigUncompressData_pos mem p)
    simpa using this
  unfold CorSigUncompressData at h ⊢
  dsimp only at h ⊢
  rw [h0]
  split_ifs with a b
  · rfl
  · rw [if_neg a, if_pos b] at h
    rw [h 1 (by show 1 < 2; omega)]
  · rw [if_neg a, if_neg b] at h
    rw [h 1 (by show 1 < 4; omega), h 2 (by show 2 < 4; omega), h 3 (by show 3 < 4; omega)]

theorem CorSigUncompressSignedInt_snd (mem : Nat → Nat) (p : Nat) :
    (CorSigUncompressSignedInt mem p).2 = (CorSigUncompressData mem p).2 := rfl

theorem CorSigUncompressToken_snd (mem : Nat → Nat) (p : Nat) :
    (CorSigUncompressToken mem p).2 = (CorSigUncompressData mem p).2 := rfl

theorem CorSigUncompressSignedInt_local (mem mem2 : Nat → Nat) (p : Nat)
    (h : ∀ i, i < (CorSigUncompressSignedInt mem p).2 → mem2 (p + i) = mem (p + i)) :
    CorSigUncompressSignedInt mem2 p = CorSigUncompressSignedInt mem p := by
  unfold CorSigUncompressSignedInt
  rw [CorSigUncompressData_local mem mem2 p h]

theorem CorSigUncompressToken_local (mem mem2 : Nat → Nat) (p : Nat)
    (h : ∀ i, i < (CorSigUncompressToken mem p).2 → mem2 (p + i) = mem (p + i)) :
    CorSigUncompressToken mem2 p = CorSigUncompressToken mem p := by
  unfold CorSigUncompressToken
  rw [CorSigUncompressData_local mem mem2 p h]

theorem ReadUlong_local (r : SignatureReader) (mem2 : Nat → Nat)
    (h : ∀ i, r.sig ≤ i → i < r.ReadUlong.2.sig → mem2 i = r.mem i) :
    (SignatureReader.mk mem2 r.sig).ReadUlong =
      (r.ReadUlong.1, SignatureReader.mk mem2 r.ReadUlong.2.sig) := by
  have e := CorSigUncompressData_local r.mem mem2 r.sig
    (fun i hi => h (r.sig + i) (Nat.le_add_right _ _) (Nat.add_lt_add_left hi _))
  unfold SignatureReader.ReadUlong
  dsimp only
  rw [e]

theorem ReadInt_local (r : SignatureReader) (mem2 : Nat → Nat)
    (h : ∀ i, r.sig ≤ i → i < r.ReadInt.2.sig → mem2 i = r.mem i) :
    (SignatureReader.mk mem2 r.sig).ReadInt =
      (r.ReadInt.1, SignatureReader.mk mem2 r.ReadInt.2.sig) := by
  have e := CorSigUncompressSignedInt_local r.mem mem2 r.sig
    (fun i hi => h (r.sig + i) (Nat.le_add_right _ _) (Nat.add_lt_add_left hi _))
  unfold SignatureReader.ReadInt
  dsimp only
  rw [e]

theorem ReadToken_local (r : SignatureReader) (mem2 : Nat → Nat)
    (h : ∀ i, r.sig ≤ i → i < r.ReadToken.2.sig → mem2 i = r.mem i) :
    (SignatureReader.mk mem2 r.sig).ReadToken =
      (r.ReadToken.1, SignatureReader.mk mem2 r.ReadToken.2.sig) := by
  have e := CorSigUncompressToken_local r.mem mem2 r.sig
    (fun i hi => h (r.sig + i) (Nat.le_add_right _ _) (Nat.add_lt_add_left hi _))
  unfold SignatureReader.ReadToken
  dsimp only
  rw [e]

theorem parseType_token (fuel : Nat) (r : SignatureReader) (d : String)
    (h : r.ReadUlong.1 = ELEMENT_TYPE_VALUETYPE ∨ r.ReadUlong.1 = ELEMENT_TYPE_CLASS) :
    SignatureReader.parseType (fuel + 1) r d =
      some (ObjRef.boxInt32 r.ReadUlong.2.ReadToken.1, r.ReadUlong.2.ReadToken.2, d) := by
  unfold SignatureReader.parseType
  rcases h with h | h <;> simp [h]

theorem parseType_tag (r : SignatureReader)
    (hA : r.ReadUlong.1 ≠ ELEMENT_TYPE_ARRAY) (hS : r.ReadUlong.1 ≠ ELEMENT_TYPE_SZARRAY)
    (hV : r.ReadUlong.1 ≠ ELEMENT_TYPE_VALUETYPE) (hC : r.ReadUlong.1 ≠ ELEMENT_TYPE_CLASS) :
    (SignatureReader.parseType 1 r "").isSome = true ∧
    ∀ (q : SignatureReader), q.ReadUlong.1 = r.ReadUlong.1 → ∀ (fuel : Nat) (d : String),
      SignatureReader.parseType (fuel + 1) q d =
        (SignatureReader.parseType 1 r "").map (fun x => (x.1, q.ReadUlong.2, d)) := by
  have hc : r.ReadUlong.1 = 2 ∨ r.ReadUlong.1 = 3 ∨ r.ReadUlong.1 = 4 ∨ r.ReadUlong.1 = 5 ∨
      r.ReadUlong.1 = 6 ∨ r.ReadUlong.1 = 7 ∨ r.ReadUlong.1 = 8 ∨ r.ReadUlong.1 = 9 ∨
      r.ReadUlong.1 = 10 ∨ r.ReadUlong.1 = 11 ∨ r.ReadUlong.1 = 12 ∨ r.ReadUlong.1 = 13 ∨
      r.ReadUlong.1 = 24 ∨ r.ReadUlong.1 = 25 ∨
      r.ReadUlong.1 = 14 ∨ r.ReadUlong.1 = 28 ∨ r.ReadUlong.1 = 15 ∨ r.ReadUlong.1 = 27 ∨
      (r.ReadUlong.1 ≠ 2 ∧ r.ReadUlong.1 ≠ 3 ∧ r.ReadUlong.1 ≠ 4 ∧ r.ReadUlong.1 ≠ 5 ∧
      r.ReadUlong.1 ≠ 6 ∧ r.ReadUlong.1 ≠ 7 ∧ r.ReadUlong.1 ≠ 8 ∧ r.ReadUlong.1 ≠ 9 ∧
      r.ReadUlong.1 ≠ 10 ∧ r.ReadUlong.1 ≠ 11 ∧ r.ReadUlong.1 ≠ 12 ∧ r.ReadUlong.1 ≠ 13 ∧
      r.ReadUlong.1 ≠ 24 ∧ r.ReadUlong.1 ≠ 25 ∧
      r.ReadUlong.1 ≠ 14 ∧ r.ReadUlong.1 ≠ 28 ∧ r.ReadUlong.1 ≠ 15 ∧ r.ReadUlong.1 ≠ 27) := by
    omega
  simp only [ELEMENT_TYPE_ARRAY, ELEMENT_TYPE_SZARRAY, ELEMENT_TYPE_VALUETYPE,
    ELEMENT_TYPE_CLASS] at hA hS hV hC
  rcases hc with h | h | h | h | h | h | h | h | h | h | h | h | h | h | h | h | h | h | h
  all_goals
    refine ⟨by simp [SignatureReader.parseType, h, hA, hS, hV, hC], ?_⟩
    intro q hq fuel d
    first
      | (rw [h] at hq
         simp [SignatureReader.parseType, h, hq])
      | (have hA2 := hA
         have hS2 := hS
         have hV2 := hV
         have hC2 := hC
         have h2 := h
         rw [← hq] at hA2 hS2 hV2 hC2 h2
         simp [SignatureReader.parseType, h, h2, hA, hS, hV, hC, hA2, hS2, hV2, hC2])

theorem ReadUlong_mem (r : SignatureReader) :
    r.ReadUlong.2.mem = r.mem ∧ r.sig ≤ r.ReadUlong.2.sig :=
  ⟨rfl, Nat.le_add_right _ _⟩

theorem ReadInt_mem (r : SignatureReader) :
    r.ReadInt.2.mem = r.mem ∧ r.sig ≤ r.ReadInt.2.sig :=
  ⟨rfl, Nat.le_add_right _ _⟩

theorem ReadToken_mem (r : SignatureReader) :
    r.ReadToken.2.mem = r.mem ∧ r.sig ≤ r.ReadToken.2.sig :=
  ⟨rfl, Nat.le_add_right _ _⟩

theorem parseType_frame : ∀ (fuel : Nat) (r : SignatureReader) (d : String) (res : ObjRef)
    (r2 : SignatureReader) (text : String),
    SignatureReader.parseType fuel r d = some (res, r2, text) →
    r2.mem = r.mem ∧ r.sig ≤ r2.sig ∧
    ∀ mem2 : Nat → Nat, (∀ i, r.sig ≤ i → i < r2.sig → mem2 i = r.mem i) →
      SignatureReader.parseType fuel (SignatureReader.mk mem2 r.sig) d =
        some (res, SignatureReader.mk mem2 r2.sig, text) := by
  intro fuel
  induction fuel with
  | zero => intro r d res r2 text h; cases h
  | succ n ih =>
    intro r d res r2 text h
    obtain ⟨hm1, hs1⟩ := ReadUlong_mem r
    by_cases hA : r.ReadUlong.1 = ELEMENT_TYPE_ARRAY
    · rw [parseType_array_unfold n r d hA] at h
      cases hx : SignatureReader.parseType n r.ReadUlong.2 d with
      | none => rw [hx] at h; cases h
      | some x =>
        obtain ⟨b, q, t⟩ := x
        rw [hx] at h
        simp only [Option.map_some', Option.some.injEq, Prod.mk.injEq] at h
        obtain ⟨hb, hq, ht⟩ := h
        obtain ⟨im, is, iframe⟩ := ih _ _ _ _ _ hx
        obtain ⟨jm, js⟩ := ReadInt_mem q
        subst hb
        subst hq
        subst ht
        refine ⟨by rw [jm, im, hm1], by omega, ?_⟩
        intro mem2 hagree
        have e1 := ReadUlong_local r mem2 (fun i h1 h2 => hagree i h1 (by omega))
        have e2 := iframe mem2 (fun i h1 h2 => by
          rw [hm1]; exact hagree i (by omega) (by omega))
        have e3 := ReadInt_local q mem2 (fun i h1 h2 => by
          rw [im, hm1]; exact hagree i (by omega) (by omega))
        have hA2 : (SignatureReader.mk mem2 r.sig).ReadUlong.1 = ELEMENT_TYPE_ARRAY := by
          rw [e1]; exact hA
        rw [parseType_array_unfold n _ d hA2, e1]
        dsimp only
        rw [e2]
        simp only [Option.map_some']
        rw [e3]
    · by_cases hS : r.ReadUlong.1 = ELEMENT_TYPE_SZARRAY
      · rw [parseType_szarray_unfold n r d hS] at h
        obtain ⟨im, is, iframe⟩ := ih _ _ _ _ _ h
        refine ⟨by rw [im, hm1], by omega, ?_⟩
        intro mem2 hagree
        have e1 := ReadUlong_local r mem2 (fun i h1 h2 => hagree i h1 (by omega))
        have e2 := iframe mem2 (fun i h1 h2 => by
          rw [hm1]; exact hagree i (by omega) h2)
        have hS2 : (SignatureReader.mk mem2 r.sig).ReadUlong.1 = ELEMENT_TYPE_SZARRAY := by
          rw [e1]; exact hS
        rw [parseType_szarray_unfold n _ d hS2, e1]
        exact e2
      · by_cases hT : r.ReadUlong.1 = ELEMENT_TYPE_VALUETYPE ∨ r.ReadUlong.1 = ELEMENT_TYPE_CLASS
        · rw [parseType_token n r d hT] at h
          simp only [Option.some.injEq, Prod.mk.injEq] at h
          obtain ⟨hb, hq, ht⟩ := h
          obtain ⟨jm, js⟩ := ReadToken_mem r.ReadUlong.2
          subst hb
          subst hq
          subst ht
          refine ⟨by rw [jm, hm1], by omega, ?_⟩
          intro mem2 hagree
          have e1 := ReadUlong_local r mem2 (fun i h1 h2 => hagree i h1 (by omega))
          have e3 := ReadToken_local r.ReadUlong.2 mem2 (fun i h1 h2 => by
            rw [hm1]; exact hagree i (by omega) h2)
          have hT2 : (SignatureReader.mk mem2 r.sig).ReadUlong.1 = ELEMENT_TYPE_VALUETYPE ∨
              (SignatureReader.mk mem2 r.sig).ReadUlong.1 = ELEMENT_TYPE_CLASS := by
            rw [e1]; exact hT
          rw [parseType_token n _ d hT2, e1]
          dsimp only
          rw [e3]
        · obtain ⟨hsome, htag⟩ := parseType_tag r hA hS (fun e => hT (Or.inl e))
            (fun e => hT (Or.inr e))
          rw [htag r rfl n d] at h
          cases hx : SignatureReader.parseType 1 r "" with
          | none => rw [hx] at hsome; cases hsome
          | some x =>
            rw [hx] at h
            simp only [Option.map_some', Option.some.injEq, Prod.mk.injEq] at h
            obtain ⟨hb, hq, ht⟩ := h
            subst hb
            subst hq
            subst ht
            refine ⟨hm1, hs1, ?_⟩
            intro mem2 hagree
            have e1 := ReadUlong_local r mem2 hagree
            rw [htag (SignatureReader.mk mem2 r.sig) (by rw [e1]) n d, hx, e1]
            rfl

/-- C24: how far `parseType` moves the cursor. Every read moves the cursor by the length of
the one compressed value it decodes. A primitive tag, `PTR`, `FNPTR` and a tag that no `case`
names leave the cursor right after the tag (the last three return `NULL` and leave `decls`
as it was); `CLASS` and `VALUETYPE` leave it after the tag and one compressed token;
`SZARRAY` leaves it where the parse of the element type leaves it; `ARRAY` leaves it one
compressed signed integer after the element type. The bytes from the returned cursor on are
not read: the result is the same on every memory that agrees on the bytes between the
initial and the returned cursor, so the pointee of a `PTR` and the size and bound lists of an
`ARRAY` are still to be read when `parseType` returns. -/
theorem parseType_cursor (fuel : Nat) (r : SignatureReader) (decls : String) :
    (r.ReadUlong.2 = SignatureReader.mk r.mem (r.sig + (CorSigUncompressData r.mem r.sig).2)) ∧
    (∀ q : SignatureReader, q.ReadToken.2 =
      SignatureReader.mk q.mem (q.sig + (CorSigUncompressToken q.mem q.sig).2)) ∧
    (∀ q : SignatureReader, q.ReadInt.2 =
      SignatureReader.mk q.mem (q.sig + (CorSigUncompressSignedInt q.mem q.sig).2)) ∧
    (∀ p ∈ specPrimitiveTypes, r.ReadUlong.1 = p.1 →
      SignatureReader.parseType (fuel + 1) r decls
        = some (ObjRef.type p.2, r.ReadUlong.2, decls)) ∧
    (r.ReadUlong.1 = ELEMENT_TYPE_PTR ∨ r.ReadUlong.1 = ELEMENT_TYPE_FNPTR ∨
        ((∀ p ∈ specPrimitiveTypes, r.ReadUlong.1 ≠ p.1) ∧
          r.ReadUlong.1 ≠ ELEMENT_TYPE_VALUETYPE ∧ r.ReadUlong.1 ≠ ELEMENT_TYPE_CLASS ∧
          r.ReadUlong.1 ≠ ELEMENT_TYPE_ARRAY ∧ r.ReadUlong.1 ≠ ELEMENT_TYPE_SZARRAY) →
      SignatureReader.parseType (fuel + 1) r decls = some (ObjRef.null, r.ReadUlong.2, decls)) ∧
    (r.ReadUlong.1 = ELEMENT_TYPE_VALUETYPE ∨ r.ReadUlong.1 = ELEMENT_TYPE_CLASS →
      SignatureReader.parseType (fuel + 1) r decls
        = some (ObjRef.boxInt32 r.ReadUlong.2.ReadToken.1, r.ReadUlong.2.ReadToken.2, decls)) ∧
    (r.ReadUlong.1 = ELEMENT_TYPE_SZARRAY → ∀ base r2 text,
      SignatureReader.parseType fuel r.ReadUlong.2 (decls ++ "[]") = some (base, r2, text) →
      SignatureReader.parseType (fuel + 1) r decls = some (base, r2, text)) ∧
    (r.ReadUlong.1 = ELEMENT_TYPE_ARRAY → ∀ base r2 text,
      SignatureReader.parseType fuel r.ReadUlong.2 decls = some (base, r2, text) →
      ∃ text2, SignatureReader.parseType (fuel + 1) r decls
        = some (base, r2.ReadInt.2, text2)) ∧
    (∀ res r2 text, SignatureReader.parseType fuel r decls = some (res, r2, text) →
      r2.mem = r.mem ∧ r.sig ≤ r2.sig ∧
      ∀ mem2 : Nat → Nat, (∀ i, r.sig ≤ i → i < r2.sig → mem2 i = r.mem i) →
        SignatureReader.parseType fuel (SignatureReader.mk mem2 r.sig) decls =
          some (res, SignatureReader.mk mem2 r2.sig, text)) := by
  refine ⟨rfl, fun _ => rfl, fun _ => rfl, ?_, ?_, parseType_token fuel r decls, ?_, ?_,
    parseType_frame fuel r decls⟩
  · intro p hp h
    simp only [specPrimitiveTypes, List.mem_cons, List.mem_singleton, List.not_mem_nil,
      or_false] at hp
    unfold SignatureReader.parseType
    rcases hp with rfl | rfl | rfl | rfl | rfl | rfl | rfl | rfl | rfl | rfl | rfl | rfl |
      rfl | rfl | rfl | rfl <;> simp [h]
  · intro h
    rcases h with h | h | ⟨hp, hV, hC, hA, hS⟩
    · unfold SignatureReader.parseType
      simp [h]
    · unfold SignatureReader.parseType
      simp [h]
    · simp only [specPrimitiveTypes, List.mem_cons, List.mem_singleton, List.not_mem_nil,
        or_false, forall_eq_or_imp, forall_eq] at hp
      obtain ⟨h1, h2, h3, h4, h5, h6, h7, h8, h9, h10, h11, h12, h13, h14, h15, h16⟩ := hp
      unfold SignatureReader.parseType
      simp [h1, h2, h3, h4, h5, h6, h7, h8, h9, h10, h11, h12, h13, h14, h15, h16,
        hV, hC, hA, hS]
  · intro hS base r2 text hel
    rw [parseType_szarray_unfold fuel r decls hS, hel]
  · intro hA base r2 text hel
    rw [parseType_array_unfold fuel r decls hA, hel]
    exact ⟨_, rfl⟩

/-- Witness for C24. On `[0x08]` (`I4`) the cursor ends at 1. On `[0x0F, 0x08]` (`PTR` to
`I4`) `parseType` returns `NULL` with the cursor at 1, and the next read returns the pointee
tag `I4`. On `[0x12, 0x49]` (`CLASS` and a token) the cursor ends at 2, on `[0x1D, 0x0E]`
(`SZARRAY` of `STRING`) at 2. On `[0x14, 0x08, 0x02, 0x02, 0x03, 0x04, 0x00]` (`ARRAY` of
`I4`, the rank byte, then two sizes and no lower bound) the cursor ends at 3, the next read
returns the number of sizes, and the result is the same on the memory `[0x14, 0x08, 0x02]`
without the lists. -/
theorem parseType_cursor_witness :
    SignatureReader.parseType 1 (SignatureReader.mk (sigOfBytes [0x08]) 0) "" =
      some (ObjRef.type SysType.Int32, SignatureReader.mk (sigOfBytes [0x08]) 1, "") ∧
    (SignatureReader.parseType 1 (SignatureReader.mk (sigOfBytes [0x0F, 0x08]) 0) "" =
      some (ObjRef.null, SignatureReader.mk (sigOfBytes [0x0F, 0x08]) 1, "") ∧
      (SignatureReader.mk (sigOfBytes [0x0F, 0x08]) 1).ReadUlong.1 = ELEMENT_TYPE_I4) ∧
    SignatureReader.parseType 1 (SignatureReader.mk (sigOfBytes [0x12, 0x49]) 0) "" =
      some (ObjRef.boxInt32 0x01000012, SignatureReader.mk (sigOfBytes [0x12, 0x49]) 2, "") ∧
    SignatureReader.parseType 2 (SignatureReader.mk (sigOfBytes [0x1D, 0x0E]) 0) "" =
      some (ObjRef.type SysType.String, SignatureReader.mk (sigOfBytes [0x1D, 0x0E]) 2, "[]") ∧
    ((∃ text2, SignatureReader.parseType 2
        (SignatureReader.mk (sigOfBytes [0x14, 0x08, 0x02, 0x02, 0x03, 0x04, 0x00]) 0) "" =
      some (ObjRef.type SysType.Int32,
        SignatureReader.mk (sigOfBytes [0x14, 0x08, 0x02, 0x02, 0x03, 0x04, 0x00]) 3, text2)) ∧
      (SignatureReader.mk
        (sigOfBytes [0x14, 0x08, 0x02, 0x02, 0x03, 0x04, 0x00]) 3).ReadUlong.1 = 2) ∧
    SignatureReader.parseType 2 (SignatureReader.mk (sigOfBytes [0x14, 0x08, 0x02]) 0) "" =
      some (ObjRef.type SysType.Int32, SignatureReader.mk (sigOfBytes [0x14, 0x08, 0x02]) 3,
        "[,]") :=
  ⟨(parseType_cursor 0 (SignatureReader.mk (sigOfBytes [0x08]) 0) "").2.2.2.1
      (ELEMENT_TYPE_I4, SysType.Int32) (by decide) rfl,
    ⟨(parseType_cursor 0 (SignatureReader.mk (sigOfBytes [0x0F, 0x08]) 0) "").2.2.2.2.1
      (Or.inl rfl), rfl⟩,
    (parseType_cursor 0 (SignatureReader.mk (sigOfBytes [0x12, 0x49]) 0) "").2.2.2.2.2.1
      (Or.inr rfl),
    (parseType_cursor 1 (SignatureReader.mk (sigOfBytes [0x1D, 0x0E]) 0) "").2.2.2.2.2.2.1 rfl
      (ObjRef.type SysType.String) (SignatureReader.mk (sigOfBytes [0x1D, 0x0E]) 2) "[]" rfl,
    ⟨(parseType_cursor 1
        (SignatureReader.mk (sigOfBytes [0x14, 0x08, 0x02, 0x02, 0x03, 0x04, 0x00]) 0)
        "").2.2.2.2.2.2.2.1 rfl (ObjRef.type SysType.Int32)
        (SignatureReader.mk (sigOfBytes [0x14, 0x08, 0x02, 0x02, 0x03, 0x04, 0x00]) 2) "" rfl,
      rfl⟩,
    ((parseType_cursor 2
        (SignatureReader.mk (sigOfBytes [0x14, 0x08, 0x02, 0x02, 0x03, 0x04, 0x00]) 0)
        "").2.2.2.2.2.2.2.2 (ObjRef.type SysType.Int32)
        (SignatureReader.mk (sigOfBytes [0x14, 0x08, 0x02, 0x02, 0x03, 0x04, 0x00]) 3) "[,]"
        rfl).2.2 (sigOfBytes [0x14, 0x08, 0x02])
      (fun i _ h => by
        have h3 : i < 3 := h
        interval_cases i <;> rfl)⟩

end CILPE.MdDecoder
